import Mathlib

/-! dislock: two Redis-based RedLock implementations

A shallow embedding of the two lock coordinators of the repository

* `code/RedLock.{h,cc}`         class `RedLock`  (std::string, std::chrono),
* `redlock-cpp/redlock.{h,cpp}` class `CRedLock` (sds strings, `time(NULL)`),

and theorems about them.

Conventions of the embedding.

* Everything outside the repository (hiredis, the clock, the random device,
  `sleep`, `/dev/urandom`) is an environment `Sys σ` over an arbitrary state
  type `σ`: every theorem quantified over `Sys σ` holds for every behaviour
  of the authorities, of the clock and of the random source.
* A `redisContext*` is a handle `Nat`; the fields read through the pointer
  (`err`, `errstr`, `tcp.host`, `tcp.port`) are read from the environment.
  Only non-null contexts are ever stored in the server lists.
* `World σ` pairs the environment state with a log of the per-node calls,
  connection attempts and sleeps made so far, in order.  The log is a ghost
  field: nothing reads it.
* `int` / `int64_t` values are `Int`.  Narrowing conversions to `int` are
  written `wrap32`.  `int` arithmetic that can leave the range of `int`
  (`retry_count_ + 1`, `(int)time(NULL) * 1000`) wraps as well, which is
  what the usual build computes; a theorem that needs such a sum to stay in
  range says so in a hypothesis.  `int64_t` sums of clock readings and
  list sizes stay far inside their ranges and are not wrapped.
* Float arithmetic (`ttl * 0.01f`) is IEEE-754 binary32 with
  round-to-nearest-even, computed exactly on integers (`round24`).
-/

namespace Dislock

/-! ## Machine arithmetic -/

/-- Largest `int`. -/
def INT_MAX : Int := 2147483647

/-- Conversion of an integer value to a 32-bit two's-complement `int`. -/
def wrap32 (x : Int) : Int := (x + 2147483648) % 4294967296 - 2147483648

/-- Conversion of an integer value to a 32-bit unsigned integer. -/
def wrapU32 (x : Int) : Nat := (x % 4294967296).toNat

/-- Auxiliary for `bitLength`: number of binary digits, with fuel. -/
def bitsAux : Nat → Nat → Nat
  | 0, _ => 0
  | fuel + 1, n => if n = 0 then 0 else bitsAux fuel (n / 2) + 1

/-- Number of binary digits of `n` (exact for `n < 2^64`). -/
def bitLength (n : Nat) : Nat := bitsAux 64 n

/-- Rounding of a natural number to 24 significant binary digits, ties to
even: the binary32 rounding of the value `n * 2^e` for any fixed scale `e`
in the normal range. -/
def round24 (n : Nat) : Nat :=
  let s := bitLength n - 24
  if s = 0 then n else
  let q := n / 2 ^ s
  let r := n % 2 ^ s
  let half := 2 ^ (s - 1)
  if r < half then q * 2 ^ s
  else if half < r then (q + 1) * 2 ^ s
  else if q % 2 = 0 then q * 2 ^ s else (q + 1) * 2 ^ s

/-- The binary32 constant `0.01f` is `10737418 / 2^30`. -/
def DRIFT_FACTOR_NUM : Nat := 10737418

/-- Numerator over `2^30`, as a signed integer, of the binary32 product
`(float)ttl * 0.01f`: `ttl` is first converted to binary32, the exact
product is then rounded to binary32. -/
def f32_mul_drift (ttl : Int) : Int :=
  Int.sign ttl * (round24 (round24 ttl.natAbs * DRIFT_FACTOR_NUM) : Nat)

/-- Truncation toward zero of the binary32 value `v / 2^30` to an integer. -/
def f32_to_int (v : Int) : Int := Int.tdiv v 1073741824

/-- The binary32 sum `v / 2^30 + 2.0f`, again as a numerator over `2^30`. -/
def f32_add_two (v : Int) : Int :=
  Int.sign (v + 2147483648) * (round24 (v + 2147483648).natAbs : Nat)

/-! ## hiredis -/

/-- The fields of a hiredis `redisReply` that the program reads. -/
structure redisReply where
  type : Int
  integer : Int
  str : Option String
deriving DecidableEq, Repr

def REDIS_REPLY_STRING : Int := 1
def REDIS_REPLY_ARRAY : Int := 2
def REDIS_REPLY_INTEGER : Int := 3
def REDIS_REPLY_NIL : Int := 4
def REDIS_REPLY_STATUS : Int := 5
def REDIS_REPLY_ERROR : Int := 6

/-- The external collaborators of the program, over an environment state
`σ`.  Every operation returns its result and the next environment state. -/
structure Sys (σ : Type) where
  /-- `redisConnectWithTimeout(host, port, 1.5s)`: `none` is a null
  pointer. -/
  redisConnectWithTimeout : String → Int → σ → Option Nat × σ
  /-- `context->err`. -/
  ctx_err : σ → Nat → Int
  /-- `context->errstr`. -/
  ctx_errstr : σ → Nat → String
  /-- `context->tcp.host`. -/
  ctx_tcp_host : σ → Nat → String
  /-- `context->tcp.port`. -/
  ctx_tcp_port : σ → Nat → Int
  /-- `redisFree(context)`. -/
  redisFree : Nat → σ → σ
  /-- `redisCommandArgv(context, argc, argv, ...)` (also the formatted
  `redisCommand`): `none` is a null reply. -/
  redisCommandArgv : Nat → List String → σ → Option redisReply × σ
  /-- `system_clock::now()` in milliseconds since the epoch. -/
  system_clock_now : σ → Int × σ
  /-- One draw `dist(rd)` of `std::uniform_int_distribution<int> dist(a, b)`
  from the random device. -/
  uniform_int : Int → Int → σ → Int × σ
  /-- `std::this_thread::sleep_for(milliseconds(ms))`. -/
  sleep_for : Int → σ → σ
  /-- `open("/dev/urandom", O_RDONLY)`. -/
  open_urandom : σ → Int × σ
  /-- `read(fd, buffer, count)`: return value and the bytes now in the
  buffer. -/
  read : Int → Nat → σ → (Int × List Nat) × σ
  /-- `time(NULL)`. -/
  time : σ → Int × σ
  /-- `rand()`. -/
  rand : σ → Int × σ
  /-- `usleep(usec)`. -/
  usleep : Nat → σ → σ

/-- What the log records. -/
inductive Event where
  /-- `redisConnectWithTimeout(host, port)` was called. -/
  | connect (host : String) (port : Int)
  /-- `RedLock::lock_instance` was called and returned `ok`. -/
  | lock_instance (ctx : Nat) (resource value : String) (ttl_ms : Int) (ok : Bool)
  /-- `RedLock::unlock_instance` was called and returned `ok`. -/
  | unlock_instance (ctx : Nat) (resource value : String) (ok : Bool)
  /-- `RedLock::continue_lock_instance` was called and returned `ok`. -/
  | continue_lock_instance (ctx : Nat) (resource value : String) (ttl_ms : Int) (ok : Bool)
  /-- `sleep_for(ms)` was called. -/
  | sleep (ms : Int)
  /-- `CRedLock::LockInstance` was called and returned `ok`. -/
  | LockInstance (c : Nat) (resource val : String) (ttl : Int) (ok : Bool)
  /-- `CRedLock::ContinueLockInstance` was called with `val`, offered
  `proof` (the member `m_continueLock.m_val`) as the old token in `ARGV[1]`,
  and returned `ok`. -/
  | ContinueLockInstance (c : Nat) (resource : String) (proof : Option String)
      (val : String) (ttl : Int) (ok : Bool)
  /-- `CRedLock::UnlockInstance` was called. -/
  | UnlockInstance (c : Nat) (resource val : Option String)
  /-- `usleep(usec)` was called. -/
  | usleep (usec : Nat)
deriving DecidableEq, Repr

/-- Environment state together with the log of calls made so far. -/
structure World (σ : Type) where
  env : σ
  log : List Event

/-- Append one event to the log. -/
def World.record {σ : Type} (w : World σ) (e : Event) : World σ :=
  { env := w.env, log := w.log ++ [e] }

/-- Replace the environment state, keeping the log. -/
def World.withEnv {σ : Type} (w : World σ) (e : σ) : World σ :=
  { env := e, log := w.log }

/-! ## Token rendering -/

/-- One lower-case hexadecimal digit (`%x`). -/
def hexDigitLower (d : Nat) : Char :=
  if d < 10 then Char.ofNat (48 + d) else Char.ofNat (87 + d)

/-- One upper-case hexadecimal digit (`%X`). -/
def hexDigitUpper (d : Nat) : Char :=
  if d < 10 then Char.ofNat (48 + d) else Char.ofNat (55 + d)

/-- `"%08x"` of a `uint32_t`. -/
def fmt_08x (n : Nat) : List Char :=
  (List.range 8).map (fun i => hexDigitLower (n / 16 ^ (7 - i) % 16))

/-- `"%02X"` of an `unsigned char`. -/
def fmt_02X (b : Nat) : List Char :=
  [hexDigitUpper (b / 16 % 16), hexDigitUpper (b % 16)]

/-! ## `code/RedLock.h`, `code/RedLock.cc` -/

/-- `struct Lock`. -/
structure Lock where
  resource_ : String
  value_ : String
  valid_time_ : Int
deriving DecidableEq, Repr

/-- `Lock()`: empty strings, validity 0. -/
def Lock.default : Lock := { resource_ := "", value_ := "", valid_time_ := 0 }

/-- `Lock(resource, value, int valid_time)`: the third parameter is an
`int`, so an `int64_t` argument is narrowed. -/
def Lock.ctor (resource value : String) (valid_time : Int) : Lock :=
  { resource_ := resource, value_ := value, valid_time_ := wrap32 valid_time }

def DEFAULT_LOCK_RETRY_COUNT : Int := 3
def DEFAULT_LOCK_RETRY_DELAY : Int := 200

def UNLOCK_SCRIPT : String :=
  "if redis.call('get', KEYS[1]) == ARGV[1] then " ++
  "return redis.call('del', KEYS[1]) " ++
  "else " ++
  "return 0 " ++
  "end"

def CONTINUE_LOCK_SCRIPT : String :=
  "if redis.call('get', KEYS[1]) == ARGV[1] then " ++
  "return redis.call('pexpire', KEYS[1], ARGV[2]) " ++
  "end"

/-- The data members of `class RedLock` (the scripts are constants). -/
structure RedLock where
  servers_ : List Nat
  quorum_ : Int
  retry_count_ : Int
  retry_delay_ms_ : Int
deriving DecidableEq, Repr

/-- A freshly constructed `RedLock`: no servers, default retry settings;
`quorum_` has no initialiser, its value `q0` is indeterminate. -/
def RedLock.fresh (q0 : Int) : RedLock :=
  { servers_ := [], quorum_ := q0,
    retry_count_ := DEFAULT_LOCK_RETRY_COUNT,
    retry_delay_ms_ := DEFAULT_LOCK_RETRY_DELAY }

/-- `get_current_time_ms()`. -/
def get_current_time_ms {σ : Type} (S : Sys σ) (w : World σ) : Int × World σ :=
  let r := S.system_clock_now w.env
  (r.1, w.withEnv r.2)

/-- The five draws `for (auto &num : buffer) num = dist(rd)` of
`generate_unique_id`, each stored into a `uint32_t`. -/
def draw_words {σ : Type} (S : Sys σ) : Nat → World σ → List Nat × World σ
  | 0, w => ([], w)
  | n + 1, w =>
    let r := S.uniform_int 0 INT_MAX w.env
    let rest := draw_words S n (w.withEnv r.2)
    (wrapU32 r.1 :: rest.1, rest.2)

/-- The `snprintf(buf, 41, "%08x%08x%08x%08x%08x", ...)` of
`generate_unique_id`, cut to 40 characters. -/
def render_unique_id (buffer : List Nat) : String :=
  String.mk (((buffer.take 5).map fmt_08x).flatten.take 40)

/-- `generate_unique_id()`. -/
def generate_unique_id {σ : Type} (S : Sys σ) (w : World σ) : String × World σ :=
  let r := draw_words S 5 w
  (render_unique_id r.1, r.2)

/-- `RedLock::add_server(host, port, err)`: result, the object afterwards,
the out-parameter `err` afterwards.  The conversion of `size() / 2 + 1` to
`int` is exact for every list that fits in memory. -/
def RedLock.add_server {σ : Type} (S : Sys σ) (self : RedLock) (host : String)
    (port : Int) (err : String) (w : World σ) : (Bool × RedLock × String) × World σ :=
  if self.servers_.any (fun ctx =>
      decide (S.ctx_err w.env ctx = 0) &&
        (decide (host = S.ctx_tcp_host w.env ctx) && decide (port = S.ctx_tcp_port w.env ctx)))
  then ((false, self, "Redis server already exists"), w)
  else
    let r := S.redisConnectWithTimeout host port w.env
    let w1 := (w.withEnv r.2).record (Event.connect host port)
    match r.1 with
    | none =>
      ((false, self, "Redis connection error: can't allocate redis context"), w1)
    | some context =>
      if S.ctx_err w1.env context ≠ 0 then
        ((false, self, S.ctx_errstr w1.env context), w1.withEnv (S.redisFree context w1.env))
      else
        let servers := self.servers_ ++ [context]
        ((true, { self with servers_ := servers, quorum_ := (servers.length / 2 : Nat) + 1 }, err), w1)

/-- `RedLock::lock_instance`.  The sixth argument is the decimal text of
`ttl_ms` (the source passes `c_str()` of the temporary
`std::to_string(ttl_ms)`). -/
def RedLock.lock_instance {σ : Type} (S : Sys σ) (context : Nat) (resource value : String)
    (ttl_ms : Int) (w : World σ) : Bool × World σ :=
  if S.ctx_err w.env context ≠ 0 then
    (false, w.record (Event.lock_instance context resource value ttl_ms false))
  else
    let r := S.redisCommandArgv context
      ["SET", resource, value, "NX", "PX", toString ttl_ms] w.env
    let ok : Bool :=
      match r.1 with
      | none => false
      | some reply =>
        if reply.type = REDIS_REPLY_STATUS then decide (reply.str = some "ok") else false
    (ok, (w.withEnv r.2).record (Event.lock_instance context resource value ttl_ms ok))

/-- `RedLock::unlock_instance`. -/
def RedLock.unlock_instance {σ : Type} (S : Sys σ) (context : Nat) (resource value : String)
    (w : World σ) : Bool × World σ :=
  let r := S.redisCommandArgv context ["EVAL", UNLOCK_SCRIPT, "1", resource, value] w.env
  let ok : Bool :=
    match r.1 with
    | none => false
    | some reply => decide (reply.type = REDIS_REPLY_INTEGER) && decide (reply.integer = 1)
  (ok, (w.withEnv r.2).record (Event.unlock_instance context resource value ok))

/-- `RedLock::continue_lock_instance`. -/
def RedLock.continue_lock_instance {σ : Type} (S : Sys σ) (context : Nat)
    (resource value : String) (ttl_ms : Int) (w : World σ) : Bool × World σ :=
  let r := S.redisCommandArgv context
    ["EVAL", CONTINUE_LOCK_SCRIPT, "1", resource, value, toString ttl_ms] w.env
  let ok : Bool :=
    match r.1 with
    | none => false
    | some reply => decide (reply.type = REDIS_REPLY_INTEGER) && decide (reply.integer = 1)
  (ok, (w.withEnv r.2).record (Event.continue_lock_instance context resource value ttl_ms ok))

/-- Step 1 of a round of `RedLock::lock`:
`for (auto &ctx : servers_) if (lock_instance(...)) success_count++;`. -/
def RedLock.lock_fanout {σ : Type} (S : Sys σ) (resource value : String) (ttl_ms : Int) :
    List Nat → Int → World σ → Int × World σ
  | [], success_count, w => (success_count, w)
  | ctx :: rest, success_count, w =>
    let r := RedLock.lock_instance S ctx resource value ttl_ms w
    RedLock.lock_fanout S resource value ttl_ms rest
      (if r.1 then success_count + 1 else success_count) r.2

/-- The loop `for (auto &ctx : servers_) unlock_instance(ctx, resource, value);`. -/
def RedLock.unlock_fanout {σ : Type} (S : Sys σ) (resource value : String) :
    List Nat → World σ → World σ
  | [], w => w
  | ctx :: rest, w =>
    RedLock.unlock_fanout S resource value rest (RedLock.unlock_instance S ctx resource value w).2

/-- Step 1 of a round of `RedLock::continue_lock`. -/
def RedLock.continue_fanout {σ : Type} (S : Sys σ) (resource value : String) (ttl_ms : Int) :
    List Nat → Int → World σ → Int × World σ
  | [], success_count, w => (success_count, w)
  | ctx :: rest, success_count, w =>
    let r := RedLock.continue_lock_instance S ctx resource value ttl_ms w
    RedLock.continue_fanout S resource value ttl_ms rest
      (if r.1 then success_count + 1 else success_count) r.2

/-- `static_cast<int64_t>(ttl_ms * DEFAULT_LOCK_DRIFT_FACTOR) + 2`. -/
def RedLock.drift (ttl_ms : Int) : Int := f32_to_int (f32_mul_drift ttl_ms) + 2

/-- `ttl_ms - elapsed_time - drift`. -/
def RedLock.validity (ttl_ms elapsed_time : Int) : Int :=
  ttl_ms - elapsed_time - RedLock.drift ttl_ms

/-- What one round measures: `success_count` and `valid_time`. -/
structure Round where
  success_count : Int
  valid_time : Int
deriving DecidableEq, Repr

/-- Steps 1 and 2 of a round of `RedLock::lock`: start time, fan-out,
drift, elapsed time, validity. -/
def RedLock.lock_round {σ : Type} (S : Sys σ) (self : RedLock) (resource value : String)
    (ttl_ms : Int) (w : World σ) : Round × World σ :=
  let t0 := get_current_time_ms S w
  let f := RedLock.lock_fanout S resource value ttl_ms self.servers_ 0 t0.2
  let t1 := get_current_time_ms S f.2
  ({ success_count := f.1, valid_time := RedLock.validity ttl_ms (t1.1 - t0.1) }, t1.2)

/-- Step 3: `success_count >= quorum_ && valid_time > 0`. -/
def RedLock.round_ok (self : RedLock) (r : Round) : Bool :=
  decide (r.success_count ≥ self.quorum_) && decide (r.valid_time > 0)

/-- Step 5: `if (attempt > 0) sleep_for(milliseconds(dist(rd)))` with
`dist(0, retry_delay_ms_)`. -/
def RedLock.backoff {σ : Type} (S : Sys σ) (self : RedLock) (attempt : Nat) (w : World σ) :
    World σ :=
  if attempt > 0 then
    let d := S.uniform_int 0 self.retry_delay_ms_ w.env
    ((w.withEnv d.2).withEnv (S.sleep_for d.1 d.2)).record (Event.sleep d.1)
  else w

/-- Steps 4 and 5 of a failed round of `RedLock::lock`. -/
def RedLock.lock_cleanup {σ : Type} (S : Sys σ) (self : RedLock) (resource value : String)
    (attempt : Nat) (w : World σ) : World σ :=
  RedLock.backoff S self attempt (RedLock.unlock_fanout S resource value self.servers_ w)

/-- The loop `while (attempt-- > 0) { ... }` of `RedLock::lock`; the first
argument is the value of `attempt` before the test, so the body sees
`attempt - 1`. -/
def RedLock.lock_loop {σ : Type} (S : Sys σ) (self : RedLock) (resource value : String)
    (ttl_ms : Int) : Nat → Lock → World σ → (Bool × Lock) × World σ
  | 0, lock, w => ((false, lock), w)
  | attempt + 1, lock, w =>
    let r := RedLock.lock_round S self resource value ttl_ms w
    if RedLock.round_ok self r.1 then
      ((true, Lock.ctor resource value r.1.valid_time), r.2)
    else
      RedLock.lock_loop S self resource value ttl_ms attempt lock
        (RedLock.lock_cleanup S self resource value attempt r.2)

/-- `int attempt = retry_count_ + 1` as the number of times the loop test
`attempt-- > 0` succeeds. -/
def RedLock.attempts (self : RedLock) : Nat := (wrap32 (self.retry_count_ + 1)).toNat

/-- `RedLock::lock(resource, ttl_ms, lock)`: result and the caller's `Lock`
afterwards. -/
def RedLock.lock {σ : Type} (S : Sys σ) (self : RedLock) (resource : String) (ttl_ms : Int)
    (lock : Lock) (w : World σ) : (Bool × Lock) × World σ :=
  if self.servers_.isEmpty then ((false, lock), w)
  else
    let v := generate_unique_id S w
    RedLock.lock_loop S self resource v.1 ttl_ms self.attempts lock v.2

/-- `RedLock::unlock(lock)`. -/
def RedLock.unlock {σ : Type} (S : Sys σ) (self : RedLock) (lock : Lock) (w : World σ) :
    Bool × World σ :=
  if self.servers_.isEmpty then (false, w)
  else (true, RedLock.unlock_fanout S lock.resource_ lock.value_ self.servers_ w)

/-- Steps 1 and 2 of a round of `RedLock::continue_lock`. -/
def RedLock.continue_round {σ : Type} (S : Sys σ) (self : RedLock) (resource value : String)
    (ttl_ms : Int) (w : World σ) : Round × World σ :=
  let t0 := get_current_time_ms S w
  let f := RedLock.continue_fanout S resource value ttl_ms self.servers_ 0 t0.2
  let t1 := get_current_time_ms S f.2
  ({ success_count := f.1, valid_time := RedLock.validity ttl_ms (t1.1 - t0.1) }, t1.2)

/-- The loop `while (attempts-- > 0) { ... }` of `RedLock::continue_lock`. -/
def RedLock.continue_loop {σ : Type} (S : Sys σ) (self : RedLock) (resource : String)
    (ttl_ms : Int) : Nat → Lock → World σ → (Bool × Lock) × World σ
  | 0, lock, w => ((false, lock), w)
  | attempts + 1, lock, w =>
    let r := RedLock.continue_round S self resource lock.value_ ttl_ms w
    if RedLock.round_ok self r.1 then
      ((true, { lock with valid_time_ := wrap32 r.1.valid_time }), r.2)
    else
      RedLock.continue_loop S self resource ttl_ms attempts lock
        (RedLock.backoff S self attempts r.2)

/-- `RedLock::continue_lock(resource, ttl_ms, lock)`. -/
def RedLock.continue_lock {σ : Type} (S : Sys σ) (self : RedLock) (resource : String)
    (ttl_ms : Int) (lock : Lock) (w : World σ) : (Bool × Lock) × World σ :=
  if self.servers_.isEmpty then ((false, lock), w)
  else RedLock.continue_loop S self resource ttl_ms self.attempts lock w

/-- `RedLock::set_retry_count(count)`. -/
def RedLock.set_retry_count (self : RedLock) (count : Int) : Bool × RedLock :=
  if count < 0 then (false, self)
  else (true, { self with retry_count_ := count })

/-! ## `redlock-cpp/redlock.h`, `redlock-cpp/redlock.cpp` -/

/-- `class CLock`; an `sds` that is `NULL` is `none`. -/
structure CLock where
  m_validityTime : Int
  m_resource : Option String
  m_val : Option String
deriving DecidableEq, Repr

/-- `CLock::CLock()`. -/
def CLock.default : CLock := { m_validityTime := 0, m_resource := none, m_val := none }

def m_defaultRetryCount : Int := 3
def m_defaultRetryDelay : Int := 200

/-- The data members of `class CRedLock`. -/
structure CRedLock where
  m_unlockScript : String
  m_retryCount : Int
  m_retryDelay : Int
  m_quoRum : Int
  m_fd : Int
  m_redisServer : List Nat
  m_continueLock : CLock
  m_continueLockScript : String
deriving DecidableEq, Repr

/-- `CRedLock::Initialize()`. -/
def CRedLock.Initialize {σ : Type} (S : Sys σ) (self : CRedLock) (w : World σ) :
    (Bool × CRedLock) × World σ :=
  let fd := S.open_urandom w.env
  let self1 : CRedLock :=
    { self with
      m_continueLockScript := "if redis.call('get', KEYS[1]) == ARGV[1] then redis.call('del', KEYS[1]) end return redis.call('set', KEYS[1], ARGV[2], 'px', ARGV[3], 'nx')",
      m_unlockScript := "if redis.call('get', KEYS[1]) == ARGV[1] then return redis.call('del', KEYS[1]) else return 0 end",
      m_retryCount := m_defaultRetryCount,
      m_retryDelay := m_defaultRetryDelay,
      m_quoRum := 0,
      m_fd := fd.1 }
  if fd.1 = -1 then ((false, self1), w.withEnv fd.2) else ((true, self1), w.withEnv fd.2)

/-- `CRedLock::CRedLock()`: the members are default-constructed (empty
vector, `CLock()`), then `Initialize()` sets all the others. -/
def CRedLock.construct {σ : Type} (S : Sys σ) (w : World σ) : CRedLock × World σ :=
  let r := CRedLock.Initialize S
    { m_unlockScript := "", m_retryCount := 0, m_retryDelay := 0, m_quoRum := 0, m_fd := 0,
      m_redisServer := [], m_continueLock := CLock.default, m_continueLockScript := "" } w
  (r.1.2, r.2)

/-- `CRedLock::AddServerUrl(ip, port)`. -/
def CRedLock.AddServerUrl {σ : Type} (S : Sys σ) (self : CRedLock) (ip : String) (port : Int)
    (w : World σ) : (Bool × CRedLock) × World σ :=
  let r := S.redisConnectWithTimeout ip port w.env
  let w1 := (w.withEnv r.2).record (Event.connect ip port)
  match r.1 with
  | some c =>
    let servers := self.m_redisServer ++ [c]
    ((true, { self with m_redisServer := servers, m_quoRum := (servers.length / 2 : Nat) + 1 }), w1)
  | none => ((false, self), w1)

/-- `CRedLock::SetRetry(count, delay)`. -/
def CRedLock.SetRetry (self : CRedLock) (count delay : Int) : CRedLock :=
  { self with m_retryCount := count, m_retryDelay := delay }

/-- `CRedLock::RedisCommandArgv(c, argc, inargv)`: every argument goes
through `sdsnew`, which turns `NULL` into the empty string. -/
def CRedLock.RedisCommandArgv {σ : Type} (S : Sys σ) (c : Nat) (inargv : List (Option String))
    (w : World σ) : Option redisReply × World σ :=
  let r := S.redisCommandArgv c (inargv.map (fun a => a.getD "")) w.env
  (r.1, w.withEnv r.2)

/-- `CRedLock::GetUniqueLockId()`: `none` is `NULL`. -/
def CRedLock.GetUniqueLockId {σ : Type} (S : Sys σ) (self : CRedLock) (w : World σ) :
    Option String × World σ :=
  let r := S.read self.m_fd 20 w.env
  if r.1.1 = 20 then
    (some (String.mk ((List.range 20).map (fun i => fmt_02X (r.1.2.getD i 0 % 256))).flatten),
      w.withEnv r.2)
  else (none, w.withEnv r.2)

/-- `CRedLock::LockInstance(c, resource, val, ttl)`; the formatted command
`"set %s %s px %d nx"` has six arguments. -/
def CRedLock.LockInstance {σ : Type} (S : Sys σ) (c : Nat) (resource val : String) (ttl : Int)
    (w : World σ) : Bool × World σ :=
  let r := S.redisCommandArgv c ["set", resource, val, "px", toString ttl, "nx"] w.env
  let ok : Bool :=
    match r.1 with
    | none => false
    | some reply => decide (reply.str = some "ok")
  (ok, (w.withEnv r.2).record (Event.LockInstance c resource val ttl ok))

/-- `CRedLock::ContinueLockInstance(c, resource, val, ttl)`. -/
def CRedLock.ContinueLockInstance {σ : Type} (S : Sys σ) (self : CRedLock) (c : Nat)
    (resource val : String) (ttl : Int) (w : World σ) : Bool × World σ :=
  let r := CRedLock.RedisCommandArgv S c
    [some "EVAL", some self.m_continueLockScript, some "1", some resource,
      self.m_continueLock.m_val, some val, some (toString ttl)] w
  let ok : Bool :=
    match r.1 with
    | none => false
    | some reply => decide (reply.str = some "OK")
  (ok, r.2.record (Event.ContinueLockInstance c resource self.m_continueLock.m_val val ttl ok))

/-- `CRedLock::UnlockInstance(c, resource, val)`. -/
def CRedLock.UnlockInstance {σ : Type} (S : Sys σ) (self : CRedLock) (c : Nat)
    (resource val : Option String) (w : World σ) : World σ :=
  let r := CRedLock.RedisCommandArgv S c
    [some "EVAL", some self.m_unlockScript, some "1", resource, val] w
  r.2.record (Event.UnlockInstance c resource val)

/-- The loop of `CRedLock::Unlock`. -/
def CRedLock.Unlock_fanout {σ : Type} (S : Sys σ) (self : CRedLock) (resource val : Option String) :
    List Nat → World σ → World σ
  | [], w => w
  | c :: rest, w =>
    CRedLock.Unlock_fanout S self resource val rest (CRedLock.UnlockInstance S self c resource val w)

/-- `CRedLock::Unlock(lock)`. -/
def CRedLock.Unlock {σ : Type} (S : Sys σ) (self : CRedLock) (lock : CLock) (w : World σ) :
    Bool × World σ :=
  (true, CRedLock.Unlock_fanout S self lock.m_resource lock.m_val self.m_redisServer w)

/-- `(int)time(NULL) * 1000`, in `int` arithmetic. -/
def time_ms {σ : Type} (S : Sys σ) (w : World σ) : Int × World σ :=
  let r := S.time w.env
  (wrap32 (wrap32 r.1 * 1000), w.withEnv r.2)

/-- `int drift = (ttl * m_clockDriftFactor) + 2;`: a binary32 product, a
binary32 sum, then the conversion to `int`. -/
def CRedLock.drift (ttl : Int) : Int := f32_to_int (f32_add_two (f32_mul_drift ttl))

/-- `ttl - ((int)time(NULL) * 1000 - startTime) - drift`, in `int`
arithmetic. -/
def CRedLock.validity (ttl now startTime : Int) : Int :=
  wrap32 (wrap32 (ttl - wrap32 (now - startTime)) - CRedLock.drift ttl)

/-- Conversion of a `double` with an integral value to `int`; out of range
the x86 conversion yields `INT_MIN`. -/
def double_to_int (x : Int) : Int :=
  if -2147483648 ≤ x ∧ x ≤ 2147483647 then x else -2147483648

/-- `int delay = rand() % m_retryDelay + floor(m_retryDelay / 2);`. -/
def CRedLock.delay (self : CRedLock) (r : Int) : Int :=
  double_to_int (Int.tmod r self.m_retryDelay + Int.tdiv self.m_retryDelay 2)

/-- The two statements `int delay = ...; usleep(delay * 1000);`. -/
def CRedLock.backoff {σ : Type} (S : Sys σ) (self : CRedLock) (w : World σ) : World σ :=
  let r := S.rand w.env
  let usec := wrapU32 (wrap32 (CRedLock.delay self r.1 * 1000))
  (w.withEnv (S.usleep usec r.2)).record (Event.usleep usec)

/-- The fan-out loop of `CRedLock::Lock`. -/
def CRedLock.Lock_fanout {σ : Type} (S : Sys σ) (resource val : String) (ttl : Int) :
    List Nat → Int → World σ → Int × World σ
  | [], n, w => (n, w)
  | c :: rest, n, w =>
    let r := CRedLock.LockInstance S c resource val ttl w
    CRedLock.Lock_fanout S resource val ttl rest (if r.1 then n + 1 else n) r.2

/-- One round of `CRedLock::Lock` up to the computation of `validityTime`:
`n` and `validityTime`. -/
def CRedLock.Lock_round {σ : Type} (S : Sys σ) (self : CRedLock) (resource val : String)
    (ttl : Int) (w : World σ) : Round × World σ :=
  let t0 := time_ms S w
  let f := CRedLock.Lock_fanout S resource val ttl self.m_redisServer 0 t0.2
  let t1 := time_ms S f.2
  ({ success_count := f.1, valid_time := CRedLock.validity ttl t1.1 t0.1 }, t1.2)

/-- `n >= m_quoRum && validityTime > 0`. -/
def CRedLock.round_ok (self : CRedLock) (r : Round) : Bool :=
  decide (r.success_count ≥ self.m_quoRum) && decide (r.valid_time > 0)

/-- The `do { ... } while (retryCount > 0)` loop of `CRedLock::Lock`; the
first argument is the number of iterations that follow the current one. -/
def CRedLock.Lock_loop {σ : Type} (S : Sys σ) (self : CRedLock) (resource val : String)
    (ttl : Int) : Nat → CLock → World σ → (Bool × CLock) × World σ
  | 0, lock, w =>
    let r := CRedLock.Lock_round S self resource val ttl w
    if CRedLock.round_ok self r.1 then
      ((true, { lock with m_validityTime := r.1.valid_time }), r.2)
    else
      ((false, lock), CRedLock.backoff S self (CRedLock.Unlock S self lock r.2).2)
  | more + 1, lock, w =>
    let r := CRedLock.Lock_round S self resource val ttl w
    if CRedLock.round_ok self r.1 then
      ((true, { lock with m_validityTime := r.1.valid_time }), r.2)
    else
      CRedLock.Lock_loop S self resource val ttl more lock
        (CRedLock.backoff S self (CRedLock.Unlock S self lock r.2).2)

/-- Number of iterations of `do { ...; retryCount--; } while (retryCount > 0)`
that follow the first one. -/
def CRedLock.more_rounds (self : CRedLock) : Nat := (wrap32 (self.m_retryCount - 1)).toNat

/-- `CRedLock::Lock(resource, ttl, lock)`. -/
def CRedLock.Lock {σ : Type} (S : Sys σ) (self : CRedLock) (resource : String) (ttl : Int)
    (lock : CLock) (w : World σ) : (Bool × CLock) × World σ :=
  let id := CRedLock.GetUniqueLockId S self w
  match id.1 with
  | none => ((false, lock), id.2)
  | some val =>
    CRedLock.Lock_loop S self resource val ttl self.more_rounds
      { lock with m_resource := some resource, m_val := some val } id.2

/-- The fan-out loop of `CRedLock::ContinueLock`. -/
def CRedLock.Continue_fanout {σ : Type} (S : Sys σ) (self : CRedLock) (resource val : String)
    (ttl : Int) : List Nat → Int → World σ → Int × World σ
  | [], n, w => (n, w)
  | c :: rest, n, w =>
    let r := CRedLock.ContinueLockInstance S self c resource val ttl w
    CRedLock.Continue_fanout S self resource val ttl rest (if r.1 then n + 1 else n) r.2

/-- One round of `CRedLock::ContinueLock` up to the computation of
`validityTime`; the object afterwards has `m_continueLock.m_val` replaced
by a copy of `val`. -/
def CRedLock.Continue_round {σ : Type} (S : Sys σ) (self : CRedLock) (resource val : String)
    (ttl : Int) (w : World σ) : (Round × CRedLock) × World σ :=
  let t0 := time_ms S w
  let f := CRedLock.Continue_fanout S self resource val ttl self.m_redisServer 0 t0.2
  let self1 : CRedLock := { self with m_continueLock := { self.m_continueLock with m_val := some val } }
  let t1 := time_ms S f.2
  (({ success_count := f.1, valid_time := CRedLock.validity ttl t1.1 t0.1 }, self1), t1.2)

/-- The `do { ... } while (retryCount > 0)` loop of `CRedLock::ContinueLock`. -/
def CRedLock.Continue_loop {σ : Type} (S : Sys σ) (resource val : String) (ttl : Int) :
    Nat → CRedLock → CLock → World σ → (Bool × CRedLock × CLock) × World σ
  | 0, self, lock, w =>
    let r := CRedLock.Continue_round S self resource val ttl w
    if CRedLock.round_ok r.1.2 r.1.1 then
      ((true, r.1.2, { lock with m_validityTime := r.1.1.valid_time }), r.2)
    else
      ((false, r.1.2, lock), CRedLock.backoff S r.1.2 (CRedLock.Unlock S r.1.2 lock r.2).2)
  | more + 1, self, lock, w =>
    let r := CRedLock.Continue_round S self resource val ttl w
    if CRedLock.round_ok r.1.2 r.1.1 then
      ((true, r.1.2, { lock with m_validityTime := r.1.1.valid_time }), r.2)
    else
      CRedLock.Continue_loop S resource val ttl more r.1.2 lock
        (CRedLock.backoff S r.1.2 (CRedLock.Unlock S r.1.2 lock r.2).2)

/-- `CRedLock::ContinueLock(resource, ttl, lock)`: result, the object
afterwards, the caller's `CLock` afterwards. -/
def CRedLock.ContinueLock {σ : Type} (S : Sys σ) (self : CRedLock) (resource : String)
    (ttl : Int) (lock : CLock) (w : World σ) : (Bool × CRedLock × CLock) × World σ :=
  let id := CRedLock.GetUniqueLockId S self w
  match id.1 with
  | none => ((false, self, lock), id.2)
  | some val =>
    let lock1 : CLock := { lock with m_resource := some resource, m_val := some val }
    let self1 : CRedLock :=
      if self.m_continueLock.m_resource = none then
        { self with m_continueLock :=
            { self.m_continueLock with m_resource := some resource, m_val := some val } }
      else self
    CRedLock.Continue_loop S resource val ttl self.more_rounds self1 lock1 id.2

/-! ## Drivers and test environments -/

/-- A sequence of `add_server` calls on one object: the number of calls
that returned `true` so far, the object and the `err` string are threaded
through. -/
def RedLock.add_all {σ : Type} (S : Sys σ) :
    List (String × Int) → Nat × RedLock × String → World σ → (Nat × RedLock × String) × World σ
  | [], acc, w => (acc, w)
  | req :: rest, acc, w =>
    let r := RedLock.add_server S acc.2.1 req.1 req.2 acc.2.2 w
    RedLock.add_all S rest (if r.1.1 then acc.1 + 1 else acc.1, r.1.2.1, r.1.2.2) r.2

/-- A sequence of `AddServerUrl` calls on one object, counting the calls
that returned `true`. -/
def CRedLock.add_all {σ : Type} (S : Sys σ) :
    List (String × Int) → Nat × CRedLock → World σ → (Nat × CRedLock) × World σ
  | [], acc, w => (acc, w)
  | req :: rest, acc, w =>
    let r := CRedLock.AddServerUrl S acc.2 req.1 req.2 w
    CRedLock.add_all S rest (if r.1.1 then acc.1 + 1 else acc.1, r.1.2) r.2

/-- A scripted environment: every external call takes its answer from the
head of the matching list (a default once the list is used up). -/
structure Script where
  conns : List (Option Nat)
  errs : List Nat
  replies : List (Option redisReply)
  clock : List Int
  draws : List Int
  reads : List (Int × List Nat)
  times : List Int
  rands : List Int
deriving DecidableEq, Repr

/-- The environment that plays a `Script`. -/
def Script.sys : Sys Script where
  redisConnectWithTimeout := fun _ _ s => ((s.conns.headD none), { s with conns := s.conns.tail })
  ctx_err := fun s c => if c ∈ s.errs then 1 else 0
  ctx_errstr := fun _ _ => "Connection refused"
  ctx_tcp_host := fun _ _ => "127.0.0.1"
  ctx_tcp_port := fun _ c => 6379 + c
  redisFree := fun _ s => s
  redisCommandArgv := fun _ _ s => (s.replies.headD none, { s with replies := s.replies.tail })
  system_clock_now := fun s => (s.clock.headD 0, { s with clock := s.clock.tail })
  uniform_int := fun _ _ s => (s.draws.headD 0, { s with draws := s.draws.tail })
  sleep_for := fun _ s => s
  open_urandom := fun s => (3, s)
  read := fun _ _ s => (s.reads.headD (-1, []), { s with reads := s.reads.tail })
  time := fun s => (s.times.headD 0, { s with times := s.times.tail })
  rand := fun s => (s.rands.headD 0, { s with rands := s.rands.tail })
  usleep := fun _ s => s

/-- The empty script. -/
def Script.empty : Script :=
  { conns := [], errs := [], replies := [], clock := [], draws := [], reads := [],
    times := [], rands := [] }

/-- A world that starts with an empty log. -/
def World.start {σ : Type} (e : σ) : World σ := { env := e, log := [] }

/-- Three servers that all connect. -/
def script_three_conns : Script := { Script.empty with conns := [some 0, some 1, some 2] }

/-! ## Shapes of the log -/

/-- The log entries of one `lock_instance` call per server, in list order,
all with the same resource, token and ttl, with results `bs`. -/
def lockEvents (resource value : String) (ttl_ms : Int) (servers : List Nat) (bs : List Bool) :
    List Event :=
  List.zipWith (fun c b => Event.lock_instance c resource value ttl_ms b) servers bs

/-- The log entries of one `unlock_instance` call per server, in list
order, all with the same resource and token, with results `us`. -/
def unlockEvents (resource value : String) (servers : List Nat) (us : List Bool) : List Event :=
  List.zipWith (fun c b => Event.unlock_instance c resource value b) servers us

/-- The log entries of one `continue_lock_instance` call per server, in
list order, all with the same resource, token and ttl, with results `bs`. -/
def continueEvents (resource value : String) (ttl_ms : Int) (servers : List Nat)
    (bs : List Bool) : List Event :=
  List.zipWith (fun c b => Event.continue_lock_instance c resource value ttl_ms b) servers bs

/-- Number of `true` in a list of per-node results. -/
def countTrue (bs : List Bool) : Int := (bs.filter (fun b => b)).length

/-- The log of a retry sleep: one `sleep` entry when `attempt > 0`,
nothing otherwise. -/
def IsBackoffLog (attempt : Nat) (evs : List Event) : Prop :=
  if attempt > 0 then ∃ d : Int, evs = [Event.sleep d] else evs = []

/-- Logs of consecutive rounds with one sleep between each two of them. -/
def joinRounds : List (List Event) → List Int → List Event
  | [], _ => []
  | r :: rs, [] => r ++ joinRounds rs []
  | r :: rs, d :: ds => r ++ Event.sleep d :: joinRounds rs ds

/-- The log of a round of `lock` that failed: every server is asked to lock
once, then every server is asked to unlock once. -/
def IsFailedLockRound (servers : List Nat) (resource value : String) (ttl_ms : Int)
    (evs : List Event) : Prop :=
  ∃ bs us : List Bool, bs.length = servers.length ∧ us.length = servers.length ∧
    evs = lockEvents resource value ttl_ms servers bs ++ unlockEvents resource value servers us

/-- The log of a round of `lock` that succeeded: every server is asked to
lock once. -/
def IsWonLockRound (servers : List Nat) (resource value : String) (ttl_ms : Int)
    (evs : List Event) : Prop :=
  ∃ bs : List Bool, bs.length = servers.length ∧
    evs = lockEvents resource value ttl_ms servers bs

/-- The world in which round `i` (counted from 0) of the loop of `lock`
starts, when the loop was entered in world `w` with `attempts` attempts and
every earlier round failed. -/
def RedLock.lock_round_start {σ : Type} (S : Sys σ) (self : RedLock) (resource value : String)
    (ttl_ms : Int) (attempts : Nat) : Nat → World σ → World σ
  | 0, w => w
  | i + 1, w =>
    RedLock.lock_cleanup S self resource value (attempts - 1 - i)
      (RedLock.lock_round S self resource value ttl_ms
        (RedLock.lock_round_start S self resource value ttl_ms attempts i w)).2

/-- What round `i` of the loop of `lock` measures. -/
def RedLock.lock_nth_round {σ : Type} (S : Sys σ) (self : RedLock) (resource value : String)
    (ttl_ms : Int) (attempts : Nat) (i : Nat) (w : World σ) : Round :=
  (RedLock.lock_round S self resource value ttl_ms
    (RedLock.lock_round_start S self resource value ttl_ms attempts i w)).1

/-- The reply to a `SET ... NX` that `RedLock::lock_instance` takes as
success. -/
def reply_status_ok : redisReply := { type := REDIS_REPLY_STATUS, integer := 0, str := some "ok" }

/-- A nil reply. -/
def reply_nil : redisReply := { type := REDIS_REPLY_NIL, integer := 0, str := none }

/-- An integer reply. -/
def reply_int (n : Int) : redisReply := { type := REDIS_REPLY_INTEGER, integer := n, str := none }

/-- A `RedLock` with three servers, quorum 2 and the default retry
settings. -/
def redlock_three : RedLock :=
  { servers_ := [0, 1, 2], quorum_ := 2, retry_count_ := 3, retry_delay_ms_ := 200 }

/-- One round against three servers: only the first `SET` is answered
`ok`; the three unlock scripts answer 1, 0, 0; the round takes 10 ms; the
retry delay drawn is 57 ms. -/
def script_one_of_three : Script :=
  { Script.empty with
    replies := [some reply_status_ok, some reply_nil, some reply_nil,
      some (reply_int 1), some (reply_int 0), some (reply_int 0)],
    clock := [1000, 1010],
    draws := [57] }

/-- Number of `sleep` entries in a log. -/
def sleepCount (evs : List Event) : Nat :=
  (evs.filter (fun e => match e with
    | Event.sleep _ => true
    | _ => false)).length

/-- Every attempt answers nothing at all: three servers, every command gets
a null reply. -/
def script_all_down : Script := Script.empty

/-- Number of `lock_instance` entries in a log. -/
def lockCallCount (evs : List Event) : Nat :=
  (evs.filter (fun e => match e with
    | Event.lock_instance _ _ _ _ _ => true
    | _ => false)).length

/-- Two rounds against three servers: in the first only one `SET` is
answered `ok` (then three unlock replies and a 57 ms delay), in the second
all three are; each round takes 10 ms. -/
def script_second_round_wins : Script :=
  { Script.empty with
    replies := [some reply_status_ok, some reply_nil, some reply_nil,
      some (reply_int 1), some (reply_int 0), some (reply_int 0),
      some reply_status_ok, some reply_status_ok, some reply_status_ok],
    clock := [1000, 1010, 1100, 1110],
    draws := [1, 2, 3, 4, 5, 57] }

/-- Number of `unlock_instance` entries in a log. -/
def unlockCallCount (evs : List Event) : Nat :=
  (evs.filter (fun e => match e with
    | Event.unlock_instance _ _ _ _ => true
    | _ => false)).length

/-- The world in which round `i` (counted from 0) of the loop of
`continue_lock` starts, when the loop was entered in world `w` with
`attempts` attempts and every earlier round failed. -/
def RedLock.continue_round_start {σ : Type} (S : Sys σ) (self : RedLock)
    (resource value : String) (ttl_ms : Int) (attempts : Nat) : Nat → World σ → World σ
  | 0, w => w
  | i + 1, w =>
    RedLock.backoff S self (attempts - 1 - i)
      (RedLock.continue_round S self resource value ttl_ms
        (RedLock.continue_round_start S self resource value ttl_ms attempts i w)).2

/-- What round `i` of the loop of `continue_lock` measures. -/
def RedLock.continue_nth_round {σ : Type} (S : Sys σ) (self : RedLock) (resource value : String)
    (ttl_ms : Int) (attempts : Nat) (i : Nat) (w : World σ) : Round :=
  (RedLock.continue_round S self resource value ttl_ms
    (RedLock.continue_round_start S self resource value ttl_ms attempts i w)).1

/-- The log entries of one `CRedLock::UnlockInstance` call per server. -/
def UnlockInstanceEvents (resource val : Option String) (servers : List Nat) : List Event :=
  servers.map (fun c => Event.UnlockInstance c resource val)

/-- A handle as `RedLock::lock` leaves it. -/
def lock_held : Lock :=
  { resource_ := "res", value_ := "0000000100000002000000030000000400000005", valid_time_ := 9888 }

/-- One renewal round against three servers: two extend scripts answer 1,
one answers nil; the round takes 10 ms. -/
def script_renew_two_of_three : Script :=
  { Script.empty with
    replies := [some (reply_int 1), some reply_nil, some (reply_int 1)],
    clock := [5000, 5010] }

/-- What a `CRedLock::ContinueLock` call with generated token `val` may
log: `ContinueLockInstance` calls setting `val`, `UnlockInstance` calls for
`val`, and `usleep`s. -/
def IsRenewalEntry (resource val : String) (ttl : Int) (e : Event) : Prop :=
  (∃ c p b, e = Event.ContinueLockInstance c resource p val ttl b) ∨
  (∃ c, e = Event.UnlockInstance c (some resource) (some val)) ∨
  (∃ u, e = Event.usleep u)

/-- A `CRedLock` with three servers, built by the constructor and three
`AddServerUrl` calls. -/
def credlock_three : CRedLock :=
  (CRedLock.add_all Script.sys [("a", 1), ("b", 2), ("c", 3)]
    (0, (CRedLock.construct Script.sys (World.start script_three_conns)).1)
    (CRedLock.construct Script.sys (World.start script_three_conns)).2).1.2

/-- A `CRedLock::Lock` run: `/dev/urandom` yields twenty bytes `0xAB`, the
three `set` commands are answered `ok`, the clock stands at 100 s. -/
def script_c_lock : Script :=
  { Script.empty with
    reads := [(20, List.replicate 20 171)],
    replies := [some reply_status_ok, some reply_status_ok, some reply_status_ok],
    times := [100, 100] }

/-- The handle that the run `script_c_lock` leaves, holding the token
`ABAB...AB`. -/
def clock_held : CLock :=
  { m_validityTime := 9898, m_resource := some "res",
    m_val := some "ABABABABABABABABABABABABABABABABABABABAB" }

/-- A `CRedLock::ContinueLock` run: `/dev/urandom` yields twenty bytes
`0xCD`; every script is answered nil. -/
def script_c_renew : Script :=
  { Script.empty with
    reads := [(20, List.replicate 20 205)],
    replies := List.replicate 18 (some reply_nil) }

/-! ## Authorities as key-to-token stores -/

/-- What the network does to one command: it is executed and answered
(`up`), not executed at all (`down`), or executed with the reply lost
(`lost`). -/
inductive Net where
  | up
  | down
  | lost
deriving DecidableEq, Repr

/-- The state of a set of authorities, each a key-to-token store without
expiry, together with what the network, the clock and the random device
will do next; `broken` lists the contexts whose `err` field is set. -/
structure Stores where
  store : Nat → String → Option String
  net : List Net
  broken : List Nat
  clock : List Int
  draws : List Int

/-- Write `v` under key `k` on authority `c` (`none` deletes). -/
def Stores.put (s : Stores) (c : Nat) (k : String) (v : Option String) : Stores :=
  { s with store := fun c' k' => if c' = c ∧ k' = k then v else s.store c' k' }

/-- An authority executes one command: the three per-node primitives, as
the commands in which `RedLock` sends them; `okStatus` is the status text
of a `SET` that took place. -/
def Stores.exec (okStatus : String) (c : Nat) (argv : List String) (s : Stores) :
    redisReply × Stores :=
  match argv with
  | ["SET", k, v, "NX", "PX", _] =>
    if s.store c k = none then
      ({ type := REDIS_REPLY_STATUS, integer := 0, str := some okStatus }, s.put c k (some v))
    else (reply_nil, s)
  | ["EVAL", script, "1", k, v] =>
    if script = UNLOCK_SCRIPT then
      if s.store c k = some v then (reply_int 1, s.put c k none) else (reply_int 0, s)
    else ({ type := REDIS_REPLY_ERROR, integer := 0, str := some "ERR" }, s)
  | ["EVAL", script, "1", k, v, _] =>
    if script = CONTINUE_LOCK_SCRIPT then
      if s.store c k = some v then (reply_int 1, s) else (reply_nil, s)
    else ({ type := REDIS_REPLY_ERROR, integer := 0, str := some "ERR" }, s)
  | _ => ({ type := REDIS_REPLY_ERROR, integer := 0, str := some "ERR" }, s)

/-- The environment made of such authorities: context `c` talks to store
`c`. -/
def storeSys (okStatus : String) : Sys Stores where
  redisConnectWithTimeout := fun _ _ s => (none, s)
  ctx_err := fun s c => if c ∈ s.broken then 1 else 0
  ctx_errstr := fun _ _ => "Connection refused"
  ctx_tcp_host := fun _ _ => "127.0.0.1"
  ctx_tcp_port := fun _ c => 6379 + c
  redisFree := fun _ s => s
  redisCommandArgv := fun c argv s =>
    match s.net.headD Net.up with
    | Net.up =>
      (some (Stores.exec okStatus c argv { s with net := s.net.tail }).1,
        (Stores.exec okStatus c argv { s with net := s.net.tail }).2)
    | Net.down => (none, { s with net := s.net.tail })
    | Net.lost => (none, (Stores.exec okStatus c argv { s with net := s.net.tail }).2)
  system_clock_now := fun s => (s.clock.headD 0, { s with clock := s.clock.tail })
  uniform_int := fun _ _ s => (s.draws.headD 0, { s with draws := s.draws.tail })
  sleep_for := fun _ s => s
  open_urandom := fun s => (3, s)
  read := fun _ _ s => ((-1, []), s)
  time := fun s => (s.clock.headD 0, { s with clock := s.clock.tail })
  rand := fun s => (s.draws.headD 0, { s with draws := s.draws.tail })
  usleep := fun _ s => s

/-- Number of entries of the server list whose authority holds token `tok`
under key `k`. -/
def holdCount (s : Stores) (servers : List Nat) (k tok : String) : Nat :=
  (servers.filter (fun c => decide (s.store c k = some tok))).length

/-- Three empty authorities, all reachable; one round of 10 ms; the random
device yields the words 1 .. 5. -/
def stores_empty : Stores :=
  { store := fun _ _ => none, net := [], broken := [], clock := [1000, 1010],
    draws := [1, 2, 3, 4, 5] }

/-- One round against three servers in which every `SET` is answered `ok`
and which takes 10 ms. -/
def script_all_three_ok : Script :=
  { Script.empty with
    replies := [some reply_status_ok, some reply_status_ok, some reply_status_ok],
    clock := [1000, 1010],
    draws := [1, 2, 3, 4, 5] }

/-- A `CRedLock` as its constructor leaves it: `AddServerUrl` was never
called. -/
def credlock_fresh : CRedLock := (CRedLock.construct Script.sys (World.start Script.empty)).1

/-- A `CRedLock::Lock` run without any authority: `/dev/urandom` yields
twenty bytes `0xAB`, and `time(NULL)` reads 1761868800 twice. -/
def script_c_no_server : Script :=
  { Script.empty with
    reads := [(20, List.replicate 20 171)],
    times := [1761868800, 1761868800] }

/-- A `CRedLock::Lock` run in which no authority answers: `/dev/urandom`
yields twenty bytes `0xAB`, every command gets a null reply, `rand()`
returns 0. -/
def script_c_all_down : Script :=
  { Script.empty with reads := [(20, List.replicate 20 171)] }

/-- Number of `CRedLock::LockInstance` entries in a log. -/
def LockInstanceCount (evs : List Event) : Nat :=
  (evs.filter (fun e => match e with
    | Event.LockInstance _ _ _ _ _ => true
    | _ => false)).length

/-- Number of `usleep` entries in a log. -/
def usleepCount (evs : List Event) : Nat :=
  (evs.filter (fun e => match e with
    | Event.usleep _ => true
    | _ => false)).length

/-- The reply Redis gives to a `SET ... NX PX` that set the key. -/
def reply_status_OK : redisReply := { type := REDIS_REPLY_STATUS, integer := 0, str := some "OK" }

/-- Connections and their endpoints: context `i` is the `i`-th connection
made, to host and port `table[i]`; `broken` lists the contexts whose `err`
field is set. -/
structure Endpoints where
  table : List (String × Int)
  broken : List Nat
deriving DecidableEq, Repr

/-- The environment in which every connection attempt succeeds and is
entered into the table; no command is ever answered. -/
def endpointSys : Sys Endpoints where
  redisConnectWithTimeout := fun host port s =>
    (some s.table.length, { s with table := s.table ++ [(host, port)] })
  ctx_err := fun s c => if c ∈ s.broken then 1 else 0
  ctx_errstr := fun _ _ => "Connection reset by peer"
  ctx_tcp_host := fun s c => (s.table.getD c ("", 0)).1
  ctx_tcp_port := fun s c => (s.table.getD c ("", 0)).2
  redisFree := fun _ s => s
  redisCommandArgv := fun _ _ s => (none, s)
  system_clock_now := fun s => (0, s)
  uniform_int := fun _ _ s => (0, s)
  sleep_for := fun _ s => s
  open_urandom := fun s => (3, s)
  read := fun _ _ s => ((-1, []), s)
  time := fun s => (0, s)
  rand := fun s => (0, s)
  usleep := fun _ s => s

/-- A `RedLock` holding the single context 0. -/
def redlock_one : RedLock :=
  { servers_ := [0], quorum_ := 1, retry_count_ := 3, retry_delay_ms_ := 200 }

/-- The `RedLock` after a sequence of `add_server` calls on a freshly
constructed object. -/
def RedLock.after_adds {σ : Type} (S : Sys σ) (q0 : Int) (reqs : List (String × Int))
    (w : World σ) : RedLock :=
  (RedLock.add_all S reqs (0, RedLock.fresh q0, "") w).1.2.1

/-- The `CRedLock` after construction and a sequence of `AddServerUrl`
calls. -/
def CRedLock.after_adds {σ : Type} (S : Sys σ) (reqs : List (String × Int)) (w : World σ) :
    CRedLock :=
  (CRedLock.add_all S reqs (0, (CRedLock.construct S w).1) (CRedLock.construct S w).2).1.2

/-- The loop `for (i = 0; i < 20; i++) s = sdscatprintf(s, "%02X", buffer[i])`
of `CRedLock::GetUniqueLockId`. -/
def CRedLock.render_lock_id (buffer : List Nat) : String :=
  String.mk ((List.range 20).map (fun i => fmt_02X (buffer.getD i 0 % 256))).flatten

/-- The lower-case hexadecimal digits. -/
def lowerHexDigits : List Char := "0123456789abcdef".data

/-- The upper-case hexadecimal digits. -/
def upperHexDigits : List Char := "0123456789ABCDEF".data

/-- The `elapsed_time = get_current_time_ms() - start_time` that a round of
`RedLock::lock` started in world `w` measures. -/
def RedLock.lock_round_elapsed {σ : Type} (S : Sys σ) (self : RedLock) (resource value : String)
    (ttl_ms : Int) (w : World σ) : Int :=
  let t0 := get_current_time_ms S w
  let f := RedLock.lock_fanout S resource value ttl_ms self.servers_ 0 t0.2
  let t1 := get_current_time_ms S f.2
  t1.1 - t0.1

/-- The `elapsed_time` that a round of `RedLock::continue_lock` started in
world `w` measures. -/
def RedLock.continue_round_elapsed {σ : Type} (S : Sys σ) (self : RedLock)
    (resource value : String) (ttl_ms : Int) (w : World σ) : Int :=
  let t0 := get_current_time_ms S w
  let f := RedLock.continue_fanout S resource value ttl_ms self.servers_ 0 t0.2
  let t1 := get_current_time_ms S f.2
  t1.1 - t0.1

/-- The log of a round of `continue_lock`: every server is asked to extend
once. -/
def IsContinueRound (servers : List Nat) (resource value : String) (ttl_ms : Int)
    (evs : List Event) : Prop :=
  ∃ bs : List Bool, bs.length = servers.length ∧
    evs = continueEvents resource value ttl_ms servers bs

/-- Number of `continue_lock_instance` entries in a log. -/
def continueCallCount (evs : List Event) : Nat :=
  (evs.filter (fun e => match e with
    | Event.continue_lock_instance _ _ _ _ _ => true
    | _ => false)).length

theorem add_server_inv {σ : Type} (S : Sys σ) (self : RedLock) (host : String)
    (port : Int) (err : String) (w : World σ) (n : Nat)
    (h : self.servers_.length = n ∧ (1 ≤ n → self.quorum_ = ((n / 2 : Nat) : Int) + 1)) :
    (if (RedLock.add_server S self host port err w).1.1 then
        (RedLock.add_server S self host port err w).1.2.1.servers_.length = n + 1 ∧
        (RedLock.add_server S self host port err w).1.2.1.quorum_ = (((n + 1) / 2 : Nat) : Int) + 1
      else (RedLock.add_server S self host port err w).1.2.1 = self) := by
  unfold RedLock.add_server
  by_cases hany : (self.servers_.any (fun ctx =>
      decide (S.ctx_err w.env ctx = 0) &&
        (decide (host = S.ctx_tcp_host w.env ctx) && decide (port = S.ctx_tcp_port w.env ctx)))) = true
  · simp [hany]
  · rw [if_neg hany]
    cases hc : (S.redisConnectWithTimeout host port w.env).1 with
    | none => simp [hc]
    | some context =>
      by_cases herr : S.ctx_err ((w.withEnv (S.redisConnectWithTimeout host port w.env).2).record
          (Event.connect host port)).env context = 0
      · simp [hc, herr, h.1]
      · simp [hc, herr]

theorem add_server_all_inv {σ : Type} (S : Sys σ) (reqs : List (String × Int)) :
    ∀ (acc : Nat × RedLock × String) (w : World σ),
      (acc.2.1.servers_.length = acc.1 ∧
        (1 ≤ acc.1 → acc.2.1.quorum_ = ((acc.1 / 2 : Nat) : Int) + 1)) →
      ((RedLock.add_all S reqs acc w).1.2.1.servers_.length = (RedLock.add_all S reqs acc w).1.1 ∧
        (1 ≤ (RedLock.add_all S reqs acc w).1.1 →
          (RedLock.add_all S reqs acc w).1.2.1.quorum_ =
            (((RedLock.add_all S reqs acc w).1.1 / 2 : Nat) : Int) + 1)) := by
  induction reqs with
  | nil => intro acc w h; simpa [RedLock.add_all] using h
  | cons req rest ih =>
    intro acc w h
    simp only [RedLock.add_all]
    apply ih
    have key := add_server_inv S acc.2.1 req.1 req.2 acc.2.2 w acc.1 h
    by_cases hb : (RedLock.add_server S acc.2.1 req.1 req.2 acc.2.2 w).1.1 = true
    · rw [if_pos hb] at key
      simp only [hb, if_true]
      exact ⟨key.1, fun _ => key.2⟩
    · rw [if_neg hb] at key
      simp only [hb]
      rw [key]
      simpa using h

theorem AddServerUrl_inv {σ : Type} (S : Sys σ) (self : CRedLock) (ip : String)
    (port : Int) (w : World σ) (n : Nat)
    (h : self.m_redisServer.length = n) :
    (if (CRedLock.AddServerUrl S self ip port w).1.1 then
        (CRedLock.AddServerUrl S self ip port w).1.2.m_redisServer.length = n + 1 ∧
        (CRedLock.AddServerUrl S self ip port w).1.2.m_quoRum = (((n + 1) / 2 : Nat) : Int) + 1
      else (CRedLock.AddServerUrl S self ip port w).1.2 = self) := by
  unfold CRedLock.AddServerUrl
  cases hc : (S.redisConnectWithTimeout ip port w.env).1 with
  | none => simp [hc]
  | some c => simp [hc, h]

theorem AddServerUrl_all_inv {σ : Type} (S : Sys σ) (reqs : List (String × Int)) :
    ∀ (acc : Nat × CRedLock) (w : World σ),
      (acc.2.m_redisServer.length = acc.1 ∧
        (1 ≤ acc.1 → acc.2.m_quoRum = ((acc.1 / 2 : Nat) : Int) + 1)) →
      ((CRedLock.add_all S reqs acc w).1.2.m_redisServer.length = (CRedLock.add_all S reqs acc w).1.1 ∧
        (1 ≤ (CRedLock.add_all S reqs acc w).1.1 →
          (CRedLock.add_all S reqs acc w).1.2.m_quoRum =
            (((CRedLock.add_all S reqs acc w).1.1 / 2 : Nat) : Int) + 1)) := by
  induction reqs with
  | nil => intro acc w h; simpa [CRedLock.add_all] using h
  | cons req rest ih =>
    intro acc w h
    simp only [CRedLock.add_all]
    apply ih
    have key := AddServerUrl_inv S acc.2 req.1 req.2 w acc.1 h.1
    by_cases hb : (CRedLock.AddServerUrl S acc.2 req.1 req.2 w).1.1 = true
    · rw [if_pos hb] at key
      simp only [hb, if_true]
      exact ⟨key.1, fun _ => key.2⟩
    · rw [if_neg hb] at key
      simp only [hb]
      rw [key]
      simpa using h

/-- C1: starting from a freshly constructed object, after any sequence of
`RedLock::add_server` calls of which `N >= 1` returned `true`, the server
list has `N` entries and the stored `quorum_` is `floor(N/2) + 1`; likewise
for `CRedLock::AddServerUrl` and `m_quoRum`.  This holds whatever the
connection attempts answer. -/
theorem quorum_after_successful_adds {σ : Type} (S : Sys σ) (q0 : Int)
    (reqs creqs : List (String × Int)) (w cw : World σ) :
    (1 ≤ (RedLock.add_all S reqs (0, RedLock.fresh q0, "") w).1.1 →
      (RedLock.add_all S reqs (0, RedLock.fresh q0, "") w).1.2.1.servers_.length =
          (RedLock.add_all S reqs (0, RedLock.fresh q0, "") w).1.1 ∧
        (RedLock.add_all S reqs (0, RedLock.fresh q0, "") w).1.2.1.quorum_ =
          (((RedLock.add_all S reqs (0, RedLock.fresh q0, "") w).1.1 / 2 : Nat) : Int) + 1) ∧
    (1 ≤ (CRedLock.add_all S creqs (0, (CRedLock.construct S cw).1) (CRedLock.construct S cw).2).1.1 →
      (CRedLock.add_all S creqs (0, (CRedLock.construct S cw).1)
          (CRedLock.construct S cw).2).1.2.m_redisServer.length =
          (CRedLock.add_all S creqs (0, (CRedLock.construct S cw).1) (CRedLock.construct S cw).2).1.1 ∧
        (CRedLock.add_all S creqs (0, (CRedLock.construct S cw).1)
          (CRedLock.construct S cw).2).1.2.m_quoRum =
          (((CRedLock.add_all S creqs (0, (CRedLock.construct S cw).1)
            (CRedLock.construct S cw).2).1.1 / 2 : Nat) : Int) + 1) := by
  constructor
  · intro h1
    have key := add_server_all_inv S reqs (0, RedLock.fresh q0, "") w
      ⟨by simp [RedLock.fresh], by intro h; omega⟩
    exact ⟨key.1, key.2 h1⟩
  · intro h1
    have hlen : (CRedLock.construct S cw).1.m_redisServer.length = 0 := by
      unfold CRedLock.construct CRedLock.Initialize
      by_cases hfd : (S.open_urandom cw.env).1 = -1 <;> simp [hfd]
    have key := AddServerUrl_all_inv S creqs (0, (CRedLock.construct S cw).1)
      (CRedLock.construct S cw).2 ⟨hlen, by intro h; omega⟩
    exact ⟨key.1, key.2 h1⟩

/-- Witness for C1: three successful additions on either class give three
servers and quorum 2. -/
theorem quorum_after_successful_adds_witness :
    (RedLock.add_all Script.sys [("a", 1), ("b", 2), ("c", 3)] (0, RedLock.fresh 7, "")
        (World.start script_three_conns)).1.1 = 3 ∧
    (RedLock.add_all Script.sys [("a", 1), ("b", 2), ("c", 3)] (0, RedLock.fresh 7, "")
        (World.start script_three_conns)).1.2.1.quorum_ = 2 ∧
    (CRedLock.add_all Script.sys [("a", 1), ("b", 2), ("c", 3)]
        (0, (CRedLock.construct Script.sys (World.start script_three_conns)).1)
        (CRedLock.construct Script.sys (World.start script_three_conns)).2).1.2.m_quoRum = 2 := by
  have h := quorum_after_successful_adds Script.sys 7 [("a", 1), ("b", 2), ("c", 3)]
    [("a", 1), ("b", 2), ("c", 3)] (World.start script_three_conns)
    (World.start script_three_conns)
  have c1 : (RedLock.add_all Script.sys [("a", 1), ("b", 2), ("c", 3)] (0, RedLock.fresh 7, "")
        (World.start script_three_conns)).1.1 = 3 := by decide
  have c2 : (CRedLock.add_all Script.sys [("a", 1), ("b", 2), ("c", 3)]
        (0, (CRedLock.construct Script.sys (World.start script_three_conns)).1)
        (CRedLock.construct Script.sys (World.start script_three_conns)).2).1.1 = 3 := by decide
  have h1 := h.1 (by rw [c1]; decide)
  have h2 := h.2 (by rw [c2]; decide)
  rw [c1] at h1
  rw [c2] at h2
  exact ⟨c1, h1.2, h2.2⟩

/-! ### The log of the fan-out loops -/

@[simp] theorem record_log {σ : Type} (w : World σ) (e : Event) :
    (w.record e).log = w.log ++ [e] := rfl

@[simp] theorem record_env {σ : Type} (w : World σ) (e : Event) :
    (w.record e).env = w.env := rfl

@[simp] theorem withEnv_log {σ : Type} (w : World σ) (e : σ) :
    (w.withEnv e).log = w.log := rfl

@[simp] theorem withEnv_env {σ : Type} (w : World σ) (e : σ) :
    (w.withEnv e).env = e := rfl

theorem lock_instance_log {σ : Type} (S : Sys σ) (c : Nat) (resource value : String)
    (ttl_ms : Int) (w : World σ) :
    (RedLock.lock_instance S c resource value ttl_ms w).2.log =
      w.log ++ [Event.lock_instance c resource value ttl_ms
        (RedLock.lock_instance S c resource value ttl_ms w).1] := by
  unfold RedLock.lock_instance
  by_cases h : S.ctx_err w.env c ≠ 0
  · rw [if_pos h]; rfl
  · rw [if_neg h]; rfl

theorem unlock_instance_log {σ : Type} (S : Sys σ) (c : Nat) (resource value : String)
    (w : World σ) :
    (RedLock.unlock_instance S c resource value w).2.log =
      w.log ++ [Event.unlock_instance c resource value
        (RedLock.unlock_instance S c resource value w).1] := rfl

theorem continue_lock_instance_log {σ : Type} (S : Sys σ) (c : Nat) (resource value : String)
    (ttl_ms : Int) (w : World σ) :
    (RedLock.continue_lock_instance S c resource value ttl_ms w).2.log =
      w.log ++ [Event.continue_lock_instance c resource value ttl_ms
        (RedLock.continue_lock_instance S c resource value ttl_ms w).1] := rfl

theorem countTrue_cons (b : Bool) (bs : List Bool) :
    countTrue (b :: bs) = (if b then 1 else 0) + countTrue bs := by
  cases b
  · simp [countTrue]
  · simp [countTrue]; ring

theorem lock_fanout_log {σ : Type} (S : Sys σ) (resource value : String) (ttl_ms : Int)
    (servers : List Nat) :
    ∀ (n : Int) (w : World σ), ∃ bs : List Bool, bs.length = servers.length ∧
      (RedLock.lock_fanout S resource value ttl_ms servers n w).2.log =
        w.log ++ lockEvents resource value ttl_ms servers bs ∧
      (RedLock.lock_fanout S resource value ttl_ms servers n w).1 = n + countTrue bs := by
  induction servers with
  | nil => intro n w; exact ⟨[], rfl, by simp [RedLock.lock_fanout, lockEvents], by simp [RedLock.lock_fanout, countTrue]⟩
  | cons c rest ih =>
    intro n w
    obtain ⟨bs, hlen, hlog, hcnt⟩ := ih
      (if (RedLock.lock_instance S c resource value ttl_ms w).1 then n + 1 else n)
      (RedLock.lock_instance S c resource value ttl_ms w).2
    refine ⟨(RedLock.lock_instance S c resource value ttl_ms w).1 :: bs, by simp [hlen], ?_, ?_⟩
    · simp only [RedLock.lock_fanout]
      rw [hlog, lock_instance_log]
      simp [lockEvents]
    · simp only [RedLock.lock_fanout]
      rw [hcnt, countTrue_cons]
      cases (RedLock.lock_instance S c resource value ttl_ms w).1
      · simp
      · simp; ring

theorem unlock_fanout_log {σ : Type} (S : Sys σ) (resource value : String)
    (servers : List Nat) :
    ∀ (w : World σ), ∃ us : List Bool, us.length = servers.length ∧
      (RedLock.unlock_fanout S resource value servers w).log =
        w.log ++ unlockEvents resource value servers us := by
  induction servers with
  | nil => intro w; exact ⟨[], rfl, by simp [RedLock.unlock_fanout, unlockEvents]⟩
  | cons c rest ih =>
    intro w
    obtain ⟨us, hlen, hlog⟩ := ih (RedLock.unlock_instance S c resource value w).2
    refine ⟨(RedLock.unlock_instance S c resource value w).1 :: us, by simp [hlen], ?_⟩
    simp only [RedLock.unlock_fanout]
    rw [hlog, unlock_instance_log]
    simp [unlockEvents]

theorem continue_fanout_log {σ : Type} (S : Sys σ) (resource value : String) (ttl_ms : Int)
    (servers : List Nat) :
    ∀ (n : Int) (w : World σ), ∃ bs : List Bool, bs.length = servers.length ∧
      (RedLock.continue_fanout S resource value ttl_ms servers n w).2.log =
        w.log ++ continueEvents resource value ttl_ms servers bs ∧
      (RedLock.continue_fanout S resource value ttl_ms servers n w).1 = n + countTrue bs := by
  induction servers with
  | nil => intro n w; exact ⟨[], rfl, by simp [RedLock.continue_fanout, continueEvents], by simp [RedLock.continue_fanout, countTrue]⟩
  | cons c rest ih =>
    intro n w
    obtain ⟨bs, hlen, hlog, hcnt⟩ := ih
      (if (RedLock.continue_lock_instance S c resource value ttl_ms w).1 then n + 1 else n)
      (RedLock.continue_lock_instance S c resource value ttl_ms w).2
    refine ⟨(RedLock.continue_lock_instance S c resource value ttl_ms w).1 :: bs, by simp [hlen], ?_, ?_⟩
    · simp only [RedLock.continue_fanout]
      rw [hlog, continue_lock_instance_log]
      simp [continueEvents]
    · simp only [RedLock.continue_fanout]
      rw [hcnt, countTrue_cons]
      cases (RedLock.continue_lock_instance S c resource value ttl_ms w).1
      · simp
      · simp; ring

theorem lock_round_log {σ : Type} (S : Sys σ) (self : RedLock) (resource value : String)
    (ttl_ms : Int) (w : World σ) :
    ∃ bs : List Bool, bs.length = self.servers_.length ∧
      (RedLock.lock_round S self resource value ttl_ms w).2.log =
        w.log ++ lockEvents resource value ttl_ms self.servers_ bs ∧
      (RedLock.lock_round S self resource value ttl_ms w).1.success_count = countTrue bs := by
  obtain ⟨bs, hlen, hlog, hcnt⟩ := lock_fanout_log S resource value ttl_ms self.servers_ 0
    (get_current_time_ms S w).2
  refine ⟨bs, hlen, ?_, ?_⟩
  · simp only [RedLock.lock_round, get_current_time_ms, withEnv_log] at hlog ⊢
    exact hlog
  · simp only [RedLock.lock_round]
    rw [hcnt]; simp

theorem continue_round_log {σ : Type} (S : Sys σ) (self : RedLock) (resource value : String)
    (ttl_ms : Int) (w : World σ) :
    ∃ bs : List Bool, bs.length = self.servers_.length ∧
      (RedLock.continue_round S self resource value ttl_ms w).2.log =
        w.log ++ continueEvents resource value ttl_ms self.servers_ bs ∧
      (RedLock.continue_round S self resource value ttl_ms w).1.success_count = countTrue bs := by
  obtain ⟨bs, hlen, hlog, hcnt⟩ := continue_fanout_log S resource value ttl_ms self.servers_ 0
    (get_current_time_ms S w).2
  refine ⟨bs, hlen, ?_, ?_⟩
  · simp only [RedLock.continue_round, get_current_time_ms, withEnv_log] at hlog ⊢
    exact hlog
  · simp only [RedLock.continue_round]
    rw [hcnt]; simp

theorem backoff_log {σ : Type} (S : Sys σ) (self : RedLock) (attempt : Nat) (w : World σ) :
    ∃ evs : List Event, IsBackoffLog attempt evs ∧
      (RedLock.backoff S self attempt w).log = w.log ++ evs := by
  unfold RedLock.backoff IsBackoffLog
  by_cases h : attempt > 0
  · simp only [h, if_true]
    exact ⟨[Event.sleep (S.uniform_int 0 self.retry_delay_ms_ w.env).1], ⟨_, rfl⟩, rfl⟩
  · simp only [h, if_false]
    exact ⟨[], rfl, by simp⟩

theorem lock_cleanup_log {σ : Type} (S : Sys σ) (self : RedLock) (resource value : String)
    (attempt : Nat) (w : World σ) :
    ∃ (us : List Bool) (evs : List Event), us.length = self.servers_.length ∧
      IsBackoffLog attempt evs ∧
      (RedLock.lock_cleanup S self resource value attempt w).log =
        w.log ++ unlockEvents resource value self.servers_ us ++ evs := by
  obtain ⟨us, hlen, hlog⟩ := unlock_fanout_log S resource value self.servers_ w
  obtain ⟨evs, hb, hblog⟩ := backoff_log S self attempt
    (RedLock.unlock_fanout S resource value self.servers_ w)
  exact ⟨us, evs, hlen, hb, by unfold RedLock.lock_cleanup; rw [hblog, hlog]⟩

/-! ### Failed rounds of `RedLock::lock` -/

theorem round_ok_false_of (self : RedLock) (r : Round)
    (h : r.success_count < self.quorum_ ∨ r.valid_time ≤ 0) : RedLock.round_ok self r = false := by
  unfold RedLock.round_ok
  rcases h with h | h
  · have : ¬ (r.success_count ≥ self.quorum_) := by omega
    simp [this]
  · have : ¬ (r.valid_time > 0) := by omega
    simp [this]

/-- C5: whenever a round of the loop of `RedLock::lock` fails
(`success_count < quorum_` or `valid_time <= 0`), with `attempt` attempts
left after it, the log of that round is: one `lock_instance` call per
server, then one `unlock_instance` call per server, in list order, each
with the round's resource and token, whatever the `lock_instance` results
`bs` were, and only then the retry sleep (present iff `attempt > 0`); the
loop then goes on from that world. -/
theorem failed_lock_round_releases_every_server {σ : Type} (S : Sys σ) (self : RedLock)
    (resource value : String) (ttl_ms : Int) (attempt : Nat) (lock : Lock) (w : World σ)
    (hfail : (RedLock.lock_round S self resource value ttl_ms w).1.success_count < self.quorum_ ∨
      (RedLock.lock_round S self resource value ttl_ms w).1.valid_time ≤ 0) :
    ∃ (bs us : List Bool) (evs : List Event),
      bs.length = self.servers_.length ∧ us.length = self.servers_.length ∧
      IsBackoffLog attempt evs ∧
      (RedLock.lock_round S self resource value ttl_ms w).1.success_count = countTrue bs ∧
      (RedLock.lock_cleanup S self resource value attempt
          (RedLock.lock_round S self resource value ttl_ms w).2).log =
        w.log ++ lockEvents resource value ttl_ms self.servers_ bs ++
          unlockEvents resource value self.servers_ us ++ evs ∧
      RedLock.lock_loop S self resource value ttl_ms (attempt + 1) lock w =
        RedLock.lock_loop S self resource value ttl_ms attempt lock
          (RedLock.lock_cleanup S self resource value attempt
            (RedLock.lock_round S self resource value ttl_ms w).2) := by
  obtain ⟨bs, hbl, hblog, hcnt⟩ := lock_round_log S self resource value ttl_ms w
  obtain ⟨us, evs, hul, hb, hclog⟩ := lock_cleanup_log S self resource value attempt
    (RedLock.lock_round S self resource value ttl_ms w).2
  refine ⟨bs, us, evs, hbl, hul, hb, hcnt, ?_, ?_⟩
  · rw [hclog, hblog]
  · have hno := round_ok_false_of self _ hfail
    simp only [RedLock.lock_loop, hno]
    simp

/-- Witness for C5: three servers, only the first `lock_instance` succeeds
(quorum 2): the round fails, and the log shows three lock calls, then three
unlock calls with the same resource and token, then the sleep. -/
theorem failed_lock_round_releases_every_server_witness :
    (RedLock.lock_round Script.sys redlock_three "res" "tok" 10000
        (World.start script_one_of_three)).1.success_count = 1 ∧
    (RedLock.lock_cleanup Script.sys redlock_three "res" "tok" 3
        (RedLock.lock_round Script.sys redlock_three "res" "tok" 10000
          (World.start script_one_of_three)).2).log =
      [Event.lock_instance 0 "res" "tok" 10000 true, Event.lock_instance 1 "res" "tok" 10000 false,
        Event.lock_instance 2 "res" "tok" 10000 false,
        Event.unlock_instance 0 "res" "tok" true, Event.unlock_instance 1 "res" "tok" false,
        Event.unlock_instance 2 "res" "tok" false, Event.sleep 57] ∧
    ∃ (bs us : List Bool) (evs : List Event),
      bs.length = redlock_three.servers_.length ∧ us.length = redlock_three.servers_.length ∧
      IsBackoffLog 3 evs ∧
      (RedLock.lock_round Script.sys redlock_three "res" "tok" 10000
        (World.start script_one_of_three)).1.success_count = countTrue bs ∧
      (RedLock.lock_cleanup Script.sys redlock_three "res" "tok" 3
          (RedLock.lock_round Script.sys redlock_three "res" "tok" 10000
            (World.start script_one_of_three)).2).log =
        (World.start script_one_of_three).log ++
          lockEvents "res" "tok" 10000 redlock_three.servers_ bs ++
          unlockEvents "res" "tok" redlock_three.servers_ us ++ evs ∧
      RedLock.lock_loop Script.sys redlock_three "res" "tok" 10000 (3 + 1) Lock.default
          (World.start script_one_of_three) =
        RedLock.lock_loop Script.sys redlock_three "res" "tok" 10000 3 Lock.default
          (RedLock.lock_cleanup Script.sys redlock_three "res" "tok" 3
            (RedLock.lock_round Script.sys redlock_three "res" "tok" 10000
              (World.start script_one_of_three)).2) :=
  ⟨by decide, by decide,
    failed_lock_round_releases_every_server Script.sys redlock_three "res" "tok" 10000 3
      Lock.default (World.start script_one_of_three) (Or.inl (by decide))⟩

/-! ### Rounds and sleeps of `RedLock::lock` -/

theorem wrap32_id (x : Int) (h1 : -2147483648 ≤ x) (h2 : x ≤ 2147483647) : wrap32 x = x := by
  unfold wrap32; omega

theorem attempts_eq (self : RedLock) (h0 : 0 ≤ self.retry_count_)
    (h1 : self.retry_count_ < INT_MAX) :
    ((RedLock.attempts self : Nat) : Int) = self.retry_count_ + 1 := by
  unfold INT_MAX at h1
  unfold RedLock.attempts
  rw [wrap32_id _ (by omega) (by omega)]
  omega

theorem generate_unique_id_log {σ : Type} (S : Sys σ) (w : World σ) :
    (generate_unique_id S w).2.log = w.log := by
  have key : ∀ (n : Nat) (w : World σ), (draw_words S n w).2.log = w.log := by
    intro n
    induction n with
    | zero => intro w; rfl
    | succ n ih => intro w; simp only [draw_words]; rw [ih]; rfl
  exact key 5 w

theorem sleepCount_append (a b : List Event) : sleepCount (a ++ b) = sleepCount a + sleepCount b := by
  simp [sleepCount]

theorem sleepCount_lockEvents (resource value : String) (ttl_ms : Int) (servers : List Nat) :
    ∀ bs : List Bool, sleepCount (lockEvents resource value ttl_ms servers bs) = 0 := by
  induction servers with
  | nil => intro bs; simp [lockEvents, sleepCount]
  | cons c rest ih =>
    intro bs
    cases bs with
    | nil => simp [lockEvents, sleepCount]
    | cons b bs =>
      have := ih bs
      simp only [lockEvents, sleepCount, List.zipWith_cons_cons] at this ⊢
      simpa using this

theorem sleepCount_unlockEvents (resource value : String) (servers : List Nat) :
    ∀ us : List Bool, sleepCount (unlockEvents resource value servers us) = 0 := by
  induction servers with
  | nil => intro us; simp [unlockEvents, sleepCount]
  | cons c rest ih =>
    intro us
    cases us with
    | nil => simp [unlockEvents, sleepCount]
    | cons b us =>
      have := ih us
      simp only [unlockEvents, sleepCount, List.zipWith_cons_cons] at this ⊢
      simpa using this

theorem sleepCount_failed (servers : List Nat) (resource value : String) (ttl_ms : Int)
    (evs : List Event) (h : IsFailedLockRound servers resource value ttl_ms evs) :
    sleepCount evs = 0 := by
  obtain ⟨bs, us, _, _, rfl⟩ := h
  rw [sleepCount_append, sleepCount_lockEvents, sleepCount_unlockEvents]

theorem sleepCount_won (servers : List Nat) (resource value : String) (ttl_ms : Int)
    (evs : List Event) (h : IsWonLockRound servers resource value ttl_ms evs) :
    sleepCount evs = 0 := by
  obtain ⟨bs, _, rfl⟩ := h
  rw [sleepCount_lockEvents]

theorem sleepCount_joinRounds (rs : List (List Event)) :
    ∀ ds : List Int, ds.length + 1 = rs.length → (∀ r ∈ rs, sleepCount r = 0) →
      sleepCount (joinRounds rs ds) = ds.length := by
  induction rs with
  | nil => intro ds h; simp at h
  | cons r rest ih =>
    intro ds hlen hz
    cases ds with
    | nil =>
      have hrest : rest = [] := by
        cases rest with
        | nil => rfl
        | cons _ _ => simp at hlen
      subst hrest
      simp [joinRounds, hz r (by simp)]
    | cons d ds =>
      have h1 : ds.length + 1 = rest.length := by simpa using hlen
      have h2 := ih ds h1 (fun r hr => hz r (by simp [hr]))
      simp only [joinRounds]
      rw [sleepCount_append, hz r (by simp)]
      have : sleepCount (Event.sleep d :: joinRounds rest ds) = 1 + sleepCount (joinRounds rest ds) := by
        simp [sleepCount]; ring
      rw [this, h2]; simp; ring

theorem lock_loop_rounds {σ : Type} (S : Sys σ) (self : RedLock) (resource value : String)
    (ttl_ms : Int) :
    ∀ (a : Nat) (lock : Lock) (w : World σ),
      ∃ (init : List (List Event)) (last : List Event) (ds : List Int),
        (RedLock.lock_loop S self resource value ttl_ms (a + 1) lock w).2.log =
          w.log ++ joinRounds (init ++ [last]) ds ∧
        ds.length = init.length ∧ init.length ≤ a ∧
        (∀ r ∈ init, IsFailedLockRound self.servers_ resource value ttl_ms r) ∧
        (((RedLock.lock_loop S self resource value ttl_ms (a + 1) lock w).1.1 = true ∧
            IsWonLockRound self.servers_ resource value ttl_ms last) ∨
          ((RedLock.lock_loop S self resource value ttl_ms (a + 1) lock w).1.1 = false ∧
            IsFailedLockRound self.servers_ resource value ttl_ms last ∧ init.length = a)) := by
  intro a
  induction a with
  | zero =>
    intro lock w
    obtain ⟨bs, hbl, hblog, _⟩ := lock_round_log S self resource value ttl_ms w
    by_cases hok : RedLock.round_ok self (RedLock.lock_round S self resource value ttl_ms w).1 = true
    · refine ⟨[], lockEvents resource value ttl_ms self.servers_ bs, [], ?_, rfl, le_refl _,
        by simp, Or.inl ⟨?_, bs, hbl, rfl⟩⟩
      · simp only [RedLock.lock_loop, hok, if_true]
        simpa [joinRounds] using hblog
      · simp only [RedLock.lock_loop, hok, if_true]
    · obtain ⟨us, evs, hul, hb, hclog⟩ := lock_cleanup_log S self resource value 0
        (RedLock.lock_round S self resource value ttl_ms w).2
      have hevs : evs = [] := by simpa [IsBackoffLog] using hb
      subst hevs
      refine ⟨[], lockEvents resource value ttl_ms self.servers_ bs ++
          unlockEvents resource value self.servers_ us, [], ?_, rfl, le_refl _, by simp,
        Or.inr ⟨?_, ⟨bs, us, hbl, hul, rfl⟩, rfl⟩⟩
      · simp only [RedLock.lock_loop, hok]
        simp only [Bool.false_eq_true, if_false]
        rw [hclog, hblog]
        simp [joinRounds]
      · simp only [RedLock.lock_loop, hok]
        simp
  | succ a ih =>
    intro lock w
    obtain ⟨bs, hbl, hblog, _⟩ := lock_round_log S self resource value ttl_ms w
    by_cases hok : RedLock.round_ok self (RedLock.lock_round S self resource value ttl_ms w).1 = true
    · refine ⟨[], lockEvents resource value ttl_ms self.servers_ bs, [], ?_, rfl, Nat.zero_le _,
        by simp, Or.inl ⟨?_, bs, hbl, rfl⟩⟩
      · rw [RedLock.lock_loop]
        simp only [hok, if_true]
        simpa [joinRounds] using hblog
      · rw [RedLock.lock_loop]
        simp only [hok, if_true]
    · obtain ⟨us, evs, hul, hb, hclog⟩ := lock_cleanup_log S self resource value (a + 1)
        (RedLock.lock_round S self resource value ttl_ms w).2
      obtain ⟨d, hd⟩ : ∃ d : Int, evs = [Event.sleep d] := by simpa [IsBackoffLog] using hb
      subst hd
      obtain ⟨init, last, ds, hlog, hds, hle, hinit, hres⟩ := ih lock
        (RedLock.lock_cleanup S self resource value (a + 1)
          (RedLock.lock_round S self resource value ttl_ms w).2)
      have hstep : RedLock.lock_loop S self resource value ttl_ms (a + 1 + 1) lock w =
          RedLock.lock_loop S self resource value ttl_ms (a + 1) lock
            (RedLock.lock_cleanup S self resource value (a + 1)
              (RedLock.lock_round S self resource value ttl_ms w).2) := by
        rw [RedLock.lock_loop]
        simp only [hok]
        simp
      refine ⟨(lockEvents resource value ttl_ms self.servers_ bs ++
          unlockEvents resource value self.servers_ us) :: init, last, d :: ds, ?_, by simp [hds],
        by simp; omega, ?_, ?_⟩
      · rw [hstep, hlog, hclog, hblog]
        simp [joinRounds]
      · intro r hr
        rcases List.mem_cons.mp hr with h | h
        · subst h; exact ⟨bs, us, hbl, hul, rfl⟩
        · exact hinit r h
      · rw [hstep]
        rcases hres with ⟨h1, h2⟩ | ⟨h1, h2, h3⟩
        · exact Or.inl ⟨h1, h2⟩
        · exact Or.inr ⟨h1, h2, by simp [h3]⟩

/-- Rounds and sleeps of `RedLock::lock` when `retry_count_ + 1` does not
overflow: take any retry count accepted by `RedLock::set_retry_count` that
is below `INT_MAX`, and a non-empty server list.  The log of a
`RedLock::lock` call is a sequence of at most `retry_count_ + 1` fan-out rounds with exactly one sleep between each two
consecutive rounds and none after the last; all rounds but the last failed;
and when the call returns `false` there are exactly `retry_count_ + 1`
rounds, all failed, and exactly `retry_count_` sleeps. -/
theorem lock_rounds_and_sleeps {σ : Type} (S : Sys σ) (self0 : RedLock) (count : Int)
    (resource : String) (ttl_ms : Int) (lock : Lock) (w : World σ)
    (hacc : (RedLock.set_retry_count self0 count).1 = true)
    (hmax : count < INT_MAX)
    (hne : self0.servers_ ≠ []) :
    ∃ (init : List (List Event)) (last : List Event) (ds : List Int),
      (RedLock.lock S (RedLock.set_retry_count self0 count).2 resource ttl_ms lock w).2.log =
        w.log ++ joinRounds (init ++ [last]) ds ∧
      ds.length = init.length ∧
      ((init.length : Int) + 1 ≤ count + 1) ∧
      sleepCount (joinRounds (init ++ [last]) ds) = ds.length ∧
      (∀ r ∈ init, IsFailedLockRound self0.servers_ resource (generate_unique_id S w).1 ttl_ms r) ∧
      (((RedLock.lock S (RedLock.set_retry_count self0 count).2 resource ttl_ms lock w).1.1 = true ∧
          IsWonLockRound self0.servers_ resource (generate_unique_id S w).1 ttl_ms last) ∨
        ((RedLock.lock S (RedLock.set_retry_count self0 count).2 resource ttl_ms lock w).1.1 = false ∧
          IsFailedLockRound self0.servers_ resource (generate_unique_id S w).1 ttl_ms last ∧
          (init.length : Int) + 1 = count + 1 ∧ (ds.length : Int) = count)) := by
  have hc0 : ¬ count < 0 := by
    intro hneg
    simp [RedLock.set_retry_count, hneg] at hacc
  have hself : RedLock.set_retry_count self0 count = (true, { self0 with retry_count_ := count }) := by
    simp [RedLock.set_retry_count, hc0]
  rw [hself]
  have hatt := attempts_eq { self0 with retry_count_ := count } (by simpa using hc0) hmax
  obtain ⟨a, ha⟩ : ∃ a : Nat, RedLock.attempts { self0 with retry_count_ := count } = a + 1 := by
    refine ⟨RedLock.attempts { self0 with retry_count_ := count } - 1, ?_⟩
    simp only at hatt
    omega
  have hempty : ({ self0 with retry_count_ := count } : RedLock).servers_.isEmpty = false := by
    cases hs : self0.servers_ with
    | nil => exact absurd hs hne
    | cons _ _ => rfl
  have hlock : RedLock.lock S { self0 with retry_count_ := count } resource ttl_ms lock w =
      RedLock.lock_loop S { self0 with retry_count_ := count } resource (generate_unique_id S w).1
        ttl_ms (a + 1) lock (generate_unique_id S w).2 := by
    unfold RedLock.lock
    rw [hempty, ha]
    simp
  obtain ⟨init, last, ds, hlog, hds, hle, hinit, hres⟩ :=
    lock_loop_rounds S { self0 with retry_count_ := count } resource (generate_unique_id S w).1
      ttl_ms a lock (generate_unique_id S w).2
  have hacount : (a : Int) = count := by
    rw [ha] at hatt
    simp only at hatt
    push_cast at hatt
    omega
  have hsleep : sleepCount (joinRounds (init ++ [last]) ds) = ds.length := by
    apply sleepCount_joinRounds
    · simp [hds]
    · intro r hr
      rcases List.mem_append.mp hr with h | h
      · exact sleepCount_failed _ _ _ _ _ (hinit r h)
      · have hrl : r = last := by simpa using h
        subst hrl
        rcases hres with ⟨_, h2⟩ | ⟨_, h2, _⟩
        · exact sleepCount_won _ _ _ _ _ h2
        · exact sleepCount_failed _ _ _ _ _ h2
  refine ⟨init, last, ds, ?_, hds, by omega, hsleep, hinit, ?_⟩
  · simp only
    rw [hlock, hlog, generate_unique_id_log]
  · simp only
    rw [hlock]
    rcases hres with ⟨h1, h2⟩ | ⟨h1, h2, h3⟩
    · exact Or.inl ⟨h1, h2⟩
    · exact Or.inr ⟨h1, h2, by omega, by omega⟩

/-- Example for `lock_rounds_and_sleeps`: `retry_count_ = 3`, three servers
that never answer: the call returns `false` after 4 rounds (12 `lock_instance` calls) and 3
sleeps, and its last log entry is not a sleep. -/
theorem lock_rounds_and_sleeps_witness :
    (RedLock.lock Script.sys (RedLock.set_retry_count redlock_three 3).2 "res" 10000 Lock.default
        (World.start script_all_down)).1.1 = false ∧
    lockCallCount (RedLock.lock Script.sys (RedLock.set_retry_count redlock_three 3).2 "res" 10000
        Lock.default (World.start script_all_down)).2.log = 12 ∧
    sleepCount (RedLock.lock Script.sys (RedLock.set_retry_count redlock_three 3).2 "res" 10000
        Lock.default (World.start script_all_down)).2.log = 3 ∧
    (RedLock.lock Script.sys (RedLock.set_retry_count redlock_three 3).2 "res" 10000
        Lock.default (World.start script_all_down)).2.log.getLast? =
      some (Event.unlock_instance 2 "res" "0000000000000000000000000000000000000000" false) ∧
    ∃ (init : List (List Event)) (last : List Event) (ds : List Int),
      (RedLock.lock Script.sys (RedLock.set_retry_count redlock_three 3).2 "res" 10000 Lock.default
          (World.start script_all_down)).2.log =
        (World.start script_all_down).log ++ joinRounds (init ++ [last]) ds ∧
      ds.length = init.length ∧
      ((init.length : Int) + 1 ≤ 3 + 1) ∧
      sleepCount (joinRounds (init ++ [last]) ds) = ds.length ∧
      (∀ r ∈ init, IsFailedLockRound redlock_three.servers_ "res"
        (generate_unique_id Script.sys (World.start script_all_down)).1 10000 r) ∧
      (((RedLock.lock Script.sys (RedLock.set_retry_count redlock_three 3).2 "res" 10000
            Lock.default (World.start script_all_down)).1.1 = true ∧
          IsWonLockRound redlock_three.servers_ "res"
            (generate_unique_id Script.sys (World.start script_all_down)).1 10000 last) ∨
        ((RedLock.lock Script.sys (RedLock.set_retry_count redlock_three 3).2 "res" 10000
            Lock.default (World.start script_all_down)).1.1 = false ∧
          IsFailedLockRound redlock_three.servers_ "res"
            (generate_unique_id Script.sys (World.start script_all_down)).1 10000 last ∧
          (init.length : Int) + 1 = 3 + 1 ∧ (ds.length : Int) = 3)) :=
  ⟨by decide, by decide, by decide, by decide,
    lock_rounds_and_sleeps Script.sys redlock_three 3 "res" 10000 Lock.default
      (World.start script_all_down) (by decide) (by decide) (by decide)⟩

/-! ### The result of `RedLock::lock` -/

theorem round_ok_iff (self : RedLock) (r : Round) :
    RedLock.round_ok self r = true ↔ (self.quorum_ ≤ r.success_count ∧ 0 < r.valid_time) := by
  unfold RedLock.round_ok
  simp

theorem lock_round_start_shift {σ : Type} (S : Sys σ) (self : RedLock) (resource value : String)
    (ttl_ms : Int) (a : Nat) (w : World σ) :
    ∀ i : Nat, RedLock.lock_round_start S self resource value ttl_ms (a + 1) (i + 1) w =
      RedLock.lock_round_start S self resource value ttl_ms a i
        (RedLock.lock_cleanup S self resource value a
          (RedLock.lock_round S self resource value ttl_ms w).2) := by
  intro i
  induction i with
  | zero => simp [RedLock.lock_round_start]
  | succ i ih =>
    rw [RedLock.lock_round_start, ih]
    conv_rhs => rw [RedLock.lock_round_start]
    have : a + 1 - 1 - (i + 1) = a - 1 - i := by omega
    rw [this]

theorem lock_nth_round_shift {σ : Type} (S : Sys σ) (self : RedLock) (resource value : String)
    (ttl_ms : Int) (a : Nat) (w : World σ) (i : Nat) :
    RedLock.lock_nth_round S self resource value ttl_ms (a + 1) (i + 1) w =
      RedLock.lock_nth_round S self resource value ttl_ms a i
        (RedLock.lock_cleanup S self resource value a
          (RedLock.lock_round S self resource value ttl_ms w).2) := by
  unfold RedLock.lock_nth_round
  rw [lock_round_start_shift]

theorem lock_loop_all_fail {σ : Type} (S : Sys σ) (self : RedLock) (resource value : String)
    (ttl_ms : Int) (lock : Lock) :
    ∀ (a : Nat) (w : World σ),
      (∀ i, i < a →
        RedLock.round_ok self (RedLock.lock_nth_round S self resource value ttl_ms a i w) = false) →
      RedLock.lock_loop S self resource value ttl_ms a lock w =
        ((false, lock), RedLock.lock_round_start S self resource value ttl_ms a a w) := by
  intro a
  induction a with
  | zero => intro w _; rfl
  | succ a ih =>
    intro w h
    have h0 := h 0 (Nat.succ_pos a)
    simp only [RedLock.lock_nth_round, RedLock.lock_round_start] at h0
    rw [RedLock.lock_loop]
    simp only [h0]
    simp only [Bool.false_eq_true, if_false]
    rw [ih, lock_round_start_shift]
    intro i hi
    rw [← lock_nth_round_shift]
    exact h (i + 1) (by omega)

theorem lock_loop_first_ok {σ : Type} (S : Sys σ) (self : RedLock) (resource value : String)
    (ttl_ms : Int) (lock : Lock) :
    ∀ (a : Nat) (w : World σ) (i : Nat), i < a →
      RedLock.round_ok self (RedLock.lock_nth_round S self resource value ttl_ms a i w) = true →
      (∀ j, j < i →
        RedLock.round_ok self (RedLock.lock_nth_round S self resource value ttl_ms a j w) = false) →
      RedLock.lock_loop S self resource value ttl_ms a lock w =
        ((true, Lock.ctor resource value
            (RedLock.lock_nth_round S self resource value ttl_ms a i w).valid_time),
          (RedLock.lock_round S self resource value ttl_ms
            (RedLock.lock_round_start S self resource value ttl_ms a i w)).2) := by
  intro a
  induction a with
  | zero => intro w i hi; omega
  | succ a ih =>
    intro w i hi hok hbefore
    cases i with
    | zero =>
      simp only [RedLock.lock_nth_round, RedLock.lock_round_start] at hok ⊢
      rw [RedLock.lock_loop]
      simp only [hok, if_true]
    | succ i =>
      have h0 := hbefore 0 (Nat.succ_pos i)
      simp only [RedLock.lock_nth_round, RedLock.lock_round_start] at h0
      rw [RedLock.lock_loop]
      simp only [h0]
      simp only [Bool.false_eq_true, if_false]
      rw [lock_nth_round_shift, lock_round_start_shift]
      apply ih _ i (by omega)
      · rw [← lock_nth_round_shift]; exact hok
      · intro j hj
        rw [← lock_nth_round_shift]
        exact hbefore (j + 1) (by omega)

theorem lock_unfold {σ : Type} (S : Sys σ) (self : RedLock) (resource : String) (ttl_ms : Int)
    (lock : Lock) (w : World σ) (hne : self.servers_ ≠ []) :
    RedLock.lock S self resource ttl_ms lock w =
      RedLock.lock_loop S self resource (generate_unique_id S w).1 ttl_ms self.attempts lock
        (generate_unique_id S w).2 := by
  unfold RedLock.lock
  have hempty : self.servers_.isEmpty = false := by
    cases hs : self.servers_ with
    | nil => exact absurd hs hne
    | cons _ _ => rfl
  rw [hempty]
  simp

/-- The result of `RedLock::lock` when `retry_count_ + 1` does not overflow:
for a non-empty server list and `0 <= retry_count_ < INT_MAX`, whatever the
authorities answer and the clock reads: `RedLock::lock` returns `true` iff one of its
first `retry_count_ + 1` rounds has `success_count >= quorum_` and
`valid_time > 0`; it then returns at the first such round `i` with the
caller's `Lock` set to `Lock(resource, token, valid_time of round i)`; and
when it returns `false` the caller's `Lock` is unchanged.  Round `i` is the
round run after rounds `0 .. i-1` failed and were cleaned up. -/
theorem lock_result {σ : Type} (S : Sys σ) (self : RedLock) (resource : String) (ttl_ms : Int)
    (lock : Lock) (w : World σ)
    (hne : self.servers_ ≠ [])
    (h0 : 0 ≤ self.retry_count_) (hmax : self.retry_count_ < INT_MAX) :
    ((RedLock.lock S self resource ttl_ms lock w).1.1 = true ↔
      ∃ i : Nat, (i : Int) < self.retry_count_ + 1 ∧
        self.quorum_ ≤ (RedLock.lock_nth_round S self resource (generate_unique_id S w).1 ttl_ms
            self.attempts i (generate_unique_id S w).2).success_count ∧
        0 < (RedLock.lock_nth_round S self resource (generate_unique_id S w).1 ttl_ms
            self.attempts i (generate_unique_id S w).2).valid_time) ∧
    (∀ i : Nat, (i : Int) < self.retry_count_ + 1 →
      (self.quorum_ ≤ (RedLock.lock_nth_round S self resource (generate_unique_id S w).1 ttl_ms
            self.attempts i (generate_unique_id S w).2).success_count ∧
        0 < (RedLock.lock_nth_round S self resource (generate_unique_id S w).1 ttl_ms
            self.attempts i (generate_unique_id S w).2).valid_time) →
      (∀ j : Nat, j < i →
        ¬ (self.quorum_ ≤ (RedLock.lock_nth_round S self resource (generate_unique_id S w).1 ttl_ms
            self.attempts j (generate_unique_id S w).2).success_count ∧
          0 < (RedLock.lock_nth_round S self resource (generate_unique_id S w).1 ttl_ms
            self.attempts j (generate_unique_id S w).2).valid_time)) →
      (RedLock.lock S self resource ttl_ms lock w).1 =
        (true, Lock.ctor resource (generate_unique_id S w).1
          (RedLock.lock_nth_round S self resource (generate_unique_id S w).1 ttl_ms
            self.attempts i (generate_unique_id S w).2).valid_time)) ∧
    ((RedLock.lock S self resource ttl_ms lock w).1.1 = false →
      (RedLock.lock S self resource ttl_ms lock w).1.2 = lock) := by
  have hatt := attempts_eq self h0 hmax
  rw [lock_unfold S self resource ttl_ms lock w hne]
  have first : ∀ i : Nat, (i : Int) < self.retry_count_ + 1 →
      (self.quorum_ ≤ (RedLock.lock_nth_round S self resource (generate_unique_id S w).1 ttl_ms
            self.attempts i (generate_unique_id S w).2).success_count ∧
        0 < (RedLock.lock_nth_round S self resource (generate_unique_id S w).1 ttl_ms
            self.attempts i (generate_unique_id S w).2).valid_time) →
      (∀ j : Nat, j < i →
        ¬ (self.quorum_ ≤ (RedLock.lock_nth_round S self resource (generate_unique_id S w).1 ttl_ms
            self.attempts j (generate_unique_id S w).2).success_count ∧
          0 < (RedLock.lock_nth_round S self resource (generate_unique_id S w).1 ttl_ms
            self.attempts j (generate_unique_id S w).2).valid_time)) →
      (RedLock.lock_loop S self resource (generate_unique_id S w).1 ttl_ms self.attempts lock
          (generate_unique_id S w).2).1 =
        (true, Lock.ctor resource (generate_unique_id S w).1
          (RedLock.lock_nth_round S self resource (generate_unique_id S w).1 ttl_ms
            self.attempts i (generate_unique_id S w).2).valid_time) := by
    intro i hi hok hbefore
    rw [lock_loop_first_ok S self resource _ ttl_ms lock self.attempts _ i (by omega)
      ((round_ok_iff _ _).mpr hok)]
    intro j hj
    have := hbefore j hj
    rw [← round_ok_iff] at this
    simpa using this
  refine ⟨⟨?_, ?_⟩, first, ?_⟩
  · intro htrue
    by_contra hnone
    have hall : ∀ i, i < self.attempts →
        RedLock.round_ok self (RedLock.lock_nth_round S self resource (generate_unique_id S w).1
          ttl_ms self.attempts i (generate_unique_id S w).2) = false := by
      intro i hi
      by_contra hc
      have hc' : RedLock.round_ok self (RedLock.lock_nth_round S self resource
          (generate_unique_id S w).1 ttl_ms self.attempts i (generate_unique_id S w).2) = true := by
        simpa using hc
      exact hnone ⟨i, by omega, (round_ok_iff _ _).mp hc'⟩
    rw [lock_loop_all_fail S self resource _ ttl_ms lock self.attempts _ hall] at htrue
    simp at htrue
  · rintro ⟨i, hi, hok⟩
    classical
    have hex : ∃ k : Nat, (k : Int) < self.retry_count_ + 1 ∧
        (self.quorum_ ≤ (RedLock.lock_nth_round S self resource (generate_unique_id S w).1 ttl_ms
            self.attempts k (generate_unique_id S w).2).success_count ∧
        0 < (RedLock.lock_nth_round S self resource (generate_unique_id S w).1 ttl_ms
            self.attempts k (generate_unique_id S w).2).valid_time) := ⟨i, hi, hok⟩
    have hmin := Nat.find_spec hex
    have hlt : ∀ j : Nat, j < Nat.find hex →
        ¬ (self.quorum_ ≤ (RedLock.lock_nth_round S self resource (generate_unique_id S w).1 ttl_ms
            self.attempts j (generate_unique_id S w).2).success_count ∧
          0 < (RedLock.lock_nth_round S self resource (generate_unique_id S w).1 ttl_ms
            self.attempts j (generate_unique_id S w).2).valid_time) := by
      intro j hj hcon
      have hjlt : (j : Int) < self.retry_count_ + 1 := by
        have := hmin.1
        omega
      exact Nat.find_min hex hj ⟨hjlt, hcon⟩
    rw [first (Nat.find hex) hmin.1 hmin.2 hlt]
  · intro hfalse
    by_cases hall : ∀ i, i < self.attempts →
        RedLock.round_ok self (RedLock.lock_nth_round S self resource (generate_unique_id S w).1
          ttl_ms self.attempts i (generate_unique_id S w).2) = false
    · rw [lock_loop_all_fail S self resource _ ttl_ms lock self.attempts _ hall]
    · exfalso
      push_neg at hall
      obtain ⟨i, hi, hne'⟩ := hall
      have hc' : RedLock.round_ok self (RedLock.lock_nth_round S self resource
          (generate_unique_id S w).1 ttl_ms self.attempts i (generate_unique_id S w).2) = true := by
        simpa using hne'
      classical
      have hex : ∃ k : Nat, (k : Int) < self.retry_count_ + 1 ∧
          (self.quorum_ ≤ (RedLock.lock_nth_round S self resource (generate_unique_id S w).1 ttl_ms
              self.attempts k (generate_unique_id S w).2).success_count ∧
          0 < (RedLock.lock_nth_round S self resource (generate_unique_id S w).1 ttl_ms
              self.attempts k (generate_unique_id S w).2).valid_time) :=
        ⟨i, by omega, (round_ok_iff _ _).mp hc'⟩
      have hmin := Nat.find_spec hex
      have hlt : ∀ j : Nat, j < Nat.find hex →
          ¬ (self.quorum_ ≤ (RedLock.lock_nth_round S self resource (generate_unique_id S w).1
              ttl_ms self.attempts j (generate_unique_id S w).2).success_count ∧
            0 < (RedLock.lock_nth_round S self resource (generate_unique_id S w).1 ttl_ms
              self.attempts j (generate_unique_id S w).2).valid_time) := by
        intro j hj hcon
        have hjlt : (j : Int) < self.retry_count_ + 1 := by
          have := hmin.1
          omega
        exact Nat.find_min hex hj ⟨hjlt, hcon⟩
      rw [first (Nat.find hex) hmin.1 hmin.2 hlt] at hfalse
      simp at hfalse

/-- Example for `lock_result`: three servers, quorum 2, `retry_count_ = 3`;
round 0 gets one success and fails, round 1 gets three and succeeds: the call
returns `true` with the caller's `Lock` holding the resource, the token and
round 1's validity 9888. -/
theorem lock_result_witness :
    redlock_three.servers_ ≠ [] ∧ 0 ≤ redlock_three.retry_count_ ∧
    redlock_three.retry_count_ < INT_MAX ∧
    (RedLock.lock Script.sys redlock_three "res" 10000 Lock.default
        (World.start script_second_round_wins)).1 =
      (true, { resource_ := "res", value_ := "0000000100000002000000030000000400000005",
               valid_time_ := 9888 }) :=
  ⟨by decide, by decide, by decide,
    ((lock_result Script.sys redlock_three "res" 10000 Lock.default
        (World.start script_second_round_wins) (by decide) (by decide) (by decide)).2.1 1
      (by decide) (by decide)
      (fun j hj => by
        have hj0 : j = 0 := by omega
        subst hj0
        decide)).trans (by decide)⟩

/-! ### `RedLock::unlock` and `CRedLock::Unlock` -/

theorem Unlock_fanout_log {σ : Type} (S : Sys σ) (self : CRedLock) (resource val : Option String)
    (servers : List Nat) :
    ∀ w : World σ, (CRedLock.Unlock_fanout S self resource val servers w).log =
      w.log ++ UnlockInstanceEvents resource val servers := by
  induction servers with
  | nil => intro w; simp [CRedLock.Unlock_fanout, UnlockInstanceEvents]
  | cons c rest ih =>
    intro w
    simp only [CRedLock.Unlock_fanout]
    rw [ih]
    simp [CRedLock.UnlockInstance, CRedLock.RedisCommandArgv, UnlockInstanceEvents]

/-- C7: with a non-empty server list `RedLock::unlock` returns `true`,
whatever the handle and whatever the authorities answer, and its log is
exactly one `unlock_instance` call per server, in list order, with the
handle's `resource_` and `value_`; a second call with the same handle does
the same again.  `CRedLock::Unlock` returns `true` for every handle, every
server list and every answer, after one `UnlockInstance` call per server
with the handle's `m_resource` and `m_val`. -/
theorem unlock_always_true {σ : Type} (S : Sys σ) (self : RedLock) (lock : Lock) (w : World σ)
    (cself : CRedLock) (clock : CLock) (cw : World σ) (hne : self.servers_ ≠ []) :
    ((RedLock.unlock S self lock w).1 = true ∧
      ∃ us : List Bool, us.length = self.servers_.length ∧
        (RedLock.unlock S self lock w).2.log =
          w.log ++ unlockEvents lock.resource_ lock.value_ self.servers_ us) ∧
    ((RedLock.unlock S self lock (RedLock.unlock S self lock w).2).1 = true ∧
      ∃ us : List Bool, us.length = self.servers_.length ∧
        (RedLock.unlock S self lock (RedLock.unlock S self lock w).2).2.log =
          (RedLock.unlock S self lock w).2.log ++
            unlockEvents lock.resource_ lock.value_ self.servers_ us) ∧
    ((CRedLock.Unlock S cself clock cw).1 = true ∧
      (CRedLock.Unlock S cself clock cw).2.log =
        cw.log ++ UnlockInstanceEvents clock.m_resource clock.m_val cself.m_redisServer) := by
  have hempty : self.servers_.isEmpty = false := by
    cases hs : self.servers_ with
    | nil => exact absurd hs hne
    | cons _ _ => rfl
  have key : ∀ w' : World σ, (RedLock.unlock S self lock w').1 = true ∧
      ∃ us : List Bool, us.length = self.servers_.length ∧
        (RedLock.unlock S self lock w').2.log =
          w'.log ++ unlockEvents lock.resource_ lock.value_ self.servers_ us := by
    intro w'
    unfold RedLock.unlock
    rw [hempty]
    simp only [Bool.false_eq_true, if_false, true_and]
    exact unlock_fanout_log S lock.resource_ lock.value_ self.servers_ w'
  refine ⟨key w, key _, rfl, ?_⟩
  unfold CRedLock.Unlock
  exact Unlock_fanout_log S cself clock.m_resource clock.m_val cself.m_redisServer cw

/-- Witness for C7: three servers; no authority recognises the token (every
unlock script answers 0, then nothing answers at all): both the first and
the second `unlock` of the same handle return `true`, each after three
`unlock_instance` calls. -/
theorem unlock_always_true_witness :
    redlock_three.servers_ ≠ [] ∧
    (RedLock.unlock Script.sys redlock_three lock_held
      (World.start { Script.empty with replies :=
        [some (reply_int 0), some (reply_int 0), some (reply_int 0)] })).1 = true ∧
    (RedLock.unlock Script.sys redlock_three lock_held
      (RedLock.unlock Script.sys redlock_three lock_held
        (World.start { Script.empty with replies :=
          [some (reply_int 0), some (reply_int 0), some (reply_int 0)] })).2).1 = true ∧
    unlockCallCount (RedLock.unlock Script.sys redlock_three lock_held
      (RedLock.unlock Script.sys redlock_three lock_held
        (World.start { Script.empty with replies :=
          [some (reply_int 0), some (reply_int 0), some (reply_int 0)] })).2).2.log = 6 :=
  ⟨by decide,
    (unlock_always_true Script.sys redlock_three lock_held
      (World.start { Script.empty with replies :=
        [some (reply_int 0), some (reply_int 0), some (reply_int 0)] })
      (CRedLock.construct Script.sys (World.start Script.empty)).1 CLock.default
      (World.start Script.empty) (by decide)).1.1,
    (unlock_always_true Script.sys redlock_three lock_held
      (World.start { Script.empty with replies :=
        [some (reply_int 0), some (reply_int 0), some (reply_int 0)] })
      (CRedLock.construct Script.sys (World.start Script.empty)).1 CLock.default
      (World.start Script.empty) (by decide)).2.1.1,
    by decide⟩

/-! ### `RedLock::continue_lock` -/

theorem unlockCallCount_append (a b : List Event) :
    unlockCallCount (a ++ b) = unlockCallCount a + unlockCallCount b := by
  simp [unlockCallCount]

theorem unlockCallCount_continueEvents (resource value : String) (ttl_ms : Int)
    (servers : List Nat) :
    ∀ bs : List Bool, unlockCallCount (continueEvents resource value ttl_ms servers bs) = 0 := by
  induction servers with
  | nil => intro bs; simp [continueEvents, unlockCallCount]
  | cons c rest ih =>
    intro bs
    cases bs with
    | nil => simp [continueEvents, unlockCallCount]
    | cons b bs =>
      have := ih bs
      simp only [continueEvents, unlockCallCount, List.zipWith_cons_cons] at this ⊢
      simpa using this

theorem unlockCallCount_backoff (attempt : Nat) (evs : List Event) (h : IsBackoffLog attempt evs) :
    unlockCallCount evs = 0 := by
  unfold IsBackoffLog at h
  by_cases ha : attempt > 0
  · rw [if_pos ha] at h
    obtain ⟨d, rfl⟩ := h
    simp [unlockCallCount]
  · rw [if_neg ha] at h
    subst h
    simp [unlockCallCount]

theorem mem_continueEvents (resource value : String) (ttl_ms : Int) (servers : List Nat) :
    ∀ (bs : List Bool) (e : Event), e ∈ continueEvents resource value ttl_ms servers bs →
      ∃ c b, c ∈ servers ∧ e = Event.continue_lock_instance c resource value ttl_ms b := by
  induction servers with
  | nil => intro bs e h; simp [continueEvents] at h
  | cons c rest ih =>
    intro bs e h
    cases bs with
    | nil => simp [continueEvents] at h
    | cons b bs =>
      simp only [continueEvents, List.zipWith_cons_cons, List.mem_cons] at h
      rcases h with h | h
      · exact ⟨c, b, by simp, h⟩
      · obtain ⟨c', b', hc, he⟩ := ih bs e h
        exact ⟨c', b', by simp [hc], he⟩

theorem mem_backoff_not_call (attempt : Nat) (evs : List Event) (h : IsBackoffLog attempt evs)
    (e : Event) (he : e ∈ evs) : ∃ d : Int, e = Event.sleep d := by
  unfold IsBackoffLog at h
  by_cases ha : attempt > 0
  · rw [if_pos ha] at h
    obtain ⟨d, rfl⟩ := h
    exact ⟨d, by simpa using he⟩
  · rw [if_neg ha] at h
    subst h
    simp at he

/-- The log entries a `continue_lock` call may add: `continue_lock_instance`
calls on listed servers with the given resource, token and ttl, and sleeps. -/
theorem continue_round_step_log {σ : Type} (S : Sys σ) (self : RedLock) (resource value : String)
    (ttl_ms : Int) (attempt : Nat) (w : World σ) :
    ∃ (bs : List Bool) (evs : List Event), bs.length = self.servers_.length ∧
      IsBackoffLog attempt evs ∧
      (RedLock.continue_round S self resource value ttl_ms w).1.success_count = countTrue bs ∧
      (RedLock.continue_round S self resource value ttl_ms w).2.log =
        w.log ++ continueEvents resource value ttl_ms self.servers_ bs ∧
      (RedLock.backoff S self attempt (RedLock.continue_round S self resource value ttl_ms w).2).log =
        w.log ++ continueEvents resource value ttl_ms self.servers_ bs ++ evs := by
  obtain ⟨bs, hbl, hblog, hcnt⟩ := continue_round_log S self resource value ttl_ms w
  obtain ⟨evs, hb, hblog2⟩ := backoff_log S self attempt
    (RedLock.continue_round S self resource value ttl_ms w).2
  exact ⟨bs, evs, hbl, hb, hcnt, hblog, by rw [hblog2, hblog]⟩

theorem continue_loop_log {σ : Type} (S : Sys σ) (self : RedLock) (resource : String)
    (ttl_ms : Int) (lock : Lock) :
    ∀ (a : Nat) (w : World σ), ∃ delta : List Event,
      (RedLock.continue_loop S self resource ttl_ms a lock w).2.log = w.log ++ delta ∧
      unlockCallCount delta = 0 ∧
      (∀ e ∈ delta, (∃ d : Int, e = Event.sleep d) ∨
        ∃ c b, c ∈ self.servers_ ∧
          e = Event.continue_lock_instance c resource lock.value_ ttl_ms b) := by
  intro a
  induction a with
  | zero => intro w; exact ⟨[], by simp [RedLock.continue_loop], by simp [unlockCallCount], by simp⟩
  | succ a ih =>
    intro w
    obtain ⟨bs, evs, _, hb, _, hlog1, hlog2⟩ :=
      continue_round_step_log S self resource lock.value_ ttl_ms a w
    by_cases hok : RedLock.round_ok self
        (RedLock.continue_round S self resource lock.value_ ttl_ms w).1 = true
    · refine ⟨continueEvents resource lock.value_ ttl_ms self.servers_ bs, ?_,
        unlockCallCount_continueEvents _ _ _ _ _, ?_⟩
      · rw [RedLock.continue_loop]
        simp only [hok, if_true]
        exact hlog1
      · intro e he
        exact Or.inr (mem_continueEvents _ _ _ _ _ e he)
    · obtain ⟨delta, hd1, hd2, hd3⟩ := ih (RedLock.backoff S self a
        (RedLock.continue_round S self resource lock.value_ ttl_ms w).2)
      refine ⟨continueEvents resource lock.value_ ttl_ms self.servers_ bs ++ evs ++ delta, ?_, ?_, ?_⟩
      · rw [RedLock.continue_loop]
        simp only [hok]
        simp only [Bool.false_eq_true, if_false]
        rw [hd1, hlog2]
        simp
      · rw [unlockCallCount_append, unlockCallCount_append, unlockCallCount_continueEvents,
          unlockCallCount_backoff a evs hb, hd2]
      · intro e he
        rcases List.mem_append.mp he with h | h
        · rcases List.mem_append.mp h with h | h
          · exact Or.inr (mem_continueEvents _ _ _ _ _ e h)
          · exact Or.inl (mem_backoff_not_call a evs hb e h)
        · exact hd3 e h

theorem continue_round_start_shift {σ : Type} (S : Sys σ) (self : RedLock)
    (resource value : String) (ttl_ms : Int) (a : Nat) (w : World σ) :
    ∀ i : Nat, RedLock.continue_round_start S self resource value ttl_ms (a + 1) (i + 1) w =
      RedLock.continue_round_start S self resource value ttl_ms a i
        (RedLock.backoff S self a (RedLock.continue_round S self resource value ttl_ms w).2) := by
  intro i
  induction i with
  | zero => simp [RedLock.continue_round_start]
  | succ i ih =>
    rw [RedLock.continue_round_start, ih]
    conv_rhs => rw [RedLock.continue_round_start]
    have : a + 1 - 1 - (i + 1) = a - 1 - i := by omega
    rw [this]

theorem continue_nth_round_shift {σ : Type} (S : Sys σ) (self : RedLock)
    (resource value : String) (ttl_ms : Int) (a : Nat) (w : World σ) (i : Nat) :
    RedLock.continue_nth_round S self resource value ttl_ms (a + 1) (i + 1) w =
      RedLock.continue_nth_round S self resource value ttl_ms a i
        (RedLock.backoff S self a (RedLock.continue_round S self resource value ttl_ms w).2) := by
  unfold RedLock.continue_nth_round
  rw [continue_round_start_shift]

theorem continue_loop_cases {σ : Type} (S : Sys σ) (self : RedLock) (resource : String)
    (ttl_ms : Int) (lock : Lock) :
    ∀ (a : Nat) (w : World σ),
      ((∀ i, i < a → RedLock.round_ok self
          (RedLock.continue_nth_round S self resource lock.value_ ttl_ms a i w) = false) ∧
        (RedLock.continue_loop S self resource ttl_ms a lock w).1 = (false, lock)) ∨
      (∃ i, i < a ∧
        RedLock.round_ok self
          (RedLock.continue_nth_round S self resource lock.value_ ttl_ms a i w) = true ∧
        (∀ j, j < i → RedLock.round_ok self
          (RedLock.continue_nth_round S self resource lock.value_ ttl_ms a j w) = false) ∧
        (RedLock.continue_loop S self resource ttl_ms a lock w).1 =
          (true, { lock with valid_time_ := (wrap32
            (RedLock.continue_nth_round S self resource lock.value_ ttl_ms a i w).valid_time) })) := by
  intro a
  induction a with
  | zero => intro w; exact Or.inl ⟨by intro i hi; omega, rfl⟩
  | succ a ih =>
    intro w
    by_cases hok : RedLock.round_ok self
        (RedLock.continue_round S self resource lock.value_ ttl_ms w).1 = true
    · refine Or.inr ⟨0, Nat.succ_pos a, ?_, by intro j hj; omega, ?_⟩
      · simpa [RedLock.continue_nth_round, RedLock.continue_round_start] using hok
      · rw [RedLock.continue_loop]
        simp only [hok, if_true]
        simp [RedLock.continue_nth_round, RedLock.continue_round_start]
    · have hno : RedLock.round_ok self
          (RedLock.continue_round S self resource lock.value_ ttl_ms w).1 = false := by
        simpa using hok
      have hstep : RedLock.continue_loop S self resource ttl_ms (a + 1) lock w =
          RedLock.continue_loop S self resource ttl_ms a lock (RedLock.backoff S self a
            (RedLock.continue_round S self resource lock.value_ ttl_ms w).2) := by
        rw [RedLock.continue_loop]
        simp only [hno]
        simp
      rcases ih (RedLock.backoff S self a
          (RedLock.continue_round S self resource lock.value_ ttl_ms w).2) with
        ⟨hall, hres⟩ | ⟨i, hi, hiok, hbefore, hres⟩
      · refine Or.inl ⟨?_, by rw [hstep]; exact hres⟩
        intro i hi
        cases i with
        | zero => simpa [RedLock.continue_nth_round, RedLock.continue_round_start] using hno
        | succ i =>
          rw [continue_nth_round_shift]
          exact hall i (by omega)
      · refine Or.inr ⟨i + 1, by omega, ?_, ?_, ?_⟩
        · rw [continue_nth_round_shift]; exact hiok
        · intro j hj
          cases j with
          | zero => simpa [RedLock.continue_nth_round, RedLock.continue_round_start] using hno
          | succ j =>
            rw [continue_nth_round_shift]
            exact hbefore j (by omega)
        · rw [hstep, continue_nth_round_shift]; exact hres

/-- C8: for every call of `RedLock::continue_lock`, whatever it returns and
whatever the authorities answer: the handle's `value_` and `resource_` are
unchanged; every per-node call it logs is a `continue_lock_instance` with
the handle's token (and the call's resource and ttl), the only other log
entries being sleeps; when it returns `false` the whole handle is
unchanged; when it returns `true` only `valid_time_` changed, to the
validity of the first round `i` that succeeded (narrowed to `int`, which is
the validity itself whenever that is at most `INT_MAX`). -/
theorem continue_lock_keeps_token {σ : Type} (S : Sys σ) (self : RedLock) (resource : String)
    (ttl_ms : Int) (lock : Lock) (w : World σ) :
    (RedLock.continue_lock S self resource ttl_ms lock w).1.2.value_ = lock.value_ ∧
    (RedLock.continue_lock S self resource ttl_ms lock w).1.2.resource_ = lock.resource_ ∧
    (∃ delta : List Event,
      (RedLock.continue_lock S self resource ttl_ms lock w).2.log = w.log ++ delta ∧
      ∀ e ∈ delta, (∃ d : Int, e = Event.sleep d) ∨
        ∃ c b, c ∈ self.servers_ ∧
          e = Event.continue_lock_instance c resource lock.value_ ttl_ms b) ∧
    ((RedLock.continue_lock S self resource ttl_ms lock w).1.1 = false →
      (RedLock.continue_lock S self resource ttl_ms lock w).1.2 = lock) ∧
    ((RedLock.continue_lock S self resource ttl_ms lock w).1.1 = true →
      ∃ i, i < self.attempts ∧
        (self.quorum_ ≤ (RedLock.continue_nth_round S self resource lock.value_ ttl_ms
            self.attempts i w).success_count ∧
          0 < (RedLock.continue_nth_round S self resource lock.value_ ttl_ms
            self.attempts i w).valid_time) ∧
        (∀ j, j < i → ¬ (self.quorum_ ≤ (RedLock.continue_nth_round S self resource lock.value_
            ttl_ms self.attempts j w).success_count ∧
          0 < (RedLock.continue_nth_round S self resource lock.value_ ttl_ms
            self.attempts j w).valid_time)) ∧
        (RedLock.continue_lock S self resource ttl_ms lock w).1.2 =
          { resource_ := lock.resource_, value_ := lock.value_,
            valid_time_ := wrap32 (RedLock.continue_nth_round S self resource lock.value_ ttl_ms
              self.attempts i w).valid_time } ∧
        ((RedLock.continue_nth_round S self resource lock.value_ ttl_ms
            self.attempts i w).valid_time ≤ INT_MAX →
          (RedLock.continue_lock S self resource ttl_ms lock w).1.2.valid_time_ =
            (RedLock.continue_nth_round S self resource lock.value_ ttl_ms
              self.attempts i w).valid_time)) := by
  by_cases hempty : self.servers_.isEmpty = true
  · have hcl : RedLock.continue_lock S self resource ttl_ms lock w = ((false, lock), w) := by
      unfold RedLock.continue_lock
      rw [if_pos hempty]
    rw [hcl]
    exact ⟨rfl, rfl, ⟨[], by simp, by simp⟩, fun _ => rfl, by simp⟩
  · have hcl : RedLock.continue_lock S self resource ttl_ms lock w =
        RedLock.continue_loop S self resource ttl_ms self.attempts lock w := by
      unfold RedLock.continue_lock
      rw [if_neg hempty]
    rw [hcl]
    obtain ⟨delta, hd1, _, hd3⟩ := continue_loop_log S self resource ttl_ms lock self.attempts w
    rcases continue_loop_cases S self resource ttl_ms lock self.attempts w with
      ⟨_, hres⟩ | ⟨i, hi, hiok, hbefore, hres⟩
    · rw [hres]
      exact ⟨rfl, rfl, ⟨delta, hd1, hd3⟩, fun _ => rfl, by simp⟩
    · rw [hres]
      refine ⟨rfl, rfl, ⟨delta, hd1, hd3⟩, by simp, fun _ => ⟨i, hi, (round_ok_iff _ _).mp hiok,
        ?_, rfl, ?_⟩⟩
      · intro j hj hcon
        have := hbefore j hj
        rw [(round_ok_iff _ _).mpr hcon] at this
        simp at this
      · intro hle
        have hpos := ((round_ok_iff _ _).mp hiok).2
        unfold INT_MAX at hle
        exact wrap32_id _ (by omega) hle

/-- Witness for C8: a renewal with ttl 20000 against three servers, two of
which extend: the call returns `true`, the token and the resource are those
of the handle, only the validity changed (to 19788), and the three per-node
calls carry the handle's token. -/
theorem continue_lock_keeps_token_witness :
    (RedLock.continue_lock Script.sys redlock_three "res" 20000 lock_held
        (World.start script_renew_two_of_three)).1 =
      (true, { resource_ := "res", value_ := "0000000100000002000000030000000400000005",
               valid_time_ := 19788 }) ∧
    (RedLock.continue_lock Script.sys redlock_three "res" 20000 lock_held
        (World.start script_renew_two_of_three)).2.log =
      [Event.continue_lock_instance 0 "res" "0000000100000002000000030000000400000005" 20000 true,
        Event.continue_lock_instance 1 "res" "0000000100000002000000030000000400000005" 20000 false,
        Event.continue_lock_instance 2 "res" "0000000100000002000000030000000400000005" 20000 true] ∧
    (RedLock.continue_lock Script.sys redlock_three "res" 20000 lock_held
        (World.start script_renew_two_of_three)).1.2.value_ = lock_held.value_ :=
  ⟨by decide, by decide,
    (continue_lock_keeps_token Script.sys redlock_three "res" 20000 lock_held
      (World.start script_renew_two_of_three)).1⟩

/-- Counterexample to C9: three servers that never answer, `retry_count_ =
3`.  The first renewal round fails and its log is the three
`continue_lock_instance` calls followed directly by the sleep; the whole
`continue_lock` call returns `false` without a single `unlock_instance`
call, whereas `lock` in the same situation makes twelve. -/
theorem failed_renewal_releases_nothing :
    RedLock.round_ok redlock_three
      (RedLock.continue_round Script.sys redlock_three "res" lock_held.value_ 10000
        (World.start script_all_down)).1 = false ∧
    (RedLock.backoff Script.sys redlock_three 3
      (RedLock.continue_round Script.sys redlock_three "res" lock_held.value_ 10000
        (World.start script_all_down)).2).log =
      [Event.continue_lock_instance 0 "res" "0000000100000002000000030000000400000005" 10000 false,
        Event.continue_lock_instance 1 "res" "0000000100000002000000030000000400000005" 10000 false,
        Event.continue_lock_instance 2 "res" "0000000100000002000000030000000400000005" 10000 false,
        Event.sleep 0] ∧
    (RedLock.continue_lock Script.sys redlock_three "res" 10000 lock_held
      (World.start script_all_down)).1.1 = false ∧
    unlockCallCount (RedLock.continue_lock Script.sys redlock_three "res" 10000 lock_held
      (World.start script_all_down)).2.log = 0 ∧
    unlockCallCount (RedLock.lock Script.sys redlock_three "res" 10000 lock_held
      (World.start script_all_down)).2.log = 12 := by
  refine ⟨by decide, by decide, by decide, by decide, by decide⟩

/-- C9, amended: whenever a round of the loop of `RedLock::continue_lock`
fails (`success_count < quorum_` or `valid_time <= 0`), with `attempts`
attempts left after it, the log of that round is one
`continue_lock_instance` call per server with the handle's token, followed
directly by the retry sleep (present iff `attempts > 0`): no release is
issued.  The loop goes on from there, and nothing it logs from this round
on is an `unlock_instance` call; nor is anything the whole `continue_lock`
call logs. -/
theorem failed_continue_round_releases_nothing {σ : Type} (S : Sys σ) (self : RedLock)
    (resource : String) (ttl_ms : Int) (attempts : Nat) (lock : Lock) (w : World σ)
    (hfail : (RedLock.continue_round S self resource lock.value_ ttl_ms w).1.success_count <
        self.quorum_ ∨
      (RedLock.continue_round S self resource lock.value_ ttl_ms w).1.valid_time ≤ 0) :
    (∃ (bs : List Bool) (evs : List Event),
      bs.length = self.servers_.length ∧ IsBackoffLog attempts evs ∧
      (RedLock.continue_round S self resource lock.value_ ttl_ms w).1.success_count = countTrue bs ∧
      (RedLock.backoff S self attempts
          (RedLock.continue_round S self resource lock.value_ ttl_ms w).2).log =
        w.log ++ continueEvents resource lock.value_ ttl_ms self.servers_ bs ++ evs) ∧
    RedLock.continue_loop S self resource ttl_ms (attempts + 1) lock w =
      RedLock.continue_loop S self resource ttl_ms attempts lock
        (RedLock.backoff S self attempts
          (RedLock.continue_round S self resource lock.value_ ttl_ms w).2) ∧
    (∃ delta : List Event,
      (RedLock.continue_loop S self resource ttl_ms (attempts + 1) lock w).2.log = w.log ++ delta ∧
      unlockCallCount delta = 0) ∧
    (∃ delta : List Event,
      (RedLock.continue_lock S self resource ttl_ms lock w).2.log = w.log ++ delta ∧
      unlockCallCount delta = 0) := by
  obtain ⟨bs, evs, hbl, hb, hcnt, _, hlog2⟩ :=
    continue_round_step_log S self resource lock.value_ ttl_ms attempts w
  obtain ⟨delta, hd1, hd2, _⟩ := continue_loop_log S self resource ttl_ms lock (attempts + 1) w
  refine ⟨⟨bs, evs, hbl, hb, hcnt, hlog2⟩, ?_, ⟨delta, hd1, hd2⟩, ?_⟩
  · have hno := round_ok_false_of self _ hfail
    rw [RedLock.continue_loop]
    simp only [hno]
    simp
  · by_cases hempty : self.servers_.isEmpty = true
    · refine ⟨[], ?_, by simp [unlockCallCount]⟩
      unfold RedLock.continue_lock
      rw [if_pos hempty]
      simp
    · obtain ⟨delta', hd1', hd2', _⟩ :=
        continue_loop_log S self resource ttl_ms lock self.attempts w
      refine ⟨delta', ?_, hd2'⟩
      unfold RedLock.continue_lock
      rw [if_neg hempty]
      exact hd1'

/-- Witness for the amended C9: the failing first round of the
counterexample run. -/
theorem failed_continue_round_releases_nothing_witness :
    ((RedLock.continue_round Script.sys redlock_three "res" lock_held.value_ 10000
        (World.start script_all_down)).1.success_count < redlock_three.quorum_) ∧
    RedLock.continue_loop Script.sys redlock_three "res" 10000 (3 + 1) lock_held
        (World.start script_all_down) =
      RedLock.continue_loop Script.sys redlock_three "res" 10000 3 lock_held
        (RedLock.backoff Script.sys redlock_three 3
          (RedLock.continue_round Script.sys redlock_three "res" lock_held.value_ 10000
            (World.start script_all_down)).2) :=
  ⟨by decide,
    (failed_continue_round_releases_nothing Script.sys redlock_three "res" 10000 3 lock_held
      (World.start script_all_down) (Or.inl (by decide))).2.1⟩

/-! ### `CRedLock::ContinueLock` -/

/-- Counterexample to C10: a handle obtained from `CRedLock::Lock` holds
the token `ABAB...AB`; the next `ContinueLock` on it reads twenty bytes
`0xCD` from `/dev/urandom`: after the call the handle's `m_val` is
`CDCD...CD`, and the token offered to the first authority as the old token
(`ARGV[1]`) is `CDCD...CD` as well, not the token of the handle. -/
theorem renewal_replaces_token :
    (CRedLock.Lock Script.sys credlock_three "res" 10000 CLock.default
      (World.start script_c_lock)).1 = (true, clock_held) ∧
    clock_held.m_val = some "ABABABABABABABABABABABABABABABABABABABAB" ∧
    (CRedLock.ContinueLock Script.sys credlock_three "res" 10000 clock_held
      (World.start script_c_renew)).1.2.2.m_val =
        some "CDCDCDCDCDCDCDCDCDCDCDCDCDCDCDCDCDCDCDCD" ∧
    (CRedLock.ContinueLock Script.sys credlock_three "res" 10000 clock_held
      (World.start script_c_renew)).1.2.2.m_val ≠ clock_held.m_val ∧
    (CRedLock.ContinueLock Script.sys credlock_three "res" 10000 clock_held
      (World.start script_c_renew)).2.log.head? =
        some (Event.ContinueLockInstance 0 "res" (some "CDCDCDCDCDCDCDCDCDCDCDCDCDCDCDCDCDCDCDCD")
          "CDCDCDCDCDCDCDCDCDCDCDCDCDCDCDCDCDCDCDCD" 10000 false) := by
  refine ⟨by decide, by decide, by decide, by decide, by decide⟩

theorem GetUniqueLockId_log {σ : Type} (S : Sys σ) (self : CRedLock) (w : World σ) :
    (CRedLock.GetUniqueLockId S self w).2.log = w.log := by
  unfold CRedLock.GetUniqueLockId
  by_cases h : (S.read self.m_fd 20 w.env).1.1 = 20
  · simp [h]
  · simp [h]

theorem time_ms_log {σ : Type} (S : Sys σ) (w : World σ) : (time_ms S w).2.log = w.log := rfl

theorem Continue_fanout_entries {σ : Type} (S : Sys σ) (self : CRedLock) (resource val : String)
    (ttl : Int) (servers : List Nat) :
    ∀ (n : Int) (w : World σ), ∃ delta : List Event,
      (CRedLock.Continue_fanout S self resource val ttl servers n w).2.log = w.log ++ delta ∧
      ∀ e ∈ delta, IsRenewalEntry resource val ttl e := by
  induction servers with
  | nil => intro n w; exact ⟨[], by simp [CRedLock.Continue_fanout], by simp⟩
  | cons c rest ih =>
    intro n w
    obtain ⟨delta, hd1, hd2⟩ := ih
      (if (CRedLock.ContinueLockInstance S self c resource val ttl w).1 then n + 1 else n)
      (CRedLock.ContinueLockInstance S self c resource val ttl w).2
    refine ⟨Event.ContinueLockInstance c resource self.m_continueLock.m_val val ttl
      (CRedLock.ContinueLockInstance S self c resource val ttl w).1 :: delta, ?_, ?_⟩
    · simp only [CRedLock.Continue_fanout]
      rw [hd1]
      simp [CRedLock.ContinueLockInstance, CRedLock.RedisCommandArgv]
    · intro e he
      rcases List.mem_cons.mp he with h | h
      · exact Or.inl ⟨c, _, _, h⟩
      · exact hd2 e h

theorem Continue_cleanup_entries {σ : Type} (S : Sys σ) (self : CRedLock) (resource val : String)
    (ttl : Int) (lock : CLock) (w : World σ)
    (hv : lock.m_val = some val) (hr : lock.m_resource = some resource) :
    ∃ delta : List Event,
      (CRedLock.backoff S self (CRedLock.Unlock S self lock w).2).log = w.log ++ delta ∧
      ∀ e ∈ delta, IsRenewalEntry resource val ttl e := by
  refine ⟨UnlockInstanceEvents (some resource) (some val) self.m_redisServer ++
    [Event.usleep (wrapU32 (wrap32 (CRedLock.delay self
      (S.rand (CRedLock.Unlock S self lock w).2.env).1 * 1000)))], ?_, ?_⟩
  · simp only [CRedLock.backoff, record_log, withEnv_log, CRedLock.Unlock, Unlock_fanout_log,
      hv, hr]
    simp
  · intro e he
    rcases List.mem_append.mp he with h | h
    · simp only [UnlockInstanceEvents, List.mem_map] at h
      obtain ⟨c, _, hc⟩ := h
      exact Or.inr (Or.inl ⟨c, hc.symm⟩)
    · exact Or.inr (Or.inr ⟨_, by simpa using h⟩)

theorem Continue_round_entries {σ : Type} (S : Sys σ) (self : CRedLock) (resource val : String)
    (ttl : Int) (w : World σ) :
    ∃ delta : List Event,
      (CRedLock.Continue_round S self resource val ttl w).2.log = w.log ++ delta ∧
      ∀ e ∈ delta, IsRenewalEntry resource val ttl e := by
  obtain ⟨delta, hd1, hd2⟩ := Continue_fanout_entries S self resource val ttl self.m_redisServer 0
    (time_ms S w).2
  refine ⟨delta, ?_, hd2⟩
  simp only [CRedLock.Continue_round, time_ms_log] at hd1 ⊢
  exact hd1

theorem Continue_loop_entries {σ : Type} (S : Sys σ) (resource val : String) (ttl : Int) :
    ∀ (more : Nat) (self : CRedLock) (lock : CLock) (w : World σ),
      lock.m_val = some val → lock.m_resource = some resource →
      ∃ delta : List Event,
        (CRedLock.Continue_loop S resource val ttl more self lock w).2.log = w.log ++ delta ∧
        (∀ e ∈ delta, IsRenewalEntry resource val ttl e) ∧
        (CRedLock.Continue_loop S resource val ttl more self lock w).1.2.2.m_val = some val ∧
        (CRedLock.Continue_loop S resource val ttl more self lock w).1.2.2.m_resource =
          some resource := by
  intro more
  induction more with
  | zero =>
    intro self lock w hv hr
    obtain ⟨d1, h11, h12⟩ := Continue_round_entries S self resource val ttl w
    by_cases hok : CRedLock.round_ok (CRedLock.Continue_round S self resource val ttl w).1.2
        (CRedLock.Continue_round S self resource val ttl w).1.1 = true
    · refine ⟨d1, ?_, h12, ?_, ?_⟩ <;>
        · rw [CRedLock.Continue_loop]
          simp only [hok, if_true]
          first | exact h11 | exact hv | exact hr
    · obtain ⟨d2, h21, h22⟩ := Continue_cleanup_entries S
        (CRedLock.Continue_round S self resource val ttl w).1.2 resource val ttl lock
        (CRedLock.Continue_round S self resource val ttl w).2 hv hr
      have hno : CRedLock.round_ok (CRedLock.Continue_round S self resource val ttl w).1.2
          (CRedLock.Continue_round S self resource val ttl w).1.1 = false := by simpa using hok
      refine ⟨d1 ++ d2, ?_, ?_, ?_, ?_⟩
      · rw [CRedLock.Continue_loop]
        simp only [hno, Bool.false_eq_true, if_false]
        rw [h21, h11]; simp
      · intro e he
        rcases List.mem_append.mp he with h | h
        · exact h12 e h
        · exact h22 e h
      · rw [CRedLock.Continue_loop]
        simp only [hno, Bool.false_eq_true, if_false]
        exact hv
      · rw [CRedLock.Continue_loop]
        simp only [hno, Bool.false_eq_true, if_false]
        exact hr
  | succ more ih =>
    intro self lock w hv hr
    obtain ⟨d1, h11, h12⟩ := Continue_round_entries S self resource val ttl w
    by_cases hok : CRedLock.round_ok (CRedLock.Continue_round S self resource val ttl w).1.2
        (CRedLock.Continue_round S self resource val ttl w).1.1 = true
    · refine ⟨d1, ?_, h12, ?_, ?_⟩ <;>
        · rw [CRedLock.Continue_loop]
          simp only [hok, if_true]
          first | exact h11 | exact hv | exact hr
    · obtain ⟨d2, h21, h22⟩ := Continue_cleanup_entries S
        (CRedLock.Continue_round S self resource val ttl w).1.2 resource val ttl lock
        (CRedLock.Continue_round S self resource val ttl w).2 hv hr
      have hno : CRedLock.round_ok (CRedLock.Continue_round S self resource val ttl w).1.2
          (CRedLock.Continue_round S self resource val ttl w).1.1 = false := by simpa using hok
      obtain ⟨d3, h31, h32, h33, h34⟩ := ih (CRedLock.Continue_round S self resource val ttl w).1.2
        lock (CRedLock.backoff S (CRedLock.Continue_round S self resource val ttl w).1.2
          (CRedLock.Unlock S (CRedLock.Continue_round S self resource val ttl w).1.2 lock
            (CRedLock.Continue_round S self resource val ttl w).2).2) hv hr
      have hstep : CRedLock.Continue_loop S resource val ttl (more + 1) self lock w =
          CRedLock.Continue_loop S resource val ttl more
            (CRedLock.Continue_round S self resource val ttl w).1.2 lock
            (CRedLock.backoff S (CRedLock.Continue_round S self resource val ttl w).1.2
              (CRedLock.Unlock S (CRedLock.Continue_round S self resource val ttl w).1.2 lock
                (CRedLock.Continue_round S self resource val ttl w).2).2) := by
        rw [CRedLock.Continue_loop]
        simp only [hno, Bool.false_eq_true, if_false]
      refine ⟨d1 ++ d2 ++ d3, ?_, ?_, ?_, ?_⟩
      · rw [hstep, h31, h21, h11]; simp
      · intro e he
        rcases List.mem_append.mp he with h | h
        · rcases List.mem_append.mp h with h | h
          · exact h12 e h
          · exact h22 e h
        · exact h32 e h
      · rw [hstep]; exact h33
      · rw [hstep]; exact h34

/-- C10, amended: `CRedLock::ContinueLock` mints a fresh token.  When
`GetUniqueLockId` fails the call returns `false` and leaves the object and
the handle as they were.  When it yields `val`, then whatever the call
returns the handle afterwards holds `m_val = val` (the token it held before
is gone) and `m_resource = resource`, and everything the call logs is a
`ContinueLockInstance` call that sets `val`, an `UnlockInstance` call for
`val`, or a `usleep`. -/
theorem ContinueLock_installs_new_token {σ : Type} (S : Sys σ) (self : CRedLock)
    (resource : String) (ttl : Int) (lock : CLock) (w : World σ) :
    ((CRedLock.GetUniqueLockId S self w).1 = none →
      (CRedLock.ContinueLock S self resource ttl lock w).1 = (false, self, lock)) ∧
    (∀ val : String, (CRedLock.GetUniqueLockId S self w).1 = some val →
      (CRedLock.ContinueLock S self resource ttl lock w).1.2.2.m_val = some val ∧
      (CRedLock.ContinueLock S self resource ttl lock w).1.2.2.m_resource = some resource ∧
      ∃ delta : List Event,
        (CRedLock.ContinueLock S self resource ttl lock w).2.log = w.log ++ delta ∧
        ∀ e ∈ delta, IsRenewalEntry resource val ttl e) := by
  constructor
  · intro hnone
    unfold CRedLock.ContinueLock
    simp only [hnone]
  · intro val hval
    have hcl : CRedLock.ContinueLock S self resource ttl lock w =
        CRedLock.Continue_loop S resource val ttl self.more_rounds
          (if self.m_continueLock.m_resource = none then
            { self with m_continueLock :=
                { self.m_continueLock with m_resource := some resource, m_val := some val } }
          else self)
          { lock with m_resource := some resource, m_val := some val }
          (CRedLock.GetUniqueLockId S self w).2 := by
      unfold CRedLock.ContinueLock
      simp only [hval]
    obtain ⟨delta, hd1, hd2, hd3, hd4⟩ := Continue_loop_entries S resource val ttl
      self.more_rounds
      (if self.m_continueLock.m_resource = none then
        { self with m_continueLock :=
            { self.m_continueLock with m_resource := some resource, m_val := some val } }
      else self)
      { lock with m_resource := some resource, m_val := some val }
      (CRedLock.GetUniqueLockId S self w).2 rfl rfl
    rw [hcl]
    refine ⟨hd3, hd4, delta, ?_, hd2⟩
    rw [hd1, GetUniqueLockId_log]

/-- Witness for the amended C10: the renewal of the counterexample run; the
handle ends with the token just read from `/dev/urandom`. -/
theorem ContinueLock_installs_new_token_witness :
    (CRedLock.GetUniqueLockId Script.sys credlock_three (World.start script_c_renew)).1 =
      some "CDCDCDCDCDCDCDCDCDCDCDCDCDCDCDCDCDCDCDCD" ∧
    (CRedLock.ContinueLock Script.sys credlock_three "res" 10000 clock_held
      (World.start script_c_renew)).1.2.2.m_val =
        some "CDCDCDCDCDCDCDCDCDCDCDCDCDCDCDCDCDCDCDCD" :=
  ⟨by decide,
    ((ContinueLock_installs_new_token Script.sys credlock_three "res" 10000 clock_held
      (World.start script_c_renew)).2 "CDCDCDCDCDCDCDCDCDCDCDCDCDCDCDCDCDCDCDCD" (by decide)).1⟩

/-! ### Mutual exclusion over key-to-token stores -/

theorem put_store (s : Stores) (c : Nat) (k : String) (v : Option String) (c' : Nat) (k' : String) :
    (s.put c k v).store c' k' = if c' = c ∧ k' = k then v else s.store c' k' := rfl

theorem exec_set_keeps (ok : String) (c : Nat) (k v t : String) (s : Stores) (c' : Nat)
    (k' tok : String) (h : s.store c' k' = some tok) :
    (Stores.exec ok c ["SET", k, v, "NX", "PX", t] s).2.store c' k' = some tok := by
  simp only [Stores.exec]
  by_cases hn : s.store c k = none
  · rw [if_pos hn]
    simp only [put_store]
    by_cases hck : c' = c ∧ k' = k
    · rw [hck.1, hck.2, hn] at h; exact absurd h (by simp)
    · rw [if_neg hck]; exact h
  · rw [if_neg hn]; exact h

theorem exec_set_ok (ok : String) (c : Nat) (k v t : String) (s : Stores)
    (h : (Stores.exec ok c ["SET", k, v, "NX", "PX", t] s).1.type = REDIS_REPLY_STATUS) :
    (Stores.exec ok c ["SET", k, v, "NX", "PX", t] s).2.store c k = some v := by
  simp only [Stores.exec] at h ⊢
  by_cases hn : s.store c k = none
  · rw [if_pos hn]; simp [put_store]
  · rw [if_neg hn] at h
    simp [reply_nil, REDIS_REPLY_NIL, REDIS_REPLY_STATUS] at h

theorem exec_set_held (ok : String) (c : Nat) (k v t : String) (s : Stores) (tok : String)
    (h : s.store c k = some tok) :
    (Stores.exec ok c ["SET", k, v, "NX", "PX", t] s).1 = reply_nil := by
  simp only [Stores.exec]
  rw [if_neg (by rw [h]; simp)]

theorem exec_unlock_keeps (ok : String) (c : Nat) (k v : String) (s : Stores) (c' : Nat)
    (k' tok : String) (hne : v ≠ tok) (h : s.store c' k' = some tok) :
    (Stores.exec ok c ["EVAL", UNLOCK_SCRIPT, "1", k, v] s).2.store c' k' = some tok := by
  simp only [Stores.exec, if_true]
  by_cases hv : s.store c k = some v
  · rw [if_pos hv]
    simp only [put_store]
    by_cases hck : c' = c ∧ k' = k
    · rw [hck.1, hck.2, hv] at h
      exact absurd (Option.some.inj h) hne
    · rw [if_neg hck]; exact h
  · rw [if_neg hv]; exact h

theorem store_lock_instance_keeps (ok : String) (c : Nat) (k v : String) (ttl_ms : Int)
    (w : World Stores) (c' : Nat) (k' tok : String) (h : w.env.store c' k' = some tok) :
    (RedLock.lock_instance (storeSys ok) c k v ttl_ms w).2.env.store c' k' = some tok := by
  unfold RedLock.lock_instance
  by_cases herr : (storeSys ok).ctx_err w.env c ≠ 0
  · rw [if_pos herr]; exact h
  · rw [if_neg herr]
    simp only [record_env, withEnv_env, storeSys]
    cases hnet : w.env.net.headD Net.up with
    | up => exact exec_set_keeps ok c k v _ _ c' k' tok h
    | down => exact h
    | lost => exact exec_set_keeps ok c k v _ _ c' k' tok h

theorem store_lock_instance_true (ok : String) (c : Nat) (k v : String) (ttl_ms : Int)
    (w : World Stores) (h : (RedLock.lock_instance (storeSys ok) c k v ttl_ms w).1 = true) :
    (RedLock.lock_instance (storeSys ok) c k v ttl_ms w).2.env.store c k = some v := by
  unfold RedLock.lock_instance at h ⊢
  by_cases herr : (storeSys ok).ctx_err w.env c ≠ 0
  · rw [if_pos herr] at h; simp at h
  · rw [if_neg herr] at h ⊢
    simp only [record_env, withEnv_env, storeSys] at h ⊢
    cases hnet : w.env.net.headD Net.up with
    | up =>
      rw [hnet] at h
      simp only at h
      apply exec_set_ok
      by_contra hty
      rw [if_neg hty] at h
      simp at h
    | down => rw [hnet] at h; simp at h
    | lost => rw [hnet] at h; simp at h

theorem store_lock_instance_held (ok : String) (c : Nat) (k v : String) (ttl_ms : Int)
    (w : World Stores) (tok : String) (h : w.env.store c k = some tok) :
    (RedLock.lock_instance (storeSys ok) c k v ttl_ms w).1 = false := by
  unfold RedLock.lock_instance
  by_cases herr : (storeSys ok).ctx_err w.env c ≠ 0
  · rw [if_pos herr]
  · rw [if_neg herr]
    simp only [storeSys]
    cases hnet : w.env.net.headD Net.up with
    | up =>
      simp only
      rw [exec_set_held ok c k v _ { w.env with net := w.env.net.tail } tok h]
      simp [reply_nil, REDIS_REPLY_NIL, REDIS_REPLY_STATUS]
    | down => rfl
    | lost => rfl

theorem store_unlock_instance_keeps (ok : String) (c : Nat) (k v : String)
    (w : World Stores) (c' : Nat) (k' tok : String) (hne : v ≠ tok)
    (h : w.env.store c' k' = some tok) :
    (RedLock.unlock_instance (storeSys ok) c k v w).2.env.store c' k' = some tok := by
  unfold RedLock.unlock_instance
  simp only [record_env, withEnv_env, storeSys]
  cases hnet : w.env.net.headD Net.up with
  | up => exact exec_unlock_keeps ok c k v _ c' k' tok hne h
  | down => exact h
  | lost => exact exec_unlock_keeps ok c k v _ c' k' tok hne h

theorem holdCount_cons (s : Stores) (c : Nat) (rest : List Nat) (k tok : String) :
    holdCount s (c :: rest) k tok =
      (if s.store c k = some tok then 1 else 0) + holdCount s rest k tok := by
  unfold holdCount
  by_cases h : s.store c k = some tok
  · simp [List.filter_cons, h]; omega
  · simp [List.filter_cons, h]

theorem holdCount_mono (s s' : Stores) (k tok : String) (servers : List Nat)
    (h : ∀ c, s.store c k = some tok → s'.store c k = some tok) :
    holdCount s servers k tok ≤ holdCount s' servers k tok := by
  induction servers with
  | nil => simp [holdCount]
  | cons c rest ih =>
    rw [holdCount_cons, holdCount_cons]
    by_cases hc : s.store c k = some tok
    · rw [if_pos hc, if_pos (h c hc)]; omega
    · rw [if_neg hc]
      by_cases hc' : s'.store c k = some tok
      · rw [if_pos hc']; omega
      · rw [if_neg hc']; omega

theorem holdCount_le_length (s : Stores) (k tok : String) (servers : List Nat) :
    holdCount s servers k tok ≤ servers.length := by
  unfold holdCount
  exact List.length_filter_le _ _

theorem store_lock_fanout_keeps (ok : String) (k v : String) (ttl_ms : Int) (servers : List Nat) :
    ∀ (n : Int) (w : World Stores) (c' : Nat) (k' tok : String),
      w.env.store c' k' = some tok →
      (RedLock.lock_fanout (storeSys ok) k v ttl_ms servers n w).2.env.store c' k' = some tok := by
  induction servers with
  | nil => intro n w c' k' tok h; exact h
  | cons c rest ih =>
    intro n w c' k' tok h
    simp only [RedLock.lock_fanout]
    exact ih _ _ c' k' tok (store_lock_instance_keeps ok c k v ttl_ms w c' k' tok h)

/-- Every success of the fan-out leaves the token on an authority of the
list. -/
theorem store_lock_fanout_successes (ok : String) (k v : String) (ttl_ms : Int)
    (servers : List Nat) :
    ∀ (n : Int) (w : World Stores),
      (RedLock.lock_fanout (storeSys ok) k v ttl_ms servers n w).1 ≤
        n + (holdCount (RedLock.lock_fanout (storeSys ok) k v ttl_ms servers n w).2.env
          servers k v : Nat) := by
  induction servers with
  | nil => intro n w; simp [RedLock.lock_fanout, holdCount]
  | cons c rest ih =>
    intro n w
    simp only [RedLock.lock_fanout]
    have hih := ih (if (RedLock.lock_instance (storeSys ok) c k v ttl_ms w).1 then n + 1 else n)
      (RedLock.lock_instance (storeSys ok) c k v ttl_ms w).2
    rw [holdCount_cons]
    by_cases hb : (RedLock.lock_instance (storeSys ok) c k v ttl_ms w).1 = true
    · have hset := store_lock_instance_true ok c k v ttl_ms w hb
      have hfin := store_lock_fanout_keeps ok k v ttl_ms rest
        (if (RedLock.lock_instance (storeSys ok) c k v ttl_ms w).1 then n + 1 else n)
        (RedLock.lock_instance (storeSys ok) c k v ttl_ms w).2 c k v hset
      rw [if_pos hfin]
      simp only [hb, if_true] at hih ⊢
      push_cast
      omega
    · have hb' : (RedLock.lock_instance (storeSys ok) c k v ttl_ms w).1 = false := by
        simpa using hb
      simp only [hb'] at hih ⊢
      simp only [Bool.false_eq_true, if_false] at hih ⊢
      push_cast
      split_ifs <;> omega

/-- An authority that holds a token refuses every `SET ... NX`: the
successes of a fan-out are at most the entries that do not hold `tok`. -/
theorem store_lock_fanout_refused (ok : String) (k v tok : String) (ttl_ms : Int)
    (servers : List Nat) :
    ∀ (n : Int) (w : World Stores),
      (RedLock.lock_fanout (storeSys ok) k v ttl_ms servers n w).1 +
          (holdCount w.env servers k tok : Nat) ≤ n + (servers.length : Nat) := by
  induction servers with
  | nil => intro n w; simp [RedLock.lock_fanout, holdCount]
  | cons c rest ih =>
    intro n w
    simp only [RedLock.lock_fanout]
    have hih := ih (if (RedLock.lock_instance (storeSys ok) c k v ttl_ms w).1 then n + 1 else n)
      (RedLock.lock_instance (storeSys ok) c k v ttl_ms w).2
    have hmono := holdCount_mono w.env (RedLock.lock_instance (storeSys ok) c k v ttl_ms w).2.env
      k tok rest (fun c' h => store_lock_instance_keeps ok c k v ttl_ms w c' k tok h)
    rw [holdCount_cons]
    by_cases hc : w.env.store c k = some tok
    · have hb := store_lock_instance_held ok c k v ttl_ms w tok hc
      rw [if_pos hc]
      simp only [hb] at hih ⊢
      simp only [Bool.false_eq_true, if_false] at hih ⊢
      simp only [List.length_cons]
      push_cast
      omega
    · rw [if_neg hc]
      simp only [List.length_cons]
      push_cast
      split_ifs at hih ⊢ <;> omega

theorem store_unlock_fanout_keeps (ok : String) (k v : String) (servers : List Nat) :
    ∀ (w : World Stores) (c' : Nat) (k' tok : String), v ≠ tok →
      w.env.store c' k' = some tok →
      (RedLock.unlock_fanout (storeSys ok) k v servers w).env.store c' k' = some tok := by
  induction servers with
  | nil => intro w c' k' tok _ h; exact h
  | cons c rest ih =>
    intro w c' k' tok hne h
    simp only [RedLock.unlock_fanout]
    exact ih _ c' k' tok hne (store_unlock_instance_keeps ok c k v w c' k' tok hne h)

theorem store_clock_store (ok : String) (w : World Stores) :
    (get_current_time_ms (storeSys ok) w).2.env.store = w.env.store := rfl

theorem store_backoff_store (ok : String) (self : RedLock) (attempt : Nat) (w : World Stores) :
    (RedLock.backoff (storeSys ok) self attempt w).env.store = w.env.store := by
  unfold RedLock.backoff
  by_cases h : attempt > 0
  · rw [if_pos h]; rfl
  · rw [if_neg h]

theorem store_generate_store (ok : String) (w : World Stores) :
    (generate_unique_id (storeSys ok) w).2.env.store = w.env.store := by
  have key : ∀ (n : Nat) (w : World Stores),
      (draw_words (storeSys ok) n w).2.env.store = w.env.store := by
    intro n
    induction n with
    | zero => intro w; rfl
    | succ n ih => intro w; simp only [draw_words]; rw [ih]; rfl
  exact key 5 w

theorem holdCount_congr (s s' : Stores) (k tok : String) (servers : List Nat)
    (h : s'.store = s.store) : holdCount s' servers k tok = holdCount s servers k tok := by
  unfold holdCount
  rw [h]

theorem store_lock_round_keeps (ok : String) (self : RedLock) (k v : String) (ttl_ms : Int)
    (w : World Stores) (c' : Nat) (k' tok : String) (h : w.env.store c' k' = some tok) :
    (RedLock.lock_round (storeSys ok) self k v ttl_ms w).2.env.store c' k' = some tok := by
  simp only [RedLock.lock_round]
  rw [store_clock_store]
  apply store_lock_fanout_keeps
  rw [store_clock_store]
  exact h

theorem store_lock_round_successes (ok : String) (self : RedLock) (k v : String) (ttl_ms : Int)
    (w : World Stores) :
    (RedLock.lock_round (storeSys ok) self k v ttl_ms w).1.success_count ≤
      (holdCount (RedLock.lock_round (storeSys ok) self k v ttl_ms w).2.env
        self.servers_ k v : Nat) := by
  have h := store_lock_fanout_successes ok k v ttl_ms self.servers_ 0
    (get_current_time_ms (storeSys ok) w).2
  simp only [RedLock.lock_round]
  rw [holdCount_congr _ _ k v self.servers_ (store_clock_store ok _)]
  simpa using h

theorem store_lock_round_refused (ok : String) (self : RedLock) (k v tok : String)
    (ttl_ms : Int) (w : World Stores) :
    (RedLock.lock_round (storeSys ok) self k v ttl_ms w).1.success_count +
      (holdCount w.env self.servers_ k tok : Nat) ≤ (self.servers_.length : Nat) := by
  have h := store_lock_fanout_refused ok k v tok ttl_ms self.servers_ 0
    (get_current_time_ms (storeSys ok) w).2
  rw [holdCount_congr _ _ k tok self.servers_ (store_clock_store ok w)] at h
  simp only [RedLock.lock_round]
  simpa using h

theorem store_lock_cleanup_keeps (ok : String) (self : RedLock) (k v : String) (attempt : Nat)
    (w : World Stores) (c' : Nat) (k' tok : String) (hne : v ≠ tok)
    (h : w.env.store c' k' = some tok) :
    (RedLock.lock_cleanup (storeSys ok) self k v attempt w).env.store c' k' = some tok := by
  unfold RedLock.lock_cleanup
  rw [store_backoff_store]
  exact store_unlock_fanout_keeps ok k v self.servers_ w c' k' tok hne h

/-- A `lock` loop that returns `true` leaves its token on at least
`quorum_` entries of the server list. -/
theorem store_lock_loop_won (ok : String) (self : RedLock) (k v : String) (ttl_ms : Int) :
    ∀ (a : Nat) (lock : Lock) (w : World Stores),
      (RedLock.lock_loop (storeSys ok) self k v ttl_ms a lock w).1.1 = true →
      self.quorum_ ≤ (holdCount (RedLock.lock_loop (storeSys ok) self k v ttl_ms a lock w).2.env
          self.servers_ k v : Nat) ∧
        (RedLock.lock_loop (storeSys ok) self k v ttl_ms a lock w).1.2.value_ = v := by
  intro a
  induction a with
  | zero => intro lock w h; simp [RedLock.lock_loop] at h
  | succ a ih =>
    intro lock w h
    by_cases hok : RedLock.round_ok self
        (RedLock.lock_round (storeSys ok) self k v ttl_ms w).1 = true
    · rw [RedLock.lock_loop]
      simp only [hok, if_true]
      have hq := ((round_ok_iff _ _).mp hok).1
      have hs := store_lock_round_successes ok self k v ttl_ms w
      exact ⟨by omega, rfl⟩
    · have hno : RedLock.round_ok self
          (RedLock.lock_round (storeSys ok) self k v ttl_ms w).1 = false := by simpa using hok
      rw [RedLock.lock_loop] at h ⊢
      simp only [hno, Bool.false_eq_true, if_false] at h ⊢
      exact ih _ _ h

/-- While at least `floor(N/2) + 1` entries of the server list hold `tok`,
a `lock` loop with another token fails, and every authority holding `tok`
keeps it. -/
theorem store_lock_loop_excluded (ok : String) (self : RedLock) (k v tok : String)
    (ttl_ms : Int) (hne : v ≠ tok)
    (hq : self.quorum_ = ((self.servers_.length / 2 : Nat) : Int) + 1) :
    ∀ (a : Nat) (lock : Lock) (w : World Stores),
      self.servers_.length / 2 + 1 ≤ holdCount w.env self.servers_ k tok →
      (RedLock.lock_loop (storeSys ok) self k v ttl_ms a lock w).1 = (false, lock) ∧
        ∀ c', w.env.store c' k = some tok →
          (RedLock.lock_loop (storeSys ok) self k v ttl_ms a lock w).2.env.store c' k =
            some tok := by
  intro a
  induction a with
  | zero => intro lock w _; exact ⟨rfl, fun _ h => h⟩
  | succ a ih =>
    intro lock w hheld
    have href := store_lock_round_refused ok self k v tok ttl_ms w
    have hno : RedLock.round_ok self
        (RedLock.lock_round (storeSys ok) self k v ttl_ms w).1 = false := by
      apply round_ok_false_of
      left
      rw [hq]
      push_cast
      omega
    have hkeep : ∀ c', w.env.store c' k = some tok →
        (RedLock.lock_cleanup (storeSys ok) self k v a
          (RedLock.lock_round (storeSys ok) self k v ttl_ms w).2).env.store c' k = some tok := by
      intro c' h
      exact store_lock_cleanup_keeps ok self k v a _ c' k tok hne
        (store_lock_round_keeps ok self k v ttl_ms w c' k tok h)
    have hheld' := le_trans hheld (holdCount_mono w.env _ k tok self.servers_ hkeep)
    obtain ⟨h1, h2⟩ := ih lock _ hheld'
    rw [RedLock.lock_loop]
    simp only [hno, Bool.false_eq_true, if_false]
    exact ⟨h1, fun c' h => h2 c' (hkeep c' h)⟩

/-- C4 (mutual exclusion): the authorities are key-to-token stores without
expiry that execute set-if-absent, extend-if-owned and delete-if-owned
(`storeSys`, for any status text `ok` of a successful `SET`, any network
loss and any clock).  Suppose `RedLock::lock(resource)` returned `true`;
call its token `A`.  Then at least `quorum_` entries of the server list
hold `A`.  Let `w` be any later world in which every authority that held
`A` for the resource after that call still holds it (no unlock of the
handle happened).  Then a `lock` on the same resource over the same
authorities with quorum `floor(N/2) + 1`, whose generated token differs
from `A`, returns `false`, leaves the caller's `Lock` untouched, and after
it every authority that held `A` still holds `A`, so the same holds for
every later call. -/
theorem mutual_exclusion (ok : String) (self self2 : RedLock) (resource : String)
    (ttl1 ttl2 : Int) (lock1 lock2 : Lock) (w0 w : World Stores)
    (hq : self.quorum_ = ((self.servers_.length / 2 : Nat) : Int) + 1)
    (hs2 : self2.servers_ = self.servers_) (hq2 : self2.quorum_ = self.quorum_)
    (h1 : (RedLock.lock (storeSys ok) self resource ttl1 lock1 w0).1.1 = true)
    (hkeep : ∀ c,
      (RedLock.lock (storeSys ok) self resource ttl1 lock1 w0).2.env.store c resource =
          some (RedLock.lock (storeSys ok) self resource ttl1 lock1 w0).1.2.value_ →
        w.env.store c resource =
          some (RedLock.lock (storeSys ok) self resource ttl1 lock1 w0).1.2.value_)
    (hB : (generate_unique_id (storeSys ok) w).1 ≠
      (RedLock.lock (storeSys ok) self resource ttl1 lock1 w0).1.2.value_) :
    self.quorum_ ≤ (holdCount (RedLock.lock (storeSys ok) self resource ttl1 lock1 w0).2.env
      self.servers_ resource
      (RedLock.lock (storeSys ok) self resource ttl1 lock1 w0).1.2.value_ : Nat) ∧
    (RedLock.lock (storeSys ok) self2 resource ttl2 lock2 w).1 = (false, lock2) ∧
    ∀ c, w.env.store c resource =
        some (RedLock.lock (storeSys ok) self resource ttl1 lock1 w0).1.2.value_ →
      (RedLock.lock (storeSys ok) self2 resource ttl2 lock2 w).2.env.store c resource =
        some (RedLock.lock (storeSys ok) self resource ttl1 lock1 w0).1.2.value_ := by
  have hne : self.servers_ ≠ [] := by
    intro hnil
    have : self.servers_.isEmpty = true := by rw [hnil]; rfl
    simp [RedLock.lock, this] at h1
  have hne2 : self2.servers_ ≠ [] := by rw [hs2]; exact hne
  rw [lock_unfold _ self resource ttl1 lock1 w0 hne] at h1 hkeep hB ⊢
  obtain ⟨hwon, hval⟩ := store_lock_loop_won ok self resource
    (generate_unique_id (storeSys ok) w0).1 ttl1 self.attempts lock1
    (generate_unique_id (storeSys ok) w0).2 h1
  rw [hval] at hkeep hB ⊢
  refine ⟨hwon, ?_⟩
  have hheld : self2.servers_.length / 2 + 1 ≤ holdCount (generate_unique_id (storeSys ok) w).2.env
      self2.servers_ resource (generate_unique_id (storeSys ok) w0).1 := by
    rw [hs2, holdCount_congr _ _ _ _ _ (store_generate_store ok w)]
    have hmono := holdCount_mono _ w.env resource (generate_unique_id (storeSys ok) w0).1
      self.servers_ hkeep
    rw [hq] at hwon
    have hwon' : (self.servers_.length / 2 + 1 : Nat) ≤ holdCount
        (RedLock.lock_loop (storeSys ok) self resource (generate_unique_id (storeSys ok) w0).1
          ttl1 self.attempts lock1 (generate_unique_id (storeSys ok) w0).2).2.env
        self.servers_ resource (generate_unique_id (storeSys ok) w0).1 := by
      exact_mod_cast hwon
    omega
  obtain ⟨hres, hkept⟩ := store_lock_loop_excluded ok self2 resource
    (generate_unique_id (storeSys ok) w).1 (generate_unique_id (storeSys ok) w0).1 ttl2 hB
    (by rw [hq2, hq, hs2]) self2.attempts lock2 (generate_unique_id (storeSys ok) w).2 hheld
  rw [lock_unfold _ self2 resource ttl2 lock2 w hne2]
  refine ⟨hres, fun c hc => hkept c ?_⟩
  rw [store_generate_store]
  exact hc

/-- Witness for C4: three empty authorities answering `ok`.  The first
`lock` succeeds with the token rendered from the words 1 .. 5; a second
`lock` in the world it leaves draws the token `00..0`, fails, and all three
authorities still hold the first token. -/
theorem mutual_exclusion_witness :
    (RedLock.lock (storeSys "ok") redlock_three "res" 10000 Lock.default
      (World.start stores_empty)).1 =
        (true, { resource_ := "res", value_ := "0000000100000002000000030000000400000005",
                 valid_time_ := 9888 }) ∧
    (RedLock.lock (storeSys "ok") redlock_three "res" 10000 Lock.default
      (RedLock.lock (storeSys "ok") redlock_three "res" 10000 Lock.default
        (World.start stores_empty)).2).1 = (false, Lock.default) ∧
    (redlock_three.servers_.map (fun c =>
      (RedLock.lock (storeSys "ok") redlock_three "res" 10000 Lock.default
        (RedLock.lock (storeSys "ok") redlock_three "res" 10000 Lock.default
          (World.start stores_empty)).2).2.env.store c "res")) =
      [some "0000000100000002000000030000000400000005",
        some "0000000100000002000000030000000400000005",
        some "0000000100000002000000030000000400000005"] :=
  ⟨by decide,
    (mutual_exclusion "ok" redlock_three redlock_three "res" 10000 10000 Lock.default Lock.default
      (World.start stores_empty)
      (RedLock.lock (storeSys "ok") redlock_three "res" 10000 Lock.default
        (World.start stores_empty)).2
      (by decide) rfl rfl (by decide) (fun _ h => h) (by decide)).2.1,
    by decide⟩

/-! ### Drift and validity -/

theorem bitsAux_zero_right : ∀ fuel, bitsAux fuel 0 = 0 := by
  intro fuel; cases fuel <;> simp [bitsAux]

theorem bitsAux_spec : ∀ (fuel n : Nat), n < 2 ^ fuel →
    n < 2 ^ bitsAux fuel n ∧ (0 < n → 2 ^ (bitsAux fuel n - 1) ≤ n) := by
  intro fuel
  induction fuel with
  | zero => intro n h; simp at h; subst h; simp [bitsAux]
  | succ fuel ih =>
    intro n h
    by_cases hn : n = 0
    · subst hn; simp [bitsAux]
    · have hhalf : n / 2 < 2 ^ fuel := by
        rw [pow_succ] at h
        omega
      obtain ⟨h1, h2⟩ := ih (n / 2) hhalf
      simp only [bitsAux, hn, if_false]
      constructor
      · rw [pow_succ]; omega
      · intro _
        simp only [Nat.add_sub_cancel]
        by_cases hq : n / 2 = 0
        · rw [hq]; simp [bitsAux_zero_right]; omega
        · have h3 := h2 (by omega)
          have hb : 1 ≤ bitsAux fuel (n / 2) := by
            by_contra hc
            have hz : bitsAux fuel (n / 2) = 0 := by omega
            rw [hz] at h1
            simp at h1
            exact hq h1
          have : bitsAux fuel (n / 2) = (bitsAux fuel (n / 2) - 1) + 1 := by omega
          rw [this, pow_succ]
          omega

theorem round24_small (n : Nat) (h : n < 16777216) : round24 n = n := by
  have hb := (bitsAux_spec 64 n (by omega)).2
  have hs : bitLength n - 24 = 0 := by
    by_contra hc
    have h25 : 25 ≤ bitsAux 64 n := by unfold bitLength at hc; omega
    have hpos : 0 < n := by
      by_contra h0
      have : n = 0 := by omega
      subst this
      rw [bitsAux_zero_right] at h25
      omega
    have h1 := hb hpos
    have hle : 24 ≤ bitsAux 64 n - 1 := by omega
    have h2 : 2 ^ 24 ≤ 2 ^ (bitsAux 64 n - 1) := Nat.pow_le_pow_right (by omega) hle
    norm_num at h2
    omega
  unfold round24
  simp [hs]

/-- What rounding to 24 significant digits does to a number that has
`s + 24` digits, `s >= 1`: the result is a multiple of `2^s` at distance at
most `2^(s-1)`. -/
theorem round24_spec (n s : Nat) (hs : bitLength n - 24 = s) (h1 : 1 ≤ s) :
    2 ^ s ∣ round24 n ∧ n ≤ round24 n + 2 ^ (s - 1) ∧ round24 n ≤ n + 2 ^ (s - 1) := by
  have hP : 2 ^ s = 2 * 2 ^ (s - 1) := by
    have : s = (s - 1) + 1 := by omega
    conv_lhs => rw [this, pow_succ]
    ring
  have hdm := Nat.div_add_mod n (2 ^ s)
  have hlt : n % 2 ^ s < 2 ^ s := Nat.mod_lt n (pow_pos (by norm_num) s)
  have hmul : 2 ^ s * (n / 2 ^ s) = n / 2 ^ s * 2 ^ s := Nat.mul_comm _ _
  have hsucc : (n / 2 ^ s + 1) * 2 ^ s = n / 2 ^ s * 2 ^ s + 2 ^ s := by ring
  unfold round24
  simp only [hs]
  rw [if_neg (by omega)]
  split_ifs with ha hb hc
  · exact ⟨Dvd.intro_left _ rfl, by omega, by omega⟩
  · exact ⟨Dvd.intro_left _ rfl, by omega, by omega⟩
  · exact ⟨Dvd.intro_left _ rfl, by omega, by omega⟩
  · exact ⟨Dvd.intro_left _ rfl, by omega, by omega⟩

/-- The binary32 product `m * 0.01f`, truncated, is `floor(m / 100)` for
every `m < 2^24`. -/
theorem f32_drift_exact (m : Nat) (hm : m < 16777216) :
    round24 (m * 10737418) / 1073741824 = m / 100 := by
  by_cases hsmall : m * 10737418 < 16777216
  · rw [round24_small _ hsmall]
    omega
  · obtain ⟨hb1, hb2⟩ := bitsAux_spec 64 (m * 10737418) (by norm_num; omega)
    have hb2' := hb2 (by omega)
    have hL : bitLength (m * 10737418) = bitsAux 64 (m * 10737418) := rfl
    have hL25 : 25 ≤ bitsAux 64 (m * 10737418) := by
      by_contra hc
      have hle : bitsAux 64 (m * 10737418) ≤ 24 := by omega
      have : 2 ^ bitsAux 64 (m * 10737418) ≤ 2 ^ 24 := Nat.pow_le_pow_right (by omega) hle
      norm_num at this
      omega
    have hL48 : bitsAux 64 (m * 10737418) ≤ 48 := by
      by_contra hc
      have hle : 48 ≤ bitsAux 64 (m * 10737418) - 1 := by omega
      have : 2 ^ 48 ≤ 2 ^ (bitsAux 64 (m * 10737418) - 1) := Nat.pow_le_pow_right (by omega) hle
      norm_num at this
      omega
    obtain ⟨s, hs⟩ : ∃ s, bitsAux 64 (m * 10737418) = s + 24 :=
      ⟨bitsAux 64 (m * 10737418) - 24, by omega⟩
    have hs1 : 1 ≤ s := by omega
    have hs24 : s ≤ 24 := by omega
    obtain ⟨hdvd, hlo, hhi⟩ := round24_spec (m * 10737418) s (by rw [hL, hs]; omega) hs1
    have hP : 2 ^ s = 2 * 2 ^ (s - 1) := by
      have : s = (s - 1) + 1 := by omega
      conv_lhs => rw [this, pow_succ]
      ring
    have hH : 2 ^ (s - 1) ≤ 8388608 := by
      have hle : s - 1 ≤ 23 := by omega
      have : 2 ^ (s - 1) ≤ 2 ^ 23 := Nat.pow_le_pow_right (by omega) hle
      norm_num at this
      omega
    have hN1 : 2 ^ (s - 1) * 16777216 ≤ m * 10737418 := by
      have : 2 ^ (bitsAux 64 (m * 10737418) - 1) = 2 ^ (s - 1) * 16777216 := by
        rw [hs]
        have : s + 24 - 1 = (s - 1) + 24 := by omega
        rw [this, pow_add]
        norm_num
      omega
    have hN2 : m * 10737418 < 2 ^ s * 16777216 := by
      have : 2 ^ bitsAux 64 (m * 10737418) = 2 ^ s * 16777216 := by
        rw [hs, pow_add]
        norm_num
      omega
    have hT : 2 ^ s ∣ 1073741824 := by
      have : (1073741824 : Nat) = 2 ^ 30 := by norm_num
      rw [this]
      exact Nat.pow_dvd_pow 2 (by omega)
    have hlow : m / 100 * 1073741824 ≤ round24 (m * 10737418) := by
      by_contra hc
      have hlt : round24 (m * 10737418) < m / 100 * 1073741824 := by omega
      have hd : 2 ^ s ∣ m / 100 * 1073741824 - round24 (m * 10737418) :=
        Nat.dvd_sub' (Dvd.dvd.mul_left hT _) hdvd
      have hle := Nat.le_of_dvd (by omega) hd
      omega
    have hupp : round24 (m * 10737418) < (m / 100 + 1) * 1073741824 := by
      omega
    exact Nat.div_eq_of_lt_le hlow hupp

theorem f32_drift_exact_top (m : Nat) (h1 : 16777216 ≤ m) (h2 : m ≤ 16777298) :
    round24 (round24 m * 10737418) / 1073741824 = m / 100 := by
  interval_cases m <;> decide

theorem drift_exact (ttl_ms : Int) (h0 : 0 ≤ ttl_ms) (h1 : ttl_ms ≤ 16777298) :
    RedLock.drift ttl_ms = ttl_ms / 100 + 2 := by
  obtain ⟨m, rfl⟩ := Int.eq_ofNat_of_zero_le h0
  have hm : m ≤ 16777298 := by exact_mod_cast h1
  have key : round24 (round24 m * 10737418) / 1073741824 = m / 100 := by
    by_cases hs : m < 16777216
    · rw [round24_small m hs]; exact f32_drift_exact m hs
    · exact f32_drift_exact_top m (by omega) hm
  unfold RedLock.drift f32_to_int f32_mul_drift DRIFT_FACTOR_NUM
  by_cases hz : m = 0
  · subst hz; decide
  · have hpos : (0 : Int) < (m : Int) := by exact_mod_cast Nat.pos_of_ne_zero hz
    rw [Int.sign_eq_one_of_pos hpos, one_mul, Int.natAbs_ofNat]
    have : Int.tdiv ((round24 (round24 m * 10737418) : Nat) : Int) 1073741824 =
        ((round24 (round24 m * 10737418) / 1073741824 : Nat) : Int) := by
      rw [Int.ofNat_tdiv]; rfl
    rw [this, key]
    norm_cast

/-- Counterexample to C3: `ttl_ms = 16777299`, elapsed time 10.  The
conversion of `ttl_ms` to `float` gives 16777300, the `float` product with
`0.01f` is 167773, so the drift is 167775 and the validity computed by a
round of `lock` and of `continue_lock` is 16609514, while
`ttl_ms - e - (floor(ttl_ms * 0.01) + 2)` is 16609515. -/
theorem drift_differs_for_long_ttl :
    RedLock.drift 16777299 = 167775 ∧
    (16777299 : Int) / 100 + 2 = 167774 ∧
    (RedLock.lock_round Script.sys redlock_three "res" "tok" 16777299
      (World.start script_all_three_ok)).1.valid_time = 16609514 ∧
    (RedLock.continue_round Script.sys redlock_three "res" "tok" 16777299
      (World.start script_all_three_ok)).1.valid_time = 16609514 ∧
    (16777299 : Int) - (1010 - 1000) - ((16777299 : Int) / 100 + 2) = 16609515 := by
  refine ⟨by decide, by decide, by decide, by decide, by decide⟩

/-- C3, amended: for every `0 <= ttl_ms <= 16777298` and every environment,
the validity computed in a round of `RedLock::lock` and of
`RedLock::continue_lock` is `ttl_ms - e - (floor(ttl_ms / 100) + 2)`, where
`e` is the difference of the two clock readings of the round; for
`ttl_ms = 10000` the drift is 102 and with `e = 10` the validity is 9888;
and with three servers all succeeding in a round of 10 ms, `lock` returns
`true` with `valid_time_ = 9888`. -/
theorem validity_formula {σ : Type} (S : Sys σ) (self : RedLock) (resource value : String)
    (ttl_ms : Int) (w : World σ) (h0 : 0 ≤ ttl_ms) (h1 : ttl_ms ≤ 16777298) :
    (RedLock.lock_round S self resource value ttl_ms w).1.valid_time =
      ttl_ms -
        ((get_current_time_ms S (RedLock.lock_fanout S resource value ttl_ms self.servers_ 0
            (get_current_time_ms S w).2).2).1 - (get_current_time_ms S w).1) -
        (ttl_ms / 100 + 2) ∧
    (RedLock.continue_round S self resource value ttl_ms w).1.valid_time =
      ttl_ms -
        ((get_current_time_ms S (RedLock.continue_fanout S resource value ttl_ms self.servers_ 0
            (get_current_time_ms S w).2).2).1 - (get_current_time_ms S w).1) -
        (ttl_ms / 100 + 2) ∧
    (∀ e : Int, RedLock.validity ttl_ms e = ttl_ms - e - (ttl_ms / 100 + 2)) ∧
    RedLock.drift 10000 = 102 ∧
    RedLock.validity 10000 10 = 9888 ∧
    (RedLock.lock Script.sys redlock_three "res" 10000 Lock.default
      (World.start script_all_three_ok)).1 =
        (true, { resource_ := "res", value_ := "0000000100000002000000030000000400000005",
                 valid_time_ := 9888 }) := by
  have hd := drift_exact ttl_ms h0 h1
  refine ⟨?_, ?_, ?_, by decide, by decide, by decide⟩
  · simp only [RedLock.lock_round, RedLock.validity, hd]
  · simp only [RedLock.continue_round, RedLock.validity, hd]
  · intro e
    simp only [RedLock.validity, hd]

/-- Witness for the amended C3: `ttl_ms = 10000` in the run with three
successes and 10 ms elapsed. -/
theorem validity_formula_witness :
    (0 : Int) ≤ 10000 ∧ (10000 : Int) ≤ 16777298 ∧
    (RedLock.lock_round Script.sys redlock_three "res" "tok" 10000
      (World.start script_all_three_ok)).1.valid_time = 9888 :=
  ⟨by decide, by decide,
    ((validity_formula Script.sys redlock_three "res" "tok" 10000
      (World.start script_all_three_ok) (by decide) (by decide)).1).trans (by decide)⟩

/-! ### Invalid configuration -/

/-- C12 (the code at the failing input): a `CRedLock` on which
`AddServerUrl` was never called has an empty server list and
`m_quoRum = 0`; `Lock("res", 10000)` on it makes no per-node call at all
and returns `true`, with validity 9898, because `n >= m_quoRum` is
`0 >= 0`. -/
theorem Lock_without_servers_returns_true :
    credlock_fresh.m_redisServer = [] ∧ credlock_fresh.m_quoRum = 0 ∧
    (CRedLock.Lock Script.sys credlock_fresh "res" 10000 CLock.default
      (World.start script_c_no_server)).1 =
      (true, { m_validityTime := 9898, m_resource := some "res",
               m_val := some "ABABABABABABABABABABABABABABABABABABABAB" }) ∧
    (CRedLock.Lock Script.sys credlock_fresh "res" 10000 CLock.default
      (World.start script_c_no_server)).2.log = [] := by
  refine ⟨by decide, by decide, by decide, by decide⟩

/-! ### Rounds of `CRedLock::Lock` -/

/-- C15 (the code at the failing input): three servers that never answer.
After `SetRetry(3, 200)` a failing `CRedLock::Lock` makes 9 `LockInstance`
calls, that is 3 rounds and not 4, and 3 `usleep` calls, the last of which
is the last thing it does before returning `false`; after `SetRetry(0, 200)`
it makes one round and still sleeps after it. -/
theorem Lock_rounds_at_retry_three :
    (CRedLock.Lock Script.sys (CRedLock.SetRetry credlock_three 3 200) "res" 10000 CLock.default
      (World.start script_c_all_down)).1.1 = false ∧
    LockInstanceCount (CRedLock.Lock Script.sys (CRedLock.SetRetry credlock_three 3 200) "res"
      10000 CLock.default (World.start script_c_all_down)).2.log = 9 ∧
    usleepCount (CRedLock.Lock Script.sys (CRedLock.SetRetry credlock_three 3 200) "res"
      10000 CLock.default (World.start script_c_all_down)).2.log = 3 ∧
    (CRedLock.Lock Script.sys (CRedLock.SetRetry credlock_three 3 200) "res"
      10000 CLock.default (World.start script_c_all_down)).2.log.getLast? =
        some (Event.usleep 100000) ∧
    LockInstanceCount (CRedLock.Lock Script.sys (CRedLock.SetRetry credlock_three 0 200) "res"
      10000 CLock.default (World.start script_c_all_down)).2.log = 3 ∧
    (CRedLock.Lock Script.sys (CRedLock.SetRetry credlock_three 0 200) "res"
      10000 CLock.default (World.start script_c_all_down)).2.log.getLast? =
        some (Event.usleep 100000) := by
  refine ⟨by decide, by decide, by decide, by decide, by decide, by decide⟩

/-! ### The reply to `SET ... NX PX` -/

/-- C18 (what the code does): `RedLock::lock_instance` returns `true`
exactly when the context has no error and the reply is a status reply whose
text is the lower-case `"ok"`; `CRedLock::LockInstance` returns `true`
exactly when the reply has the text `"ok"`.  For the reply STATUS `"OK"`,
the answer of Redis to a `SET` that took place, both return `false`; for
STATUS `"ok"` both return `true`; for a nil reply both return `false`. -/
theorem lock_instance_wants_lowercase_ok {σ : Type} (S : Sys σ) (c : Nat)
    (resource value : String) (ttl_ms : Int) (w : World σ) :
    ((RedLock.lock_instance S c resource value ttl_ms w).1 = true ↔
      (S.ctx_err w.env c = 0 ∧
        ∃ reply : redisReply,
          (S.redisCommandArgv c ["SET", resource, value, "NX", "PX", toString ttl_ms] w.env).1 =
            some reply ∧
          reply.type = REDIS_REPLY_STATUS ∧ reply.str = some "ok")) ∧
    ((CRedLock.LockInstance S c resource value ttl_ms w).1 = true ↔
      ∃ reply : redisReply,
        (S.redisCommandArgv c ["set", resource, value, "px", toString ttl_ms, "nx"] w.env).1 =
          some reply ∧
        reply.str = some "ok") ∧
    (RedLock.lock_instance Script.sys 0 "res" "tok" 10000
      (World.start { Script.empty with replies := [some reply_status_OK] })).1 = false ∧
    (CRedLock.LockInstance Script.sys 0 "res" "tok" 10000
      (World.start { Script.empty with replies := [some reply_status_OK] })).1 = false ∧
    (RedLock.lock_instance Script.sys 0 "res" "tok" 10000
      (World.start { Script.empty with replies := [some reply_status_ok] })).1 = true ∧
    (CRedLock.LockInstance Script.sys 0 "res" "tok" 10000
      (World.start { Script.empty with replies := [some reply_status_ok] })).1 = true ∧
    (RedLock.lock_instance Script.sys 0 "res" "tok" 10000
      (World.start { Script.empty with replies := [some reply_nil] })).1 = false ∧
    (CRedLock.LockInstance Script.sys 0 "res" "tok" 10000
      (World.start { Script.empty with replies := [some reply_nil] })).1 = false := by
  refine ⟨?_, ?_, by decide, by decide, by decide, by decide, by decide, by decide⟩
  · unfold RedLock.lock_instance
    by_cases herr : S.ctx_err w.env c ≠ 0
    · rw [if_pos herr]
      simp [herr]
    · rw [if_neg herr]
      have h0 : S.ctx_err w.env c = 0 := by simpa using herr
      cases hr : (S.redisCommandArgv c ["SET", resource, value, "NX", "PX", toString ttl_ms]
          w.env).1 with
      | none => simp [hr]
      | some reply =>
        by_cases hty : reply.type = REDIS_REPLY_STATUS
        · simp [hr, h0, hty]
        · simp [hr, h0, hty]
  · unfold CRedLock.LockInstance
    cases hr : (S.redisCommandArgv c ["set", resource, value, "px", toString ttl_ms, "nx"]
        w.env).1 with
    | none => simp [hr]
    | some reply => simp [hr]

/-! ### Duplicate endpoints -/

/-- Counterexample to C14: the list holds context 0, connected to
`127.0.0.1:6379`, whose `err` field has since been set.
`add_server("127.0.0.1", 6379, err)` skips that entry, connects again,
returns `true`, leaves `err` as it was, and the list now has two entries for
the same endpoint, with quorum 2. -/
theorem duplicate_of_broken_entry_is_added :
    endpointSys.ctx_tcp_host { table := [("127.0.0.1", 6379)], broken := [0] } 0 = "127.0.0.1" ∧
    endpointSys.ctx_tcp_port { table := [("127.0.0.1", 6379)], broken := [0] } 0 = 6379 ∧
    (RedLock.add_server endpointSys redlock_one "127.0.0.1" 6379 ""
      (World.start { table := [("127.0.0.1", 6379)], broken := [0] })).1 =
      (true, { servers_ := [0, 1], quorum_ := 2, retry_count_ := 3, retry_delay_ms_ := 200 }, "") ∧
    (RedLock.add_server endpointSys redlock_one "127.0.0.1" 6379 ""
      (World.start { table := [("127.0.0.1", 6379)], broken := [0] })).2.log =
      [Event.connect "127.0.0.1" 6379] := by
  refine ⟨by decide, by decide, by decide, by decide⟩

/-- C14, amended: whenever the server list contains an entry whose context
has no error (`err == 0`) and has the same host and port,
`RedLock::add_server(host, port, err)` returns `false`, sets `err` to
`"Redis server already exists"`, and leaves the object and the world as
they were: no connection attempt, `servers_` and `quorum_` unchanged. -/
theorem add_server_rejects_live_duplicate {σ : Type} (S : Sys σ) (self : RedLock)
    (host : String) (port : Int) (err : String) (w : World σ)
    (hdup : ∃ ctx, ctx ∈ self.servers_ ∧ S.ctx_err w.env ctx = 0 ∧
      host = S.ctx_tcp_host w.env ctx ∧ port = S.ctx_tcp_port w.env ctx) :
    RedLock.add_server S self host port err w =
      ((false, self, "Redis server already exists"), w) := by
  obtain ⟨ctx, hmem, herr, hhost, hport⟩ := hdup
  unfold RedLock.add_server
  rw [if_pos]
  rw [List.any_eq_true]
  exact ⟨ctx, hmem, by simp [herr, ← hhost, ← hport]⟩

/-- Witness for the amended C14: the same endpoint, the existing connection
healthy. -/
theorem add_server_rejects_live_duplicate_witness :
    (∃ ctx, ctx ∈ redlock_one.servers_ ∧
      endpointSys.ctx_err { table := [("127.0.0.1", 6379)], broken := [] } ctx = 0 ∧
      "127.0.0.1" = endpointSys.ctx_tcp_host { table := [("127.0.0.1", 6379)], broken := [] } ctx ∧
      (6379 : Int) =
        endpointSys.ctx_tcp_port { table := [("127.0.0.1", 6379)], broken := [] } ctx) ∧
    (RedLock.add_server endpointSys redlock_one "127.0.0.1" 6379 ""
      (World.start { table := [("127.0.0.1", 6379)], broken := [] })).1 =
      (false, redlock_one, "Redis server already exists") :=
  ⟨⟨0, by decide, by decide, by decide, by decide⟩,
    congrArg Prod.fst (add_server_rejects_live_duplicate endpointSys redlock_one "127.0.0.1" 6379 ""
      (World.start { table := [("127.0.0.1", 6379)], broken := [] })
      ⟨0, by decide, by decide, by decide, by decide⟩)⟩

/-! ### The retry delay of `CRedLock` -/

/-- Counterexample to C16: `m_retryDelay = 200` and `rand()` returning 199
give the delay `199 % 200 + 100 = 299`, which is above 200. -/
theorem delay_exceeds_retry_delay :
    (CRedLock.SetRetry credlock_three 3 200).m_retryDelay = 200 ∧
    CRedLock.delay (CRedLock.SetRetry credlock_three 3 200) 199 = 299 ∧
    ¬ (CRedLock.delay (CRedLock.SetRetry credlock_three 3 200) 199 ≤
      (CRedLock.SetRetry credlock_three 3 200).m_retryDelay) := by
  refine ⟨by decide, by decide, by decide⟩

/-- C16, amended: for every `m_retryDelay > 0` (small enough for
`m_retryDelay - 1 + m_retryDelay / 2` to be an `int`) and every `r >= 0`
returned by `rand()`, the delay computed in `CRedLock::Lock` and
`CRedLock::ContinueLock` is `r % m_retryDelay + floor(m_retryDelay / 2)` and
lies in the interval `[m_retryDelay / 2, m_retryDelay / 2 + m_retryDelay - 1]`. -/
theorem delay_range (self : CRedLock) (r : Int)
    (hd : 0 < self.m_retryDelay) (hr : 0 ≤ r)
    (hfit : self.m_retryDelay - 1 + self.m_retryDelay / 2 ≤ INT_MAX) :
    CRedLock.delay self r = r % self.m_retryDelay + self.m_retryDelay / 2 ∧
    self.m_retryDelay / 2 ≤ CRedLock.delay self r ∧
    CRedLock.delay self r ≤ self.m_retryDelay / 2 + self.m_retryDelay - 1 := by
  unfold INT_MAX at hfit
  have h1 : Int.tmod r self.m_retryDelay = r % self.m_retryDelay :=
    Int.tmod_eq_emod hr (le_of_lt hd)
  have h2 : Int.tdiv self.m_retryDelay 2 = self.m_retryDelay / 2 :=
    Int.tdiv_eq_ediv (le_of_lt hd) (by decide)
  have h3 : 0 ≤ r % self.m_retryDelay := Int.emod_nonneg r (by omega)
  have h4 : r % self.m_retryDelay < self.m_retryDelay := Int.emod_lt_of_pos r hd
  have hval : CRedLock.delay self r = r % self.m_retryDelay + self.m_retryDelay / 2 := by
    unfold CRedLock.delay double_to_int
    rw [h1, h2, if_pos (by constructor <;> omega)]
  rw [hval]
  refine ⟨rfl, by omega, by omega⟩

/-- Witness for the amended C16: `m_retryDelay = 200`, `rand()` returning
199. -/
theorem delay_range_witness :
    (0 : Int) < (CRedLock.SetRetry credlock_three 3 200).m_retryDelay ∧
    (100 : Int) ≤ CRedLock.delay (CRedLock.SetRetry credlock_three 3 200) 199 ∧
    CRedLock.delay (CRedLock.SetRetry credlock_three 3 200) 199 ≤ 299 :=
  ⟨by decide,
    (delay_range (CRedLock.SetRetry credlock_three 3 200) 199 (by decide) (by decide)
      (by decide)).2.1.trans' (by decide),
    (delay_range (CRedLock.SetRetry credlock_three 3 200) 199 (by decide) (by decide)
      (by decide)).2.2.trans (by decide)⟩

/-! ### Quorum intersection -/

theorem majorities_meet (N : Nat) (q : Int) (hq : (N : Int) < 2 * q) (A B : Finset (Fin N))
    (hA : q ≤ (A.card : Int)) (hB : q ≤ (B.card : Int)) : (A ∩ B).Nonempty := by
  rw [Finset.nonempty_iff_ne_empty]
  intro hempty
  have hcard := Finset.card_union_add_card_inter A B
  rw [hempty, Finset.card_empty] at hcard
  have hle : (A ∪ B).card ≤ N := by
    have := Finset.card_le_univ (A ∪ B)
    simpa using this
  omega

theorem outside_majority_small (N : Nat) (q : Int) (A : Finset (Fin N))
    (hA : q ≤ (A.card : Int)) : ((Aᶜ.card : Nat) : Int) ≤ (N : Int) - q := by
  have h := Finset.card_compl A
  have hle : A.card ≤ N := by
    have := Finset.card_le_univ A
    simpa using this
  simp only [Fintype.card_fin] at h
  omega

theorem after_adds_quorum {σ : Type} (S : Sys σ) (q0 : Int) (reqs : List (String × Int))
    (w : World σ) (h1 : 1 ≤ (RedLock.after_adds S q0 reqs w).servers_.length) :
    (RedLock.after_adds S q0 reqs w).quorum_ =
      (((RedLock.after_adds S q0 reqs w).servers_.length / 2 : Nat) : Int) + 1 := by
  have key := add_server_all_inv S reqs (0, RedLock.fresh q0, "") w
    ⟨by simp [RedLock.fresh], by intro h; omega⟩
  unfold RedLock.after_adds at h1 ⊢
  rw [key.1] at h1 ⊢
  exact key.2 h1

theorem after_AddServerUrl_quorum {σ : Type} (S : Sys σ) (reqs : List (String × Int))
    (w : World σ) (h1 : 1 ≤ (CRedLock.after_adds S reqs w).m_redisServer.length) :
    (CRedLock.after_adds S reqs w).m_quoRum =
      (((CRedLock.after_adds S reqs w).m_redisServer.length / 2 : Nat) : Int) + 1 := by
  have hlen : (CRedLock.construct S w).1.m_redisServer.length = 0 := by
    unfold CRedLock.construct CRedLock.Initialize
    by_cases hfd : (S.open_urandom w.env).1 = -1 <;> simp [hfd]
  have key := AddServerUrl_all_inv S reqs (0, (CRedLock.construct S w).1)
    (CRedLock.construct S w).2 ⟨hlen, by intro h; omega⟩
  unfold CRedLock.after_adds at h1 ⊢
  rw [key.1] at h1 ⊢
  exact key.2 h1

/-- C19: after any sequence of `add_server` calls on a fresh `RedLock` that
leaves `N >= 1` servers, the stored quorum `q` satisfies `q <= N` and
`2 * q > N`; hence any two sets of at least `q` of the `N` authorities
(positions of the server list) share an authority, and at most `N - q < q`
authorities lie outside a set of at least `q`.  The same holds for
`m_quoRum` after `AddServerUrl` calls on a fresh `CRedLock`. -/
theorem quorum_intersection {σ : Type} (S : Sys σ) (q0 : Int) (reqs creqs : List (String × Int))
    (w cw : World σ) :
    (1 ≤ (RedLock.after_adds S q0 reqs w).servers_.length →
      (RedLock.after_adds S q0 reqs w).quorum_ ≤
          ((RedLock.after_adds S q0 reqs w).servers_.length : Int) ∧
        ((RedLock.after_adds S q0 reqs w).servers_.length : Int) <
          2 * (RedLock.after_adds S q0 reqs w).quorum_ ∧
        ((RedLock.after_adds S q0 reqs w).servers_.length : Int) -
            (RedLock.after_adds S q0 reqs w).quorum_ < (RedLock.after_adds S q0 reqs w).quorum_ ∧
        ∀ A B : Finset (Fin (RedLock.after_adds S q0 reqs w).servers_.length),
          (RedLock.after_adds S q0 reqs w).quorum_ ≤ (A.card : Int) →
          (RedLock.after_adds S q0 reqs w).quorum_ ≤ (B.card : Int) →
          (A ∩ B).Nonempty ∧
            ((Aᶜ.card : Nat) : Int) ≤ ((RedLock.after_adds S q0 reqs w).servers_.length : Int) -
              (RedLock.after_adds S q0 reqs w).quorum_) ∧
    (1 ≤ (CRedLock.after_adds S creqs cw).m_redisServer.length →
      (CRedLock.after_adds S creqs cw).m_quoRum ≤
          ((CRedLock.after_adds S creqs cw).m_redisServer.length : Int) ∧
        ((CRedLock.after_adds S creqs cw).m_redisServer.length : Int) <
          2 * (CRedLock.after_adds S creqs cw).m_quoRum ∧
        ((CRedLock.after_adds S creqs cw).m_redisServer.length : Int) -
            (CRedLock.after_adds S creqs cw).m_quoRum < (CRedLock.after_adds S creqs cw).m_quoRum ∧
        ∀ A B : Finset (Fin (CRedLock.after_adds S creqs cw).m_redisServer.length),
          (CRedLock.after_adds S creqs cw).m_quoRum ≤ (A.card : Int) →
          (CRedLock.after_adds S creqs cw).m_quoRum ≤ (B.card : Int) →
          (A ∩ B).Nonempty ∧
            ((Aᶜ.card : Nat) : Int) ≤
              ((CRedLock.after_adds S creqs cw).m_redisServer.length : Int) -
                (CRedLock.after_adds S creqs cw).m_quoRum) := by
  constructor
  · intro h1
    have hq := after_adds_quorum S q0 reqs w h1
    have hlt : ((RedLock.after_adds S q0 reqs w).servers_.length : Int) <
        2 * (RedLock.after_adds S q0 reqs w).quorum_ := by
      rw [hq]; push_cast; omega
    refine ⟨by rw [hq]; push_cast; omega, hlt, by omega, fun A B hA hB =>
      ⟨majorities_meet _ _ hlt A B hA hB, outside_majority_small _ _ A hA⟩⟩
  · intro h1
    have hq := after_AddServerUrl_quorum S creqs cw h1
    have hlt : ((CRedLock.after_adds S creqs cw).m_redisServer.length : Int) <
        2 * (CRedLock.after_adds S creqs cw).m_quoRum := by
      rw [hq]; push_cast; omega
    refine ⟨by rw [hq]; push_cast; omega, hlt, by omega, fun A B hA hB =>
      ⟨majorities_meet _ _ hlt A B hA hB, outside_majority_small _ _ A hA⟩⟩

/-- Witness for C19: three successful additions give `N = 3` and `q = 2`,
so `N < 2 * q`, on either class. -/
theorem quorum_intersection_witness :
    (RedLock.after_adds Script.sys 7 [("a", 1), ("b", 2), ("c", 3)]
      (World.start script_three_conns)).servers_.length = 3 ∧
    (RedLock.after_adds Script.sys 7 [("a", 1), ("b", 2), ("c", 3)]
      (World.start script_three_conns)).quorum_ = 2 ∧
    ((RedLock.after_adds Script.sys 7 [("a", 1), ("b", 2), ("c", 3)]
      (World.start script_three_conns)).servers_.length : Int) <
      2 * (RedLock.after_adds Script.sys 7 [("a", 1), ("b", 2), ("c", 3)]
        (World.start script_three_conns)).quorum_ ∧
    (CRedLock.after_adds Script.sys [("a", 1), ("b", 2), ("c", 3)]
      (World.start script_three_conns)).m_quoRum ≤
      ((CRedLock.after_adds Script.sys [("a", 1), ("b", 2), ("c", 3)]
        (World.start script_three_conns)).m_redisServer.length : Int) :=
  ⟨by decide, by decide,
    ((quorum_intersection Script.sys 7 [("a", 1), ("b", 2), ("c", 3)]
      [("a", 1), ("b", 2), ("c", 3)] (World.start script_three_conns)
      (World.start script_three_conns)).1 (by decide)).2.1,
    ((quorum_intersection Script.sys 7 [("a", 1), ("b", 2), ("c", 3)]
      [("a", 1), ("b", 2), ("c", 3)] (World.start script_three_conns)
      (World.start script_three_conns)).2 (by decide)).1⟩

/-! ### Token rendering -/

theorem hexDigitLower_mem (d : Nat) (h : d < 16) : hexDigitLower d ∈ lowerHexDigits := by
  interval_cases d <;> decide

theorem hexDigitUpper_mem (d : Nat) (h : d < 16) : hexDigitUpper d ∈ upperHexDigits := by
  interval_cases d <;> decide

theorem hexDigitLower_inj (a b : Nat) (ha : a < 16) (hb : b < 16)
    (h : hexDigitLower a = hexDigitLower b) : a = b := by
  interval_cases a <;> interval_cases b <;> first | rfl | (exfalso; revert h; decide)

theorem hexDigitUpper_inj (a b : Nat) (ha : a < 16) (hb : b < 16)
    (h : hexDigitUpper a = hexDigitUpper b) : a = b := by
  interval_cases a <;> interval_cases b <;> first | rfl | (exfalso; revert h; decide)

theorem fmt_08x_eq (n : Nat) :
    fmt_08x n = [hexDigitLower (n / 268435456 % 16), hexDigitLower (n / 16777216 % 16),
      hexDigitLower (n / 1048576 % 16), hexDigitLower (n / 65536 % 16),
      hexDigitLower (n / 4096 % 16), hexDigitLower (n / 256 % 16),
      hexDigitLower (n / 16 % 16), hexDigitLower (n / 1 % 16)] := by
  have hr : List.range 8 = [0, 1, 2, 3, 4, 5, 6, 7] := by decide
  unfold fmt_08x
  rw [hr]
  simp

theorem fmt_08x_length (n : Nat) : (fmt_08x n).length = 8 := by
  simp [fmt_08x]

theorem fmt_02X_length (b : Nat) : (fmt_02X b).length = 2 := rfl

theorem fmt_08x_mem (n : Nat) (c : Char) (h : c ∈ fmt_08x n) : c ∈ lowerHexDigits := by
  unfold fmt_08x at h
  rw [List.mem_map] at h
  obtain ⟨i, _, rfl⟩ := h
  exact hexDigitLower_mem _ (Nat.mod_lt _ (by decide))

theorem fmt_02X_mem (b : Nat) (c : Char) (h : c ∈ fmt_02X b) : c ∈ upperHexDigits := by
  unfold fmt_02X at h
  rcases List.mem_cons.mp h with h | h
  · rw [h]; exact hexDigitUpper_mem _ (Nat.mod_lt _ (by decide))
  · rw [List.mem_singleton.mp h]; exact hexDigitUpper_mem _ (Nat.mod_lt _ (by decide))

theorem fmt_08x_inj (n m : Nat) (hn : n < 4294967296) (hm : m < 4294967296)
    (h : fmt_08x n = fmt_08x m) : n = m := by
  rw [fmt_08x_eq, fmt_08x_eq] at h
  simp only [List.cons.injEq, and_true] at h
  obtain ⟨h7, h6, h5, h4, h3, h2, h1, h0⟩ := h
  have e7 := hexDigitLower_inj _ _ (Nat.mod_lt _ (by decide)) (Nat.mod_lt _ (by decide)) h7
  have e6 := hexDigitLower_inj _ _ (Nat.mod_lt _ (by decide)) (Nat.mod_lt _ (by decide)) h6
  have e5 := hexDigitLower_inj _ _ (Nat.mod_lt _ (by decide)) (Nat.mod_lt _ (by decide)) h5
  have e4 := hexDigitLower_inj _ _ (Nat.mod_lt _ (by decide)) (Nat.mod_lt _ (by decide)) h4
  have e3 := hexDigitLower_inj _ _ (Nat.mod_lt _ (by decide)) (Nat.mod_lt _ (by decide)) h3
  have e2 := hexDigitLower_inj _ _ (Nat.mod_lt _ (by decide)) (Nat.mod_lt _ (by decide)) h2
  have e1 := hexDigitLower_inj _ _ (Nat.mod_lt _ (by decide)) (Nat.mod_lt _ (by decide)) h1
  have e0 := hexDigitLower_inj _ _ (Nat.mod_lt _ (by decide)) (Nat.mod_lt _ (by decide)) h0
  omega

theorem fmt_02X_inj (a b : Nat) (ha : a < 256) (hb : b < 256)
    (h : fmt_02X a = fmt_02X b) : a = b := by
  unfold fmt_02X at h
  simp only [List.cons.injEq, and_true] at h
  obtain ⟨h1, h0⟩ := h
  have e1 := hexDigitUpper_inj _ _ (Nat.mod_lt _ (by decide)) (Nat.mod_lt _ (by decide)) h1
  have e0 := hexDigitUpper_inj _ _ (Nat.mod_lt _ (by decide)) (Nat.mod_lt _ (by decide)) h0
  omega

theorem flatten_map_length {α : Type} (f : α → List Char) (k : Nat)
    (hlen : ∀ a, (f a).length = k) (xs : List α) :
    ((xs.map f).flatten).length = k * xs.length := by
  induction xs with
  | nil => simp
  | cons x xs ih =>
    simp only [List.map_cons, List.flatten_cons, List.length_append, List.length_cons, ih, hlen]
    ring

theorem flatten_map_mem {α : Type} (f : α → List Char) (D : List Char)
    (hmem : ∀ a c, c ∈ f a → c ∈ D) (xs : List α) (c : Char)
    (h : c ∈ (xs.map f).flatten) : c ∈ D := by
  rw [List.mem_flatten] at h
  obtain ⟨l, hl, hc⟩ := h
  rw [List.mem_map] at hl
  obtain ⟨a, _, rfl⟩ := hl
  exact hmem a c hc

theorem flatten_map_inj {α : Type} (f : α → List Char) (k : Nat) (P : α → Prop)
    (hlen : ∀ a, (f a).length = k) (hinj : ∀ a b, P a → P b → f a = f b → a = b) :
    ∀ xs ys : List α, xs.length = ys.length → (∀ x ∈ xs, P x) → (∀ y ∈ ys, P y) →
      (xs.map f).flatten = (ys.map f).flatten → xs = ys := by
  intro xs
  induction xs with
  | nil =>
    intro ys hl _ _ _
    cases ys with
    | nil => rfl
    | cons y ys => simp at hl
  | cons x xs ih =>
    intro ys hl hx hy h
    cases ys with
    | nil => simp at hl
    | cons y ys =>
      simp only [List.map_cons, List.flatten_cons] at h
      have hh := List.append_inj h (by rw [hlen, hlen])
      have hxy : x = y :=
        hinj x y (hx x (List.mem_cons_self _ _)) (hy y (List.mem_cons_self _ _)) hh.1
      have hrest : xs = ys :=
        ih ys (by simpa using hl) (fun a ha => hx a (List.mem_cons_of_mem _ ha))
          (fun a ha => hy a (List.mem_cons_of_mem _ ha)) hh.2
      rw [hxy, hrest]

theorem render_unique_id_data (ws : List Nat) (h : ws.length = 5) :
    (render_unique_id ws).data = (ws.map fmt_08x).flatten := by
  have hl : ((ws.map fmt_08x).flatten).length = 8 * ws.length :=
    flatten_map_length fmt_08x 8 fmt_08x_length ws
  unfold render_unique_id
  rw [List.take_of_length_le (le_of_eq h)]
  exact List.take_of_length_le (by rw [hl, h])

theorem range_getD_mod (bs : List Nat) (h : ∀ b ∈ bs, b < 256) :
    ∀ n, bs.length = n → (List.range n).map (fun i => bs.getD i 0 % 256) = bs := by
  intro n hn
  apply List.ext_getElem
  · simp [hn]
  · intro i h1 h2
    simp only [List.getElem_map, List.getElem_range]
    have hi : i < bs.length := h2
    rw [List.getD_eq_getElem _ _ hi]
    exact Nat.mod_eq_of_lt (h _ (List.getElem_mem _))

theorem render_lock_id_data (bs : List Nat) (h : bs.length = 20) (hb : ∀ b ∈ bs, b < 256) :
    (CRedLock.render_lock_id bs).data = (bs.map fmt_02X).flatten := by
  have e := range_getD_mod bs hb 20 h
  unfold CRedLock.render_lock_id
  show ((List.range 20).map (fun i => fmt_02X (bs.getD i 0 % 256))).flatten = _
  have : (List.range 20).map (fun i => fmt_02X (bs.getD i 0 % 256)) =
      ((List.range 20).map (fun i => bs.getD i 0 % 256)).map fmt_02X := by
    rw [List.map_map]; rfl
  rw [this, e]

theorem draw_words_length {σ : Type} (S : Sys σ) (n : Nat) (w : World σ) :
    (draw_words S n w).1.length = n := by
  induction n generalizing w with
  | zero => rfl
  | succ n ih => simp [draw_words, ih]

theorem draw_words_bound {σ : Type} (S : Sys σ) (n : Nat) (w : World σ) :
    ∀ x ∈ (draw_words S n w).1, x < 4294967296 := by
  induction n generalizing w with
  | zero => intro x hx; simp [draw_words] at hx
  | succ n ih =>
    intro x hx
    simp only [draw_words, List.mem_cons] at hx
    rcases hx with hx | hx
    · rw [hx]; unfold wrapU32; omega
    · exact ih _ x hx

/-- C17: token rendering is an injective map into fixed-width hex strings.
`generate_unique_id` returns the `"%08x"` x5 rendering of five drawn words,
each below `2^32`; for every five words the rendering has exactly 40
characters, each in `0-9a-f`, and two different lists of five 32-bit words
never render to the same string.  `GetUniqueLockId` returns, when the read
yields 20 bytes, the `"%02X"` x20 rendering of the buffer; for every 20
bytes that rendering has exactly 40 characters, each in `0-9A-F`, and two
different lists of 20 bytes never render to the same string. -/
theorem token_rendering_injective :
    (∀ (σ : Type) (S : Sys σ) (w : World σ),
      (generate_unique_id S w).1 = render_unique_id (draw_words S 5 w).1 ∧
      (draw_words S 5 w).1.length = 5 ∧ ∀ x ∈ (draw_words S 5 w).1, x < 4294967296) ∧
    (∀ ws : List Nat, ws.length = 5 →
      (render_unique_id ws).length = 40 ∧
      ∀ c ∈ (render_unique_id ws).data, c ∈ lowerHexDigits) ∧
    (∀ ws ws' : List Nat, ws.length = 5 → ws'.length = 5 →
      (∀ x ∈ ws, x < 4294967296) → (∀ x ∈ ws', x < 4294967296) →
      render_unique_id ws = render_unique_id ws' → ws = ws') ∧
    (∀ (σ : Type) (S : Sys σ) (self : CRedLock) (w : World σ),
      (S.read self.m_fd 20 w.env).1.1 = 20 →
      (CRedLock.GetUniqueLockId S self w).1 =
        some (CRedLock.render_lock_id (S.read self.m_fd 20 w.env).1.2)) ∧
    (∀ bs : List Nat, bs.length = 20 → (∀ b ∈ bs, b < 256) →
      (CRedLock.render_lock_id bs).length = 40 ∧
      ∀ c ∈ (CRedLock.render_lock_id bs).data, c ∈ upperHexDigits) ∧
    (∀ bs bs' : List Nat, bs.length = 20 → bs'.length = 20 →
      (∀ b ∈ bs, b < 256) → (∀ b ∈ bs', b < 256) →
      CRedLock.render_lock_id bs = CRedLock.render_lock_id bs' → bs = bs') := by
  refine ⟨?_, ?_, ?_, ?_, ?_, ?_⟩
  · intro σ S w
    exact ⟨rfl, draw_words_length S 5 w, draw_words_bound S 5 w⟩
  · intro ws h
    constructor
    · show (render_unique_id ws).data.length = 40
      rw [render_unique_id_data ws h, flatten_map_length fmt_08x 8 fmt_08x_length, h]
    · intro c hc
      rw [render_unique_id_data ws h] at hc
      exact flatten_map_mem fmt_08x lowerHexDigits fmt_08x_mem ws c hc
  · intro ws ws' h h' hb hb' e
    have e' : (render_unique_id ws).data = (render_unique_id ws').data := by rw [e]
    rw [render_unique_id_data ws h, render_unique_id_data ws' h'] at e'
    exact flatten_map_inj fmt_08x 8 (fun x => x < 4294967296) fmt_08x_length fmt_08x_inj
      ws ws' (by rw [h, h']) hb hb' e'
  · intro σ S self w h
    unfold CRedLock.GetUniqueLockId
    simp only [h, if_true]
    rfl
  · intro bs h hb
    constructor
    · show (CRedLock.render_lock_id bs).data.length = 40
      rw [render_lock_id_data bs h hb, flatten_map_length fmt_02X 2 fmt_02X_length, h]
    · intro c hc
      rw [render_lock_id_data bs h hb] at hc
      exact flatten_map_mem fmt_02X upperHexDigits fmt_02X_mem bs c hc
  · intro bs bs' h h' hb hb' e
    have e' : (CRedLock.render_lock_id bs).data = (CRedLock.render_lock_id bs').data := by rw [e]
    rw [render_lock_id_data bs h hb, render_lock_id_data bs' h' hb'] at e'
    exact flatten_map_inj fmt_02X 2 (fun x => x < 256) fmt_02X_length fmt_02X_inj
      bs bs' (by rw [h, h']) hb hb' e'

/-- Witness for C17: the words `1, 2, 3, 4, 0xdeadbeef` render to a
40-character lower-case string, the bytes `0, 1, ..., 19` to a 40-character
upper-case string, and changing the last word or the last byte changes the
string. -/
theorem token_rendering_injective_witness :
    render_unique_id [1, 2, 3, 4, 3735928559] = "00000001000000020000000300000004deadbeef" ∧
    (render_unique_id [1, 2, 3, 4, 3735928559]).length = 40 ∧
    render_unique_id [1, 2, 3, 4, 3735928559] ≠ render_unique_id [1, 2, 3, 4, 3735928558] ∧
    CRedLock.render_lock_id (List.range 20) = "000102030405060708090A0B0C0D0E0F10111213" ∧
    (CRedLock.render_lock_id (List.range 20)).length = 40 ∧
    CRedLock.render_lock_id (List.range 20) ≠
      CRedLock.render_lock_id ((List.range 19) ++ [255]) :=
  ⟨by decide,
    (token_rendering_injective.2.1 [1, 2, 3, 4, 3735928559] (by decide)).1,
    fun h => absurd
      (token_rendering_injective.2.2.1 [1, 2, 3, 4, 3735928559] [1, 2, 3, 4, 3735928558]
        (by decide) (by decide) (by decide) (by decide) h) (by decide),
    by decide,
    (token_rendering_injective.2.2.2.2.1 (List.range 20) (by decide) (by decide)).1,
    fun h => absurd
      (token_rendering_injective.2.2.2.2.2 (List.range 20) ((List.range 19) ++ [255])
        (by decide) (by decide) (by decide) (by decide) h) (by decide)⟩

/-! ### Non-positive `ttl_ms` -/

theorem bitLength_ge (n : Nat) (h : n < 2 ^ 64) (k : Nat) (hk : 2 ^ k ≤ n) :
    k + 1 ≤ bitLength n := by
  have hb := (bitsAux_spec 64 n h).1
  by_contra hc
  have hle : bitsAux 64 n ≤ k := by unfold bitLength at hc; omega
  have : 2 ^ bitsAux 64 n ≤ 2 ^ k := Nat.pow_le_pow_right (by omega) hle
  omega

theorem round24_le_double (n : Nat) (h : n < 2 ^ 64) : round24 n ≤ 2 * n := by
  by_cases hs : n < 16777216
  · rw [round24_small n hs]; omega
  · have h25 : 25 ≤ bitLength n := bitLength_ge n h 24 (by norm_num; omega)
    obtain ⟨s, hs'⟩ : ∃ s, bitLength n = s + 24 := ⟨bitLength n - 24, by omega⟩
    obtain ⟨_, _, hhi⟩ := round24_spec n s (by omega) (by omega)
    have hb := (bitsAux_spec 64 n h).2 (by omega)
    have hle : s - 1 ≤ bitsAux 64 n - 1 := by
      have : bitLength n = bitsAux 64 n := rfl
      omega
    have : 2 ^ (s - 1) ≤ 2 ^ (bitsAux 64 n - 1) := Nat.pow_le_pow_right (by omega) hle
    omega

theorem drift_le_self (n : Nat) (h : n ≤ 2147483648) :
    round24 (round24 n * 10737418) / 1073741824 ≤ n := by
  have h1 : round24 n ≤ 2 * n := round24_le_double n (by norm_num; omega)
  have h2 : round24 (round24 n * 10737418) ≤ 2 * (round24 n * 10737418) :=
    round24_le_double _ (by norm_num; omega)
  omega

theorem drift_nonpos (ttl_ms : Int) (h0 : -2147483648 ≤ ttl_ms) (h1 : ttl_ms ≤ 0) :
    ttl_ms - RedLock.drift ttl_ms ≤ -2 := by
  by_cases hz : ttl_ms = 0
  · subst hz; decide
  · have hneg : ttl_ms < 0 := by omega
    have hn : ttl_ms.natAbs ≤ 2147483648 := by omega
    have key := drift_le_self ttl_ms.natAbs hn
    unfold RedLock.drift f32_to_int f32_mul_drift DRIFT_FACTOR_NUM
    rw [Int.sign_eq_neg_one_of_neg hneg, neg_one_mul, Int.neg_tdiv]
    have e : Int.tdiv ((round24 (round24 ttl_ms.natAbs * 10737418) : Nat) : Int) 1073741824 =
        ((round24 (round24 ttl_ms.natAbs * 10737418) / 1073741824 : Nat) : Int) := by
      rw [Int.ofNat_tdiv]; rfl
    rw [e]
    have : ((round24 (round24 ttl_ms.natAbs * 10737418) / 1073741824 : Nat) : Int) ≤
        (ttl_ms.natAbs : Int) := by exact_mod_cast key
    omega

theorem lock_round_valid_time {σ : Type} (S : Sys σ) (self : RedLock) (resource value : String)
    (ttl_ms : Int) (w : World σ) :
    (RedLock.lock_round S self resource value ttl_ms w).1.valid_time =
      RedLock.validity ttl_ms (RedLock.lock_round_elapsed S self resource value ttl_ms w) := rfl

theorem continue_round_valid_time {σ : Type} (S : Sys σ) (self : RedLock)
    (resource value : String) (ttl_ms : Int) (w : World σ) :
    (RedLock.continue_round S self resource value ttl_ms w).1.valid_time =
      RedLock.validity ttl_ms (RedLock.continue_round_elapsed S self resource value ttl_ms w) := rfl

theorem validity_nonpos_ttl (ttl_ms e : Int) (h0 : -2147483648 ≤ ttl_ms) (h1 : ttl_ms ≤ 0)
    (he : 0 ≤ e) : RedLock.validity ttl_ms e ≤ -2 := by
  have := drift_nonpos ttl_ms h0 h1
  unfold RedLock.validity
  omega

theorem continue_loop_failed_rounds {σ : Type} (S : Sys σ) (self : RedLock) (resource : String)
    (ttl_ms : Int) (lock : Lock) :
    ∀ (a : Nat) (w : World σ),
      (∀ i, i < a + 1 → RedLock.round_ok self
        (RedLock.continue_nth_round S self resource lock.value_ ttl_ms (a + 1) i w) = false) →
      ∃ (rounds : List (List Event)) (ds : List Int),
        (RedLock.continue_loop S self resource ttl_ms (a + 1) lock w).2.log =
          w.log ++ joinRounds rounds ds ∧
        rounds.length = a + 1 ∧ ds.length = a ∧
        (∀ r ∈ rounds, IsContinueRound self.servers_ resource lock.value_ ttl_ms r) ∧
        (RedLock.continue_loop S self resource ttl_ms (a + 1) lock w).1 = (false, lock) := by
  intro a
  induction a with
  | zero =>
    intro w h
    have hno : RedLock.round_ok self
        (RedLock.continue_round S self resource lock.value_ ttl_ms w).1 = false := by
      simpa [RedLock.continue_nth_round, RedLock.continue_round_start] using h 0 (by omega)
    obtain ⟨bs, evs, hbl, hb, _, _, hlog⟩ :=
      continue_round_step_log S self resource lock.value_ ttl_ms 0 w
    have hevs : evs = [] := by simpa [IsBackoffLog] using hb
    subst hevs
    have hstep : RedLock.continue_loop S self resource ttl_ms 1 lock w =
        ((false, lock), RedLock.backoff S self 0
          (RedLock.continue_round S self resource lock.value_ ttl_ms w).2) := by
      rw [RedLock.continue_loop]
      simp only [hno]
      simp [RedLock.continue_loop]
    refine ⟨[continueEvents resource lock.value_ ttl_ms self.servers_ bs], [], ?_, rfl, rfl, ?_, ?_⟩
    · rw [hstep]
      simp only
      rw [hlog]
      simp [joinRounds]
    · intro r hr
      rw [List.mem_singleton.mp hr]
      exact ⟨bs, hbl, rfl⟩
    · rw [hstep]
  | succ a ih =>
    intro w h
    have hno : RedLock.round_ok self
        (RedLock.continue_round S self resource lock.value_ ttl_ms w).1 = false := by
      simpa [RedLock.continue_nth_round, RedLock.continue_round_start] using h 0 (by omega)
    obtain ⟨bs, evs, hbl, hb, _, _, hlog⟩ :=
      continue_round_step_log S self resource lock.value_ ttl_ms (a + 1) w
    obtain ⟨d, hd⟩ : ∃ d : Int, evs = [Event.sleep d] := by simpa [IsBackoffLog] using hb
    subst hd
    have hstep : RedLock.continue_loop S self resource ttl_ms (a + 1 + 1) lock w =
        RedLock.continue_loop S self resource ttl_ms (a + 1) lock (RedLock.backoff S self (a + 1)
          (RedLock.continue_round S self resource lock.value_ ttl_ms w).2) := by
      rw [RedLock.continue_loop]
      simp only [hno]
      simp
    obtain ⟨rounds, ds, hl, hr, hds, hshape, hres⟩ := ih
      (RedLock.backoff S self (a + 1)
        (RedLock.continue_round S self resource lock.value_ ttl_ms w).2)
      (fun i hi => by
        have := h (i + 1) (by omega)
        rwa [continue_nth_round_shift] at this)
    refine ⟨continueEvents resource lock.value_ ttl_ms self.servers_ bs :: rounds, d :: ds,
      ?_, by simp [hr], by simp [hds], ?_, by rw [hstep]; exact hres⟩
    · rw [hstep, hl, hlog]
      simp [joinRounds]
    · intro r hr'
      rcases List.mem_cons.mp hr' with h' | h'
      · subst h'; exact ⟨bs, hbl, rfl⟩
      · exact hshape r h'

/-- Counterexample to C13: `ttl_ms = 0`, three servers that never answer,
`retry_count_ = 3`.  `lock` returns `false` only after 12 `lock_instance`
calls, 12 `unlock_instance` calls and 3 retry sleeps; `continue_lock`
returns `false` only after 12 `continue_lock_instance` calls and 3 retry
sleeps.  With `ttl_ms = -5` and servers that answer `ok`, the first thing
`lock` does is a `lock_instance` call with that ttl, which succeeds. -/
theorem nonpositive_ttl_reaches_the_servers :
    (RedLock.lock Script.sys redlock_three "res" 0 Lock.default
        (World.start script_all_down)).1.1 = false ∧
    lockCallCount (RedLock.lock Script.sys redlock_three "res" 0 Lock.default
        (World.start script_all_down)).2.log = 12 ∧
    unlockCallCount (RedLock.lock Script.sys redlock_three "res" 0 Lock.default
        (World.start script_all_down)).2.log = 12 ∧
    sleepCount (RedLock.lock Script.sys redlock_three "res" 0 Lock.default
        (World.start script_all_down)).2.log = 3 ∧
    (RedLock.continue_lock Script.sys redlock_three "res" 0 lock_held
        (World.start script_all_down)).1.1 = false ∧
    continueCallCount (RedLock.continue_lock Script.sys redlock_three "res" 0 lock_held
        (World.start script_all_down)).2.log = 12 ∧
    sleepCount (RedLock.continue_lock Script.sys redlock_three "res" 0 lock_held
        (World.start script_all_down)).2.log = 3 ∧
    (RedLock.lock Script.sys redlock_three "res" (-5) Lock.default
        (World.start script_all_three_ok)).2.log.head? =
      some (Event.lock_instance 0 "res" "0000000100000002000000030000000400000005" (-5) true) := by
  refine ⟨by decide, by decide, by decide, by decide, by decide, by decide, by decide, by decide⟩

/-- C13, amended: for every `ttl_ms <= 0` (an `int`), every non-empty server
list and `0 <= retry_count_ < INT_MAX`, as long as no round measures a
negative elapsed time: `RedLock::lock` returns `false` with the caller's
`Lock` unchanged, but only after `retry_count_ + 1` failed rounds, each
making one `lock_instance` call and then one `unlock_instance` call per
server, with `retry_count_` retry sleeps between the rounds;
`RedLock::continue_lock` returns `false` with the handle unchanged, but only
after `retry_count_ + 1` rounds, each making one `continue_lock_instance`
call per server, with `retry_count_` retry sleeps between the rounds. -/
theorem nonpositive_ttl_fails_after_all_rounds {σ : Type} (S : Sys σ) (self : RedLock)
    (resource : String) (ttl_ms : Int) (lock : Lock) (w : World σ)
    (hne : self.servers_ ≠ [])
    (h0 : 0 ≤ self.retry_count_) (hmax : self.retry_count_ < INT_MAX)
    (hlo : -2147483648 ≤ ttl_ms) (httl : ttl_ms ≤ 0) :
    ((∀ i, i < self.attempts →
        0 ≤ RedLock.lock_round_elapsed S self resource (generate_unique_id S w).1 ttl_ms
          (RedLock.lock_round_start S self resource (generate_unique_id S w).1 ttl_ms
            self.attempts i (generate_unique_id S w).2)) →
      (RedLock.lock S self resource ttl_ms lock w).1 = (false, lock) ∧
      ∃ (rounds : List (List Event)) (ds : List Int),
        (RedLock.lock S self resource ttl_ms lock w).2.log = w.log ++ joinRounds rounds ds ∧
        (rounds.length : Int) = self.retry_count_ + 1 ∧
        (ds.length : Int) = self.retry_count_ ∧
        ∀ r ∈ rounds,
          IsFailedLockRound self.servers_ resource (generate_unique_id S w).1 ttl_ms r) ∧
    ((∀ i, i < self.attempts →
        0 ≤ RedLock.continue_round_elapsed S self resource lock.value_ ttl_ms
          (RedLock.continue_round_start S self resource lock.value_ ttl_ms
            self.attempts i w)) →
      (RedLock.continue_lock S self resource ttl_ms lock w).1 = (false, lock) ∧
      ∃ (rounds : List (List Event)) (ds : List Int),
        (RedLock.continue_lock S self resource ttl_ms lock w).2.log =
          w.log ++ joinRounds rounds ds ∧
        (rounds.length : Int) = self.retry_count_ + 1 ∧
        (ds.length : Int) = self.retry_count_ ∧
        ∀ r ∈ rounds, IsContinueRound self.servers_ resource lock.value_ ttl_ms r) := by
  have hatt := attempts_eq self h0 hmax
  obtain ⟨a, ha⟩ : ∃ a : Nat, self.attempts = a + 1 := ⟨self.attempts - 1, by omega⟩
  have haint : (a : Int) = self.retry_count_ := by
    rw [ha] at hatt
    push_cast at hatt
    omega
  constructor
  · intro hclock
    rw [lock_unfold S self resource ttl_ms lock w hne, ha]
    rw [ha] at hclock
    have hall : ∀ i, i < a + 1 → RedLock.round_ok self
        (RedLock.lock_nth_round S self resource (generate_unique_id S w).1 ttl_ms (a + 1) i
          (generate_unique_id S w).2) = false := by
      intro i hi
      apply round_ok_false_of
      right
      unfold RedLock.lock_nth_round
      rw [lock_round_valid_time]
      have := validity_nonpos_ttl ttl_ms _ hlo httl (hclock i hi)
      omega
    have hres := lock_loop_all_fail S self resource (generate_unique_id S w).1 ttl_ms lock
      (a + 1) (generate_unique_id S w).2 hall
    obtain ⟨init, last, ds, hlog, hds, _, hinit, hcase⟩ :=
      lock_loop_rounds S self resource (generate_unique_id S w).1 ttl_ms a lock
        (generate_unique_id S w).2
    refine ⟨by rw [hres], init ++ [last], ds, ?_, ?_, ?_, ?_⟩
    · rw [hlog, generate_unique_id_log]
    · rcases hcase with ⟨h1, _⟩ | ⟨_, _, h3⟩
      · rw [hres] at h1; simp at h1
      · simp only [List.length_append, List.length_singleton]
        push_cast
        omega
    · rcases hcase with ⟨h1, _⟩ | ⟨_, _, h3⟩
      · rw [hres] at h1; simp at h1
      · omega
    · rcases hcase with ⟨h1, _⟩ | ⟨_, h2, _⟩
      · rw [hres] at h1; simp at h1
      · intro r hr
        rcases List.mem_append.mp hr with h | h
        · exact hinit r h
        · rw [List.mem_singleton.mp h]; exact h2
  · intro hclock
    have hempty : self.servers_.isEmpty = false := by
      cases hs : self.servers_ with
      | nil => exact absurd hs hne
      | cons _ _ => rfl
    have hunf : RedLock.continue_lock S self resource ttl_ms lock w =
        RedLock.continue_loop S self resource ttl_ms (a + 1) lock w := by
      unfold RedLock.continue_lock
      rw [hempty, ha]
      simp
    rw [ha] at hclock
    have hall : ∀ i, i < a + 1 → RedLock.round_ok self
        (RedLock.continue_nth_round S self resource lock.value_ ttl_ms (a + 1) i w) = false := by
      intro i hi
      apply round_ok_false_of
      right
      unfold RedLock.continue_nth_round
      rw [continue_round_valid_time]
      have := validity_nonpos_ttl ttl_ms _ hlo httl (hclock i hi)
      omega
    obtain ⟨rounds, ds, hlog, hr, hds, hshape, hres⟩ :=
      continue_loop_failed_rounds S self resource ttl_ms lock a w hall
    rw [hunf]
    exact ⟨hres, rounds, ds, hlog, by rw [hr]; push_cast; omega, by omega, hshape⟩

/-- Witness for C13: `ttl_ms = 0`, three servers that never answer,
`retry_count_ = 3`, a clock that stands still: both calls return `false`
with the handle unchanged. -/
theorem nonpositive_ttl_fails_after_all_rounds_witness :
    redlock_three.servers_ ≠ [] ∧
    (RedLock.lock Script.sys redlock_three "res" 0 Lock.default
        (World.start script_all_down)).1 = (false, Lock.default) ∧
    (RedLock.continue_lock Script.sys redlock_three "res" 0 lock_held
        (World.start script_all_down)).1 = (false, lock_held) :=
  ⟨by decide,
    ((nonpositive_ttl_fails_after_all_rounds Script.sys redlock_three "res" 0 Lock.default
      (World.start script_all_down) (by decide) (by decide) (by decide) (by decide)
      (by decide)).1 (by decide)).1,
    ((nonpositive_ttl_fails_after_all_rounds Script.sys redlock_three "res" 0 lock_held
      (World.start script_all_down) (by decide) (by decide) (by decide) (by decide)
      (by decide)).2 (by decide)).1⟩

/-! ### Bounds on the validity -/

/-- C2 at `retry_count_ = INT_MAX`, a count that `set_retry_count` accepts:
`int attempt = retry_count_ + 1` overflows, the loop test `attempt-- > 0`
fails at once, and `RedLock::lock` returns `false` without a single call,
the caller's `Lock` unchanged, although the round it would have run (three
servers answering `ok` within 10 ms) has `success_count = 3 >= quorum_ = 2`
and `valid_time = 9888 > 0`; with `retry_count_ = 3` the same call returns
`true`. -/
theorem lock_fails_at_max_retry_count :
    RedLock.set_retry_count redlock_three 2147483647 =
      (true, { redlock_three with retry_count_ := 2147483647 }) ∧
    (RedLock.set_retry_count redlock_three 2147483647).2.servers_ ≠ [] ∧
    0 ≤ (RedLock.set_retry_count redlock_three 2147483647).2.retry_count_ ∧
    RedLock.attempts (RedLock.set_retry_count redlock_three 2147483647).2 = 0 ∧
    (RedLock.lock_round Script.sys (RedLock.set_retry_count redlock_three 2147483647).2 "res"
        (generate_unique_id Script.sys (World.start script_all_three_ok)).1 10000
        (generate_unique_id Script.sys (World.start script_all_three_ok)).2).1 =
      { success_count := 3, valid_time := 9888 } ∧
    RedLock.round_ok (RedLock.set_retry_count redlock_three 2147483647).2
      (RedLock.lock_round Script.sys (RedLock.set_retry_count redlock_three 2147483647).2 "res"
        (generate_unique_id Script.sys (World.start script_all_three_ok)).1 10000
        (generate_unique_id Script.sys (World.start script_all_three_ok)).2).1 = true ∧
    (RedLock.lock Script.sys (RedLock.set_retry_count redlock_three 2147483647).2 "res" 10000
        Lock.default (World.start script_all_three_ok)).1 = (false, Lock.default) ∧
    (RedLock.lock Script.sys (RedLock.set_retry_count redlock_three 2147483647).2 "res" 10000
        Lock.default (World.start script_all_three_ok)).2.log = [] ∧
    (RedLock.lock Script.sys (RedLock.set_retry_count redlock_three 3).2 "res" 10000
        Lock.default (World.start script_all_three_ok)).1.1 = true := by
  refine ⟨by decide, by decide, by decide, by decide, by decide, by decide, by decide,
    by decide, by decide⟩

/-- C6 at the accepted retry count `INT_MAX`: `int attempt = retry_count_ + 1`
overflows and `RedLock::lock` against three servers that never answer
returns `false` after no fan-out round at all (no `lock_instance` call, no
`unlock_instance` call, no sleep), where `retry_count_ + 1 = 2147483648`
rounds and 2147483647 sleeps are due; with `retry_count_ = 3` the same call
makes 4 rounds (12 `lock_instance` calls) and 3 sleeps. -/
theorem lock_runs_no_round_at_max_retry_count :
    (RedLock.set_retry_count redlock_three 2147483647).1 = true ∧
    (RedLock.set_retry_count redlock_three 2147483647).2.servers_ ≠ [] ∧
    (RedLock.set_retry_count redlock_three 2147483647).2.retry_count_ + 1 = 2147483648 ∧
    wrap32 ((RedLock.set_retry_count redlock_three 2147483647).2.retry_count_ + 1) =
      -2147483648 ∧
    (RedLock.lock Script.sys (RedLock.set_retry_count redlock_three 2147483647).2 "res" 10000
        Lock.default (World.start script_all_down)).1.1 = false ∧
    lockCallCount (RedLock.lock Script.sys (RedLock.set_retry_count redlock_three 2147483647).2
        "res" 10000 Lock.default (World.start script_all_down)).2.log = 0 ∧
    unlockCallCount (RedLock.lock Script.sys (RedLock.set_retry_count redlock_three 2147483647).2
        "res" 10000 Lock.default (World.start script_all_down)).2.log = 0 ∧
    sleepCount (RedLock.lock Script.sys (RedLock.set_retry_count redlock_three 2147483647).2
        "res" 10000 Lock.default (World.start script_all_down)).2.log = 0 ∧
    lockCallCount (RedLock.lock Script.sys (RedLock.set_retry_count redlock_three 3).2
        "res" 10000 Lock.default (World.start script_all_down)).2.log = 12 ∧
    sleepCount (RedLock.lock Script.sys (RedLock.set_retry_count redlock_three 3).2
        "res" 10000 Lock.default (World.start script_all_down)).2.log = 3 := by
  refine ⟨by decide, by decide, by decide, by decide, by decide, by decide, by decide,
    by decide, by decide, by decide⟩

end Dislock
